import Mathlib

/-!
# Docker provisioner of tsuru: deploy pipeline, unit removal and route steps

A shallow embedding of `provision/docker` (files `docker.go`, `actions.go`,
`provisioner.go`).  The external collaborators (metadata store, host engine,
edge router, legacy agent) are state components of `World`; the outcome of
every call to a collaborator is an explicit argument of the embedded
function, so that a theorem quantifies over every behaviour of the
collaborators.  Go `error` values are strings, `nil` is `none`.
-/

namespace Docker

/-! ## Data model -/

/-- Go error values, identified by their message. -/
abbrev Err := String

/-- The `container` struct of `docker.go`; `LastStatusUpdate` is a clock reading. -/
structure container where
  ID : String := ""
  AppName : String := ""
  Type_ : String := ""
  IP : String := ""
  HostAddr : String := ""
  HostPort : String := ""
  SSHHostPort : String := ""
  PrivateKey : String := ""
  Status : String := ""
  Version : String := ""
  Image : String := ""
  Name : String := ""
  User : String := ""
  LastStatusUpdate : Nat := 0
deriving DecidableEq, Repr

/-- The part of `provision.App` that the provisioner reads. -/
structure App where
  Name : String := ""
  Platform : String := ""
  Memory : Nat := 0
  Swap : Nat := 0
  Deploys : Nat := 0
  UpdatePlatform : Bool := false
deriving DecidableEq, Repr

def App.GetName (a : App) : String := a.Name
def App.GetPlatform (a : App) : String := a.Platform
def App.GetDeploys (a : App) : Nat := a.Deploys
def App.GetUpdatePlatform (a : App) : Bool := a.UpdatePlatform

/-- `usePlatformImage` of `docker.go`. -/
def usePlatformImage (app : App) : Bool :=
  let deploys := app.GetDeploys
  if (deploys != 0 && deploys % 10 == 0) || app.GetUpdatePlatform then
    true
  else
    false

/-- Equality of Go results `(value, error)` is decidable. -/
instance instDecidableEqExcept {ε α : Type} [DecidableEq ε] [DecidableEq α] :
    DecidableEq (Except ε α) := fun a b =>
  match a, b with
  | .ok x, .ok y =>
    if h : x = y then isTrue (congrArg Except.ok h) else isFalse (fun h1 => h (Except.ok.inj h1))
  | .error x, .error y =>
    if h : x = y then isTrue (congrArg Except.error h)
    else isFalse (fun h1 => h (Except.error.inj h1))
  | .ok _, .error _ => isFalse (fun h => Except.noConfusion h)
  | .error _, .ok _ => isFalse (fun h => Except.noConfusion h)

/-! ## Configuration -/

/-- The configuration keys read by the embedded functions.  `routerErr` is the
outcome of `getRouter` (reading `docker:router` and looking the router up):
`none` when a router is obtained. -/
structure Config where
  registry : Option String := none
  repositoryNamespace : String := ""
  port : Option String := none
  sshUser : String := ""
  sshAgentPort : Nat := 4545
  routerErr : Option Err := none

/-- `assembleImageName` of `docker.go`. -/
def assembleImageName (cfg : Config) (appName : String) : String :=
  let parts : List String := []
  let registry := cfg.registry.getD ""
  let parts := if registry ≠ "" then parts ++ [registry] else parts
  let parts := parts ++ [cfg.repositoryNamespace, appName]
  "/".intercalate parts

/-- `getPort` of `docker.go`. -/
def getPort (cfg : Config) : Except Err String :=
  match cfg.port with
  | none => .error "key \"docker:run-cmd:port\" not found"
  | some port => .ok port

/-- `container.getAddress` of `docker.go`. -/
def container.getAddress (c : container) : String :=
  "http://" ++ c.HostAddr ++ ":" ++ c.HostPort

/-! ## Collaborators: the world and the calls made on it -/

/-- A selector of the metadata store: `bson.M{"name": n}` or `bson.M{"id": i}`. -/
inductive Selector where
  | byName (name : String)
  | byID (id : String)
deriving DecidableEq, Repr

/-- Whether a stored record matches a selector. -/
def Selector.sat : Selector → container → Bool
  | .byName n, c => c.Name == n
  | .byID i, c => c.ID == i

/-- A route of the edge router: application name and backend address. -/
abbrev Route := String × String

/-- The calls made on the collaborators, as recorded in `World.log`. -/
inductive Event where
  | storeInsert (c : container)
  | storeUpdate (sel : Selector) (c : container)
  | storeRemove (sel : Selector)
  | storeFind (appName : String)
  | nodes
  | createContainer (name : String) (image : String) (appName : String)
  | startContainer (id : String)
  | stopContainer (id : String) (timeout : Nat)
  | removeContainer (id : String)
  | inspectContainer (id : String)
  | attachToContainer (id : String)
  | waitContainer (id : String)
  | commitContainer (id : String) (repository : String)
  | pushImage (name : String)
  | removeImage (name : String)
  | agentDelete (url : String)
  | addRoute (app : String) (address : String)
  | removeRoute (app : String) (address : String)
  | storeGet (id : String)
  | storeList (appName : String)
  | removeBackend (app : String)
deriving DecidableEq, Repr

/-- The state of the collaborators: the records of the metadata store, the
containers and images of the host engine, the routes of the edge router and
the clock; `log` records every call in the order it is made and
`routeHistory` the route table after every router call. -/
structure World where
  store : List container := []
  containers : List String := []
  images : List String := []
  routes : List Route := []
  now : Nat := 0
  log : List Event := []
  routeHistory : List (List Route) := []
deriving DecidableEq, Repr

/-- The outcome of a computation: a value and the world it leaves, or a Go
panic (which ends the run) and the world at that point. -/
inductive Res (α : Type) where
  | ok (val : α) (w : World)
  | panic (msg : String) (w : World)
deriving DecidableEq, Repr

/-- Computations over the world. -/
def M (α : Type) : Type := World → Res α

def M.pure {α : Type} (a : α) : M α := fun w => Res.ok a w

def M.bind {α β : Type} (m : M α) (f : α → M β) : M β := fun w =>
  match m w with
  | Res.ok a w1 => f a w1
  | Res.panic msg w1 => Res.panic msg w1

instance : Monad M where
  pure := M.pure
  bind := M.bind

/-- The world in which a run ends. -/
def Res.world {α : Type} : Res α → World
  | .ok _ w => w
  | .panic _ w => w

/-- The value a run returns, when it does not panic. -/
def Res.value {α : Type} : Res α → Option α
  | .ok a _ => some a
  | .panic _ _ => none

/-- A Go panic. -/
def goPanic {α : Type} (msg : String) : M α := fun w => Res.panic msg w

/-- Records a call in the log. -/
def record (e : Event) : M Unit := fun w => Res.ok () { w with log := w.log ++ [e] }

/-- `time.Now()`: the clock advances at every reading. -/
def timeNow : M Nat := fun w => Res.ok (w.now + 1) { w with now := w.now + 1 }

/-! ### Metadata store (mgo collection): one document per call -/

/-- Replaces the first record that satisfies `p`. -/
def replaceFirst (p : container → Bool) (doc : container) : List container → List container
  | [] => []
  | c :: cs => if p c then doc :: cs else c :: replaceFirst p doc cs

def ErrNotFound : Err := "not found"

/-- `coll.Insert(doc)`. -/
def collInsert (fault : Option Err) (doc : container) : M (Option Err) := fun w =>
  let w := { w with log := w.log ++ [Event.storeInsert doc] }
  match fault with
  | some e => Res.ok (some e) w
  | none => Res.ok none { w with store := w.store ++ [doc] }

/-- `coll.Update(selector, doc)`: replaces the first matching record. -/
def collUpdate (fault : Option Err) (sel : Selector) (doc : container) : M (Option Err) := fun w =>
  let w := { w with log := w.log ++ [Event.storeUpdate sel doc] }
  match fault with
  | some e => Res.ok (some e) w
  | none =>
    if w.store.any sel.sat then
      Res.ok none { w with store := replaceFirst sel.sat doc w.store }
    else
      Res.ok (some ErrNotFound) w

/-- `coll.Remove(selector)`: removes the first matching record. -/
def collRemove (fault : Option Err) (sel : Selector) : M (Option Err) := fun w =>
  let w := { w with log := w.log ++ [Event.storeRemove sel] }
  match fault with
  | some e => Res.ok (some e) w
  | none =>
    if w.store.any sel.sat then
      Res.ok none { w with store := w.store.eraseP sel.sat }
    else
      Res.ok (some ErrNotFound) w

/-! ### Host engine (docker cluster) -/

/-- `dockerCluster().CreateContainerSchedulerOpts`: on success the engine
answers with the address of the chosen node and the ID of the new container. -/
def CreateContainerSchedulerOpts (outcome : Except Err (String × String))
    (name image appName : String) : M (Except Err (String × String)) := fun w =>
  let w := { w with log := w.log ++ [Event.createContainer name image appName] }
  match outcome with
  | .error e => Res.ok (.error e) w
  | .ok (addr, id) => Res.ok (.ok (addr, id)) { w with containers := w.containers ++ [id] }

/-- `dockerCluster().StartContainer`. -/
def StartContainer (fault : Option Err) (id : String) : M (Option Err) := fun w =>
  Res.ok fault { w with log := w.log ++ [Event.startContainer id] }

/-- `dockerCluster().StopContainer`. -/
def StopContainer (fault : Option Err) (id : String) (timeout : Nat) : M (Option Err) := fun w =>
  Res.ok fault { w with log := w.log ++ [Event.stopContainer id timeout] }

def ErrNoSuchContainer : Err := "No such container"

/-- `dockerCluster().RemoveContainer`. -/
def RemoveContainer (fault : Option Err) (id : String) : M (Option Err) := fun w =>
  let w := { w with log := w.log ++ [Event.removeContainer id] }
  match fault with
  | some e => Res.ok (some e) w
  | none =>
    if id ∈ w.containers then
      Res.ok none { w with containers := w.containers.filter (fun x => x ≠ id) }
    else
      Res.ok (some ErrNoSuchContainer) w

/-- `dockerCluster().InspectContainer`, when only its error is read. -/
def InspectContainer (fault : Option Err) (id : String) : M (Option Err) := fun w =>
  Res.ok fault { w with log := w.log ++ [Event.inspectContainer id] }

/-- `dockerCluster().AttachToContainer`. -/
def AttachToContainer (fault : Option Err) (id : String) : M (Option Err) := fun w =>
  Res.ok fault { w with log := w.log ++ [Event.attachToContainer id] }

/-- `dockerCluster().WaitContainer`: the exit status of the container. -/
def WaitContainer (outcome : Except Err Int) (id : String) : M (Except Err Int) := fun w =>
  Res.ok outcome { w with log := w.log ++ [Event.waitContainer id] }

/-- `dockerCluster().CommitContainer`: on success the image `repository` exists. -/
def CommitContainer (fault : Option Err) (id repository : String) : M (Option Err) := fun w =>
  let w := { w with log := w.log ++ [Event.commitContainer id repository] }
  match fault with
  | some e => Res.ok (some e) w
  | none =>
    Res.ok none
      { w with images := if repository ∈ w.images then w.images else w.images ++ [repository] }

/-- `dockerCluster().PushImage`. -/
def PushImage (fault : Option Err) (name : String) : M (Option Err) := fun w =>
  Res.ok fault { w with log := w.log ++ [Event.pushImage name] }

/-! ### Edge router -/

/-- The router handle returned by `getRouter`. -/
inductive Router where
  | mk
deriving DecidableEq, Repr

/-- `getRouter` of `provisioner.go`: the router (nil on error) and the error. -/
def getRouter (cfg : Config) : Option Router × Option Err :=
  match cfg.routerErr with
  | some e => (none, some e)
  | none => (some Router.mk, none)

def ErrRouteNotFound : Err := "Route not found"

/-- `r.AddRoute(name, address)`; adding a route that is present changes nothing.
A call on the nil router panics. -/
def AddRoute (r : Option Router) (fault : Option Err) (name address : String) : M (Option Err) :=
  fun w =>
  match r with
  | none => Res.panic "invalid memory address or nil pointer dereference" w
  | some _ =>
    let w := { w with log := w.log ++ [Event.addRoute name address] }
    match fault with
    | some e => Res.ok (some e) { w with routeHistory := w.routeHistory ++ [w.routes] }
    | none =>
      let routes := if (name, address) ∈ w.routes then w.routes else w.routes ++ [(name, address)]
      Res.ok none { w with routes := routes, routeHistory := w.routeHistory ++ [routes] }

/-- `r.RemoveRoute(name, address)`; `ErrRouteNotFound` when the route is absent.
A call on the nil router panics. -/
def RemoveRoute (r : Option Router) (fault : Option Err) (name address : String) : M (Option Err) :=
  fun w =>
  match r with
  | none => Res.panic "invalid memory address or nil pointer dereference" w
  | some _ =>
    let w := { w with log := w.log ++ [Event.removeRoute name address] }
    match fault with
    | some e => Res.ok (some e) { w with routeHistory := w.routeHistory ++ [w.routes] }
    | none =>
      if (name, address) ∈ w.routes then
        let routes := w.routes.filter (fun x => x ≠ (name, address))
        Res.ok none { w with routes := routes, routeHistory := w.routeHistory ++ [routes] }
      else
        Res.ok (some ErrRouteNotFound) { w with routeHistory := w.routeHistory ++ [w.routes] }

/-! ### Legacy agent -/

/-- The `DELETE` request of `container.removeHost`. -/
def agentDelete (fault : Option Err) (url : String) : M (Option Err) := fun w =>
  Res.ok fault { w with log := w.log ++ [Event.agentDelete url] }

/-! ## `docker.go` -/

/-- `getscheme` of Go's `net/url`: the scheme before the first `:` and the
rest, or the whole text when it has no scheme; an error when it starts with `:`. -/
def getscheme (raw : List Char) : Nat → List Char → Except Err (List Char × List Char)
  | _, [] => .ok ([], raw)
  | i, c :: cs =>
    if c.isAlpha then getscheme raw (i + 1) cs
    else if c.isDigit || c == '+' || c == '-' || c == '.' then
      if i == 0 then .ok ([], raw) else getscheme raw (i + 1) cs
    else if c == ':' then
      if i == 0 then .error "missing protocol scheme" else .ok (raw.take i, cs)
    else .ok ([], raw)

/-- The text after the last `@` of an authority (the whole text when there is none). -/
def afterUserinfo (authority : List Char) : List Char :=
  match authority.reverse.span (fun c => c != '@') with
  | (hostRev, _) => hostRev.reverse

/-- `url.Parse(urlStr)` of Go's `net/url`, reduced to the `Host` field of its
result: `none` when parsing fails (the returned `*URL` is nil). -/
def urlParseHost (urlStr : String) : Option (List Char) :=
  let raw := urlStr.toList.takeWhile (fun c => c != '#')
  match getscheme raw 0 raw with
  | .error _ => none
  | .ok (_, rest) =>
    let rest := rest.takeWhile (fun c => c != '?')
    match rest with
    | '/' :: '/' :: more => some (afterUserinfo (more.takeWhile (fun c => c != '/')))
    | _ => some []

/-- `net.SplitHostPort`, reduced to the host it returns: the text before the
last `:`, or the text between the brackets of `[host]:port`; the empty text
on every error of `SplitHostPort` (no port, too many colons, a bracket out
of place). -/
def splitHostPortHost (hostport : List Char) : List Char :=
  match hostport.reverse.span (fun c => c != ':') with
  | (_, []) => []
  | (_, _ :: beforeRev) =>
    let before := beforeRev.reverse
    if hostport.head? = some '[' then
      match hostport.tail.span (fun c => c != ']') with
      | (_, []) => []
      | (inner, _ :: after) =>
        if before = '[' :: inner ++ [']'] then
          if inner.any (fun c => c == '[') || after.any (fun c => c == '[' || c == ']') then []
          else inner
        else []
    else if before.any (fun c => c == ':') then []
    else if hostport.any (fun c => c == '[' || c == ']') then []
    else before

/-- `urlToHost` of `docker.go`; `none` is the nil dereference of `url.Host`
after a failed parse. -/
def urlToHost (urlStr : String) : Option String :=
  match urlParseHost urlStr with
  | none => none
  | some host => some (String.mk (splitHostPortHost host))

/-- `dockerCluster().Nodes()`: the addresses of the registered nodes. -/
def Nodes (outcome : Except Err (List String)) : M (Except Err (List String)) := fun w =>
  Res.ok outcome { w with log := w.log ++ [Event.nodes] }

/-- The loop of `hostToNodeAddress` over the registered nodes. -/
def hostToNodeAddressLoop (host : String) : List String → M (Except Err String)
  | [] => pure (.error ("Host `" ++ host ++ "` not found"))
  | address :: rest =>
    match urlToHost address with
    | none => goPanic "invalid memory address or nil pointer dereference"
    | some h => if h == host then pure (.ok address) else hostToNodeAddressLoop host rest

/-- `hostToNodeAddress` of `docker.go`. -/
def hostToNodeAddress (nodes : Except Err (List String)) (host : String) : M (Except Err String) := do
  match ← Nodes nodes with
  | .error e => pure (.error e)
  | .ok ns => hostToNodeAddressLoop host ns

/-- Outcomes of the collaborator calls of `container.create`. -/
structure CreateFaults where
  nodes : Except Err (List String) := .ok []
  create : Except Err (String × String) := .ok ("", "")

/-- `container.create` of `docker.go`; the receiver is returned with the
fields the method assigns. -/
def container.create (cfg : Config) (f : CreateFaults) (c : container) (app : App)
    (imageId : String) (_cmds : List String) (destinationHosts : List String) :
    M (container × Option Err) := do
  match getPort cfg with
  | .error e => pure (c, some e)
  | .ok _port =>
    let user := cfg.sshUser
    let nodeList : Except Err (List String) ←
      (match destinationHosts with
        | [] => pure (.ok [])
        | host :: _ => do
          match ← hostToNodeAddress f.nodes host with
          | .error e => pure (.error e)
          | .ok nodeName => pure (.ok [nodeName]))
    match nodeList with
    | .error e => pure (c, some e)
    | .ok _ =>
      match ← CreateContainerSchedulerOpts f.create c.Name imageId app.GetName with
      | .error e => pure (c, some e)
      | .ok (addr, id) =>
        match urlToHost addr with
        | none => goPanic "invalid memory address or nil pointer dereference"
        | some host => pure ({ c with ID := id, HostAddr := host, User := user }, none)

/-- The port bindings reported by the engine for a container. -/
structure PortBinding where
  HostIp : String := ""
  HostPort : String := ""
deriving DecidableEq, Repr

/-- The `NetworkSettings` of an inspected container. -/
structure NetworkSettings where
  IPAddress : String := ""
  Ports : String → List PortBinding := fun _ => []

structure containerNetworkInfo where
  HTTPHostPort : String := ""
  SSHHostPort : String := ""
  IP : String := ""
deriving DecidableEq, Repr

/-- The host port of the first binding with a non-empty host port and host IP
(the empty string when there is none): the two loops of `networkInfo`. -/
def firstHostPort : List PortBinding → String
  | [] => ""
  | port :: rest => if port.HostPort ≠ "" ∧ port.HostIp ≠ "" then port.HostPort else firstHostPort rest

/-- `dockerCluster().InspectContainer`, with the network settings it reports. -/
def InspectContainerNet (outcome : Except Err (Option NetworkSettings)) (id : String) :
    M (Except Err (Option NetworkSettings)) := fun w =>
  Res.ok outcome { w with log := w.log ++ [Event.inspectContainer id] }

/-- `container.networkInfo` of `docker.go`. -/
def container.networkInfo (cfg : Config) (inspect : Except Err (Option NetworkSettings))
    (c : container) : M (containerNetworkInfo × Option Err) := do
  let netInfo : containerNetworkInfo := {}
  match getPort cfg with
  | .error e => pure (netInfo, some e)
  | .ok port =>
    match ← InspectContainerNet inspect c.ID with
    | .error e => pure (netInfo, some e)
    | .ok dockerContainer =>
      let netInfo : containerNetworkInfo :=
        match dockerContainer with
        | some ns =>
          { IP := ns.IPAddress,
            HTTPHostPort := firstHostPort (ns.Ports (port ++ "/tcp")),
            SSHHostPort := firstHostPort (ns.Ports "22/tcp") }
        | none => netInfo
      if netInfo.HTTPHostPort = "" then
        pure (netInfo, some ("Container port " ++ port ++ " is not mapped to any host port"))
      else
        pure (netInfo, none)

/-- `container.setStatus` of `docker.go`. -/
def container.setStatus (fault : Option Err) (c : container) (status : String) :
    M (container × Option Err) := do
  let now ← timeNow
  let c := { c with Status := status, LastStatusUpdate := now }
  let err ← collUpdate fault (.byID c.ID) c
  pure (c, err)

/-- `container.setImage` of `docker.go`. -/
def container.setImage (fault : Option Err) (c : container) (imageId : String) :
    M (container × Option Err) := do
  let c := { c with Image := imageId }
  let err ← collUpdate fault (.byID c.ID) c
  pure (c, err)

/-- `container.removeHost` of `docker.go`.  The request that `http.NewRequest`
builds for the URL is taken to be well formed: with the `url.Parse` embedded
above (`urlParseHost`) a text that starts with `http://` always parses. -/
def container.removeHost (cfg : Config) (fault : Option Err) (c : container) : M (Option Err) :=
  agentDelete fault
    ("http://" ++ c.HostAddr ++ ":" ++ toString cfg.sshAgentPort ++ "/container/" ++ c.IP)

/-- Outcomes of the collaborator calls of `container.remove`. -/
structure RemoveFaults where
  engine : Option Err := none
  agent : Option Err := none
  store : Option Err := none
  route : Option Err := none

/-- `container.remove` of `docker.go`. -/
def container.remove (cfg : Config) (f : RemoveFaults) (c : container) : M (Option Err) := do
  let address := c.getAddress
  let _ ← RemoveContainer f.engine c.ID
  let _ ← c.removeHost cfg f.agent
  let _ ← collRemove f.store (.byID c.ID)
  let (r, _) := getRouter cfg
  let _ ← RemoveRoute r f.route c.AppName address
  pure none

/-- `pushImage` of `docker.go`: pushes only when `docker:registry` is set. -/
def pushImage (cfg : Config) (fault : Option Err) (name : String) : M (Option Err) := do
  match cfg.registry with
  | some _ =>
    match ← PushImage fault name with
    | some e => pure (some e)
    | none => pure none
  | none => pure none

/-- `container.commit` of `docker.go`. -/
def container.commit (cfg : Config) (commitFault pushFault : Option Err) (c : container) :
    M (String × Option Err) := do
  let repository := assembleImageName cfg c.AppName
  match ← CommitContainer commitFault c.ID repository with
  | some e => pure ("", some ("error in commit container " ++ c.ID ++ ": " ++ e))
  | none =>
    match ← pushImage cfg pushFault repository with
    | some e => pure ("", some ("error in push image " ++ repository ++ ": " ++ e))
    | none => pure (repository, none)

/-- Outcomes of the collaborator calls of `container.stop`. -/
structure StopFaults where
  engine : Option Err := none
  update : Option Err := none

/-- `container.stop` of `docker.go`; the receiver is returned with its new status. -/
def container.stop (f : StopFaults) (c : container) : M (container × Option Err) := do
  if c.Status = "stopped" then
    pure (c, none)
  else
    let _ ← StopContainer f.engine c.ID 10
    let (c, _) ← c.setStatus f.update "stopped"
    pure (c, none)

/-- `container.start` of `docker.go`. -/
def container.start (cfg : Config) (fault : Option Err) (c : container) : M (Option Err) := do
  match getPort cfg with
  | .error e => pure (some e)
  | .ok _ =>
    match ← StartContainer fault c.ID with
    | some e => pure (some e)
    | none => pure none

/-- `container.logs` of `docker.go`. -/
def container.logs (inspectFault attachFault : Option Err) (c : container) : M (Option Err) := do
  match ← InspectContainer inspectFault c.ID with
  | some e => pure (some e)
  | none => AttachToContainer attachFault c.ID

/-- `removeContainer` of `provisioner.go`. -/
def removeContainer (cfg : Config) (sf : StopFaults) (rf : RemoveFaults) (c : container) :
    M (Option Err) := do
  let (c, _) ← c.stop sf
  let err ← c.remove cfg rf
  pure err

/-! ## The action pipeline (package `action`) -/

/-- The `action.Result` values that the docker actions produce. -/
inductive Result where
  | null
  | cont (c : container)
  | conts (cs : List container)
  | str (s : String)
deriving DecidableEq, Repr

structure FWContext (π : Type) where
  Previous : Result
  Params : List π

structure BWContext (π : Type) where
  FWResult : Result
  Params : List π

/-- An `action.Action`: `Backward` may be absent. -/
structure Action (π : Type) where
  Name : String
  Forward : FWContext π → M (Except Err Result)
  Backward : Option (BWContext π → M Unit) := none
  MinParams : Nat := 0

/-- Modelled from the spec: the backward chain of `Pipeline.Execute` (package
`action`, not part of the sources at hand).  The list holds the actions whose
forward succeeded, the latest first, each with the result its forward
produced; their backward functions run in that order. -/
def rollback {π : Type} (params : List π) : List (Action π × Result) → M Unit
  | [] => pure ()
  | (a, r) :: rest => do
    match a.Backward with
    | some backward => backward { FWResult := r, Params := params }
    | none => pure ()
    rollback params rest

/-- Modelled from the spec: the forward chain of `Pipeline.Execute` (package
`action`, not part of the sources at hand), section 4.4 of the specification.
The forward of each action runs in order and receives the result of the one
before as `Previous`; on the first forward error the backward functions of the
actions that succeeded run in reverse order and the error is returned; an
action whose `MinParams` exceeds the number of parameters is rejected like a
failed forward. -/
def executeFrom {π : Type} (params : List π) :
    List (Action π) → Result → List (Action π × Result) → M (Except Err Result)
  | [], prev, _ => pure (.ok prev)
  | a :: rest, prev, done => do
    let r : Except Err Result ←
      (if params.length < a.MinParams then
        pure (.error "Not enough parameters to call Action.Forward.")
      else
        a.Forward { Previous := prev, Params := params })
    match r with
    | .ok res => executeFrom params rest res ((a, res) :: done)
    | .error e => do
      rollback params done
      pure (.error e)

structure Pipeline (π : Type) where
  actions : List (Action π)

/-- `action.NewPipeline`. -/
def NewPipeline {π : Type} (actions : List (Action π)) : Pipeline π := { actions := actions }

/-- Modelled from the spec: `Pipeline.Execute` followed by `Pipeline.Result`
(package `action`, not part of the sources at hand): the error of the first
failing forward, or the output of the last forward. -/
def Pipeline.Execute {π : Type} (p : Pipeline π) (params : List π) : M (Except Err Result) :=
  executeFrom params p.actions Result.null []

/-! ## `actions.go`: the actions of the run-container pipelines -/

structure runContainerActionsArgs where
  app : App
  imageID : String := ""
  commands : List String := []
  destinationHosts : List String := []
  privateKey : String := ""

/-- Outcomes of the collaborator calls of one run of a run-container pipeline
(`deploy` or `start`), one per call site: `contName` is what `containerName()`
returns, the fields `bw...` belong to the backward functions and `remove` to
the `c.remove()` that ends `followLogsAndCommit`. -/
structure RunFaults where
  getOne : Option Err := none
  contName : String := ""
  insert : Option Err := none
  create : CreateFaults := {}
  start : Option Err := none
  update : Option Err := none
  inspectLogs : Option Err := none
  attach : Option Err := none
  wait : Except Err Int := .ok 0
  commit : Option Err := none
  push : Option Err := none
  remove : RemoveFaults := {}
  inspectNet : Except Err (Option NetworkSettings) := .ok none
  setImage : Option Err := none
  setStatus : Option Err := none
  bwRemoveRecord : Option Err := none
  bwRemoveContainer : Option Err := none
  bwStopContainer : Option Err := none

/-- The action `insertEmptyContainerInDB`. -/
def insertEmptyContainerInDB (f : RunFaults) : Action runContainerActionsArgs where
  Name := "insert-empty-container"
  Forward := fun ctx => do
    match ctx.Params with
    | [] => goPanic "index out of range"
    | args :: _ =>
      let contName := f.contName
      let cont : container :=
        { AppName := args.app.GetName
          Type_ := args.app.GetPlatform
          Name := contName
          Status := "created"
          Image := args.imageID
          PrivateKey := args.privateKey }
      match ← collInsert f.insert cont with
      | some e => pure (.error e)
      | none => pure (.ok (.cont cont))
  Backward := some fun ctx => do
    match ctx.FWResult with
    | .cont c =>
      let _ ← collRemove f.bwRemoveRecord (.byName c.Name)
      pure ()
    | _ => goPanic "interface conversion: interface is not docker.container"

/-- The action `updateContainerInDB`. -/
def updateContainerInDB (f : RunFaults) : Action runContainerActionsArgs where
  Name := "update-database-container"
  Forward := fun ctx => do
    match ctx.Previous with
    | .cont cont =>
      match ← collUpdate f.update (.byName cont.Name) cont with
      | some e => pure (.error e)
      | none => pure (.ok (.cont cont))
    | _ => goPanic "interface conversion: interface is not docker.container"
  Backward := some fun _ => pure ()

/-- The action `createContainer`. -/
def createContainer (cfg : Config) (f : RunFaults) : Action runContainerActionsArgs where
  Name := "create-container"
  Forward := fun ctx => do
    match ctx.Previous with
    | .cont cont =>
      match ctx.Params with
      | [] => goPanic "index out of range"
      | args :: _ =>
        let (cont, err) ← cont.create cfg f.create args.app args.imageID args.commands
          args.destinationHosts
        match err with
        | some e => pure (.error e)
        | none => pure (.ok (.cont cont))
    | _ => goPanic "interface conversion: interface is not docker.container"
  Backward := some fun ctx => do
    match ctx.FWResult with
    | .cont c =>
      let _ ← RemoveContainer f.bwRemoveContainer c.ID
      pure ()
    | _ => goPanic "interface conversion: interface is not docker.container"

/-- The action `setNetworkInfo`; it has no backward function. -/
def setNetworkInfo (cfg : Config) (f : RunFaults) : Action runContainerActionsArgs where
  Name := "set-network-info"
  Forward := fun ctx => do
    match ctx.Previous with
    | .cont c =>
      let (info, err) ← c.networkInfo cfg f.inspectNet
      match err with
      | some e => pure (.error e)
      | none =>
        pure (.ok (.cont
          { c with IP := info.IP, HostPort := info.HTTPHostPort, SSHHostPort := info.SSHHostPort }))
    | _ => goPanic "interface conversion: interface is not docker.container"

/-- The action `startContainer`. -/
def startContainer (cfg : Config) (f : RunFaults) : Action runContainerActionsArgs where
  Name := "start-container"
  Forward := fun ctx => do
    match ctx.Previous with
    | .cont c =>
      match ← c.start cfg f.start with
      | some e => pure (.error e)
      | none => pure (.ok (.cont c))
    | _ => goPanic "interface conversion: interface is not docker.container"
  Backward := some fun ctx => do
    match ctx.FWResult with
    | .cont c =>
      let _ ← StopContainer f.bwStopContainer c.ID 10
      pure ()
    | _ => goPanic "interface conversion: interface is not docker.container"

/-- The action `followLogsAndCommit`. -/
def followLogsAndCommit (cfg : Config) (f : RunFaults) : Action runContainerActionsArgs where
  Name := "follow-logs-and-commit"
  Forward := fun ctx => do
    match ctx.Previous with
    | .cont c =>
      match ctx.Params with
      | [] => goPanic "index out of range"
      | _args :: _ =>
        match ← c.logs f.inspectLogs f.attach with
        | some e => pure (.error e)
        | none =>
          match ← WaitContainer f.wait c.ID with
          | .error e => pure (.error e)
          | .ok status =>
            if status ≠ 0 then
              pure (.error ("Exit status " ++ toString status))
            else
              let (imageId, err) ← c.commit cfg f.commit f.push
              match err with
              | some e => pure (.error e)
              | none =>
                let _ ← c.remove cfg f.remove
                pure (.ok (.str imageId))
    | _ => pure (.error "Previous result must be a container.")
  Backward := some fun _ => pure ()
  MinParams := 1

/-! ## `docker.go`: `getImage` and `deploy` -/

/-- Modelled from the spec: `getOneContainerByAppName` (defined in a file of
the package that is not part of the sources at hand): a record of the app
from the metadata store, or an error when the query fails or the app has no
record. -/
def getOneContainerByAppName (fault : Option Err) (appName : String) : M (Except Err container) :=
  fun w =>
  let w1 := { w with log := w.log ++ [Event.storeFind appName] }
  match fault with
  | some e => Res.ok (.error e) w1
  | none =>
    match w.store.find? (fun c => c.AppName == appName) with
    | some c => Res.ok (.ok c) w1
    | none => Res.ok (.error ErrNotFound) w1

/-- `getImage` of `docker.go`. -/
def getImage (cfg : Config) (fault : Option Err) (app : App) : M String := do
  match ← getOneContainerByAppName fault app.GetName with
  | .error _ => pure (assembleImageName cfg app.GetPlatform)
  | .ok c =>
    if c.Image = "" ∨ usePlatformImage app = true then
      pure (assembleImageName cfg app.GetPlatform)
    else
      pure c.Image

/-- `deploy` of `docker.go`: the image id and the error it returns. -/
def deploy (cfg : Config) (f : RunFaults) (app : App) (commands : List String) :
    M (String × Option Err) := do
  let imageId ← getImage cfg f.getOne app
  let actions := [
    insertEmptyContainerInDB f,
    createContainer cfg f,
    startContainer cfg f,
    updateContainerInDB f,
    followLogsAndCommit cfg f]
  let pipeline := NewPipeline actions
  let args : runContainerActionsArgs := { app := app, imageID := imageId, commands := commands }
  match ← pipeline.Execute [args] with
  | .error e => pure ("", some e)
  | .ok (.str s) => pure (s, none)
  | .ok _ => goPanic "interface conversion: interface is not string"

/-! ## `docker.go`: `start`; `provisioner.go`: adding and removing units -/

/-- Outcomes of one `start` flow: `prepare` is the outcome of the key
generation, of `marshalKey` and of `runWithAgentCmds` (the private key and the
commands, or the first error), `run` the outcomes of the pipeline and of the
`setImage` and `setStatus` that follow it. -/
structure StartFaults where
  prepare : Except Err (String × List String) := .ok ("", [])
  run : RunFaults := {}

/-- `start` of `docker.go`. -/
def start (cfg : Config) (f : StartFaults) (app : App) (imageId : String)
    (destinationHosts : List String) : M (Except Err container) := do
  match f.prepare with
  | .error e => pure (.error e)
  | .ok (privateKey, commands) =>
    let actions := [
      insertEmptyContainerInDB f.run,
      createContainer cfg f.run,
      startContainer cfg f.run,
      updateContainerInDB f.run,
      setNetworkInfo cfg f.run]
    let pipeline := NewPipeline actions
    let args : runContainerActionsArgs :=
      { app := app
        imageID := imageId
        commands := commands
        destinationHosts := destinationHosts
        privateKey := privateKey }
    match ← pipeline.Execute [args] with
    | .error e => pure (.error e)
    | .ok (.cont c) =>
      let (c, err) ← c.setImage f.run.setImage imageId
      match err with
      | some e => pure (.error e)
      | none =>
        let (c, err) ← c.setStatus f.run.setStatus "started"
        match err with
        | some e => pure (.error e)
        | none => pure (.ok c)
    | .ok _ => goPanic "interface conversion: interface is not docker.container"

/-- Outcomes of the collaborator calls of one `removeContainer`. -/
structure UnitFaults where
  stop : StopFaults := {}
  remove : RemoveFaults := {}

/-- `removeContainer` on each container of a list, in order, the `i`-th call
with the outcomes `faults i`; errors are ignored (logged). -/
def removeContainers (cfg : Config) (faults : Nat → UnitFaults) : Nat → List container → M Unit
  | _, [] => pure ()
  | i, c :: rest => do
    let _ ← removeContainer cfg (faults i).stop (faults i).remove c
    removeContainers cfg faults (i + 1) rest

/-- Outcomes of `addContainersWithHost`: of the `i`-th `start` flow and of the
removal of the `i`-th created container after a failure. -/
structure AddFaults where
  starts : Nat → StartFaults := fun _ => {}
  undo : Nat → UnitFaults := fun _ => {}

/-- The `units` start flows of `addContainersWithHost`, which the source runs as
goroutines: here one after the other, by index.  Returns the created
containers and the errors, as the two channels receive them. -/
def startUnits (cfg : Config) (starts : Nat → StartFaults) (a : App) (imageId : String)
    (destinationHost : List String) : Nat → Nat → M (List container × List Err)
  | _, 0 => pure ([], [])
  | i, n + 1 => do
    let r ← start cfg (starts i) a imageId destinationHost
    let (created, errors) ← startUnits cfg starts a imageId destinationHost (i + 1) n
    match r with
    | .error e => pure (created, e :: errors)
    | .ok c => pure (c :: created, errors)

/-- `addContainersWithHost` of `provisioner.go`. -/
def addContainersWithHost (cfg : Config) (f : AddFaults) (a : App) (units : Nat)
    (destinationHost : List String) : M (Except Err (List container)) := do
  if units = 0 then
    pure (.error "Cannot add 0 units")
  else
    let imageId := assembleImageName cfg a.GetName
    let (createdContainers, errors) ← startUnits cfg f.starts a imageId destinationHost 0 units
    match errors with
    | err :: _ =>
      removeContainers cfg f.undo 0 createdContainers
      pure (.error err)
    | [] => pure (.ok createdContainers)

/-! ## `actions.go`: the actions of the change-units pipelines -/

structure changeUnitsPipelineArgs where
  app : App
  toRemove : List container := []
  unitsToAdd : Nat := 0
  toHost : String := ""

/-- Outcomes of the collaborator calls of a change-units pipeline, per call
site and, inside a loop, per position: `addRoute i` is the outcome of the
`AddRoute` for the new container at position `i`, `addRouteUndo j` of the
compensating `RemoveRoute` for position `j` inside the same forward,
`bwAddRoute j` of the `RemoveRoute` of the backward; likewise for the removal
of the old routes. -/
structure ChangeFaults where
  add : AddFaults := {}
  bwAdd : Nat → UnitFaults := fun _ => {}
  addRoute : Nat → Option Err := fun _ => none
  addRouteUndo : Nat → Option Err := fun _ => none
  bwAddRoute : Nat → Option Err := fun _ => none
  removeRoute : Nat → Option Err := fun _ => none
  removeRouteUndo : Nat → Option Err := fun _ => none
  bwRemoveRoute : Nat → Option Err := fun _ => none
  removeOld : Nat → UnitFaults := fun _ => {}

/-- The action `provisionAddUnitsToHost`. -/
def provisionAddUnitsToHost (cfg : Config) (f : ChangeFaults) : Action changeUnitsPipelineArgs where
  Name := "provision-add-units-to-host"
  Forward := fun ctx => do
    match ctx.Params with
    | [] => goPanic "index out of range"
    | args :: _ =>
      let destinationHosts : List String := if args.toHost ≠ "" then [args.toHost] else []
      match ← addContainersWithHost cfg f.add args.app args.unitsToAdd destinationHosts with
      | .error e => pure (.error e)
      | .ok containers => pure (.ok (.conts containers))
  Backward := some fun ctx => do
    match ctx.FWResult with
    | .conts containers => removeContainers cfg f.bwAdd 0 containers
    | _ => goPanic "interface conversion: interface is not []docker.container"
  MinParams := 1

/-- `r.RemoveRoute` for each container of a list, in order, every error ignored:
the compensation loop of `addNewRoutes.Forward` and the loop of its backward. -/
def removeRoutes (r : Option Router) (faults : Nat → Option Err) : Nat → List container → M Unit
  | _, [] => pure ()
  | j, cont :: rest => do
    let _ ← RemoveRoute r (faults j) cont.AppName cont.getAddress
    removeRoutes r faults (j + 1) rest

/-- `r.AddRoute` for each container of a list, in order, every error ignored:
the compensation loop of `removeOldRoutes.Forward` and the loop of its backward. -/
def addRoutes (r : Option Router) (faults : Nat → Option Err) : Nat → List container → M Unit
  | _, [] => pure ()
  | j, cont :: rest => do
    let _ ← AddRoute r (faults j) cont.AppName cont.getAddress
    addRoutes r faults (j + 1) rest

/-- The loop of `addNewRoutes.Forward` from position `i` on, `addedContainers`
being the containers routed so far. -/
def addNewRoutesLoop (r : Option Router) (f : ChangeFaults) :
    Nat → List container → List container → M (Option Err)
  | _, _, [] => pure none
  | i, addedContainers, cont :: rest => do
    match ← AddRoute r (f.addRoute i) cont.AppName cont.getAddress with
    | some e =>
      removeRoutes r f.addRouteUndo 0 addedContainers
      pure (some e)
    | none => addNewRoutesLoop r f (i + 1) (addedContainers ++ [cont]) rest

/-- The action `addNewRoutes`. -/
def addNewRoutes (cfg : Config) (f : ChangeFaults) : Action changeUnitsPipelineArgs where
  Name := "add-new-routes"
  Forward := fun ctx => do
    match ctx.Previous with
    | .conts newContainers =>
      match getRouter cfg with
      | (_, some e) => pure (.error e)
      | (r, none) =>
        match ← addNewRoutesLoop r f 0 [] newContainers with
        | some e => pure (.error e)
        | none => pure (.ok (.conts newContainers))
    | _ => goPanic "interface conversion: interface is not []docker.container"
  Backward := some fun ctx => do
    match ctx.FWResult with
    | .conts newContainers =>
      let (r, _) := getRouter cfg
      removeRoutes r f.bwAddRoute 0 newContainers
    | _ => goPanic "interface conversion: interface is not []docker.container"

/-- The loop of `removeOldRoutes.Forward` from position `i` on, `removedConts`
being the containers handled so far. -/
def removeOldRoutesLoop (r : Option Router) (f : ChangeFaults) :
    Nat → List container → List container → M (Option Err)
  | _, _, [] => pure none
  | i, removedConts, cont :: rest => do
    let err ← RemoveRoute r (f.removeRoute i) cont.AppName cont.getAddress
    if err ≠ some ErrRouteNotFound ∧ err ≠ none then
      addRoutes r f.removeRouteUndo 0 removedConts
      pure err
    else
      removeOldRoutesLoop r f (i + 1) (removedConts ++ [cont]) rest

/-- The action `removeOldRoutes`. -/
def removeOldRoutes (cfg : Config) (f : ChangeFaults) : Action changeUnitsPipelineArgs where
  Name := "remove-old-routes"
  Forward := fun ctx => do
    match ctx.Params with
    | [] => goPanic "index out of range"
    | args :: _ =>
      match getRouter cfg with
      | (_, some e) => pure (.error e)
      | (r, none) =>
        match ← removeOldRoutesLoop r f 0 [] args.toRemove with
        | some e => pure (.error e)
        | none => pure (.ok ctx.Previous)
  Backward := some fun ctx => do
    match ctx.Params with
    | [] => goPanic "index out of range"
    | args :: _ =>
      let (r, _) := getRouter cfg
      addRoutes r f.bwRemoveRoute 0 args.toRemove
  MinParams := 1

/-- The action `provisionRemoveOldUnits`; the removals, goroutines in the
source, run one after the other. -/
def provisionRemoveOldUnits (cfg : Config) (f : ChangeFaults) : Action changeUnitsPipelineArgs where
  Name := "provision-remove-old-units"
  Forward := fun ctx => do
    match ctx.Params with
    | [] => goPanic "index out of range"
    | args :: _ =>
      removeContainers cfg f.removeOld 0 args.toRemove
      pure (.ok ctx.Previous)
  Backward := some fun _ => pure ()
  MinParams := 1

/-- Modelled from the spec: `runReplaceUnitsPipeline` (called by
`dockerProvisioner.deploy`, defined in a file that is not part of the sources
at hand): the replace-units flow of section 4.5.2, the four actions
`provisionAddUnitsToHost`, `addNewRoutes`, `removeOldRoutes`,
`provisionRemoveOldUnits` run as one pipeline on the given arguments. -/
def runReplaceUnitsPipeline (cfg : Config) (f : ChangeFaults) (args : changeUnitsPipelineArgs) :
    M (Except Err (List container)) := do
  let pipeline := NewPipeline [
    provisionAddUnitsToHost cfg f,
    addNewRoutes cfg f,
    removeOldRoutes cfg f,
    provisionRemoveOldUnits cfg f]
  match ← pipeline.Execute [args] with
  | .error e => pure (.error e)
  | .ok (.conts cs) => pure (.ok cs)
  | .ok _ => goPanic "interface conversion: interface is not []docker.container"

/-! ## `provisioner.go`: `RemoveUnits` -/

/-- Modelled from the spec: the rank of a status in the removable-first order
of section 4.1: `building`, `down` and `error` first, then `unreachable`, then
`stopped`, then `started`; any other status after these. -/
def statusRank (status : String) : Nat :=
  if status = "building" ∨ status = "down" ∨ status = "error" then 0
  else if status = "unreachable" then 1
  else if status = "stopped" then 2
  else if status = "started" then 3
  else 4

/-- Modelled from the spec: the order of `listByAppOrderedByStatus`, by status
rank and, among equal ranks, by ascending `LastStatusUpdate`. -/
def statusLE (a b : container) : Prop :=
  statusRank a.Status < statusRank b.Status ∨
    (statusRank a.Status = statusRank b.Status ∧ a.LastStatusUpdate ≤ b.LastStatusUpdate)

instance : DecidableRel statusLE := fun a b => by
  unfold statusLE
  exact inferInstance

/-- The records of an app in a store. -/
def appRecords (store : List container) (appName : String) : List container :=
  store.filter (fun c => c.AppName == appName)

/-- Modelled from the spec: the records of an app in the removable-first order
of section 4.1. -/
def orderedByStatus (store : List container) (appName : String) : List container :=
  (appRecords store appName).insertionSort statusLE

/-- Modelled from the spec: `listContainersByAppOrderedByStatus` (defined in a
file of the package that is not part of the sources at hand), section 4.1: the
records of the app, removable states first. -/
def listContainersByAppOrderedByStatus (fault : Option Err) (appName : String) :
    M (Except Err (List container)) := fun w =>
  let w1 := { w with log := w.log ++ [Event.storeFind appName] }
  match fault with
  | some e => Res.ok (.error e) w1
  | none => Res.ok (.ok (orderedByStatus w.store appName)) w1

/-- Outcomes of the collaborator calls of `RemoveUnits`: of the listing and of
the `i`-th `removeContainer`. -/
structure RemoveUnitsFaults where
  list : Option Err := none
  removals : Nat → UnitFaults := fun _ => {}

/-- The loop of `RemoveUnits`: `removeContainer` on `containers[i]` for
`i = from, ..., from + n - 1`; the goroutines of the source run one after the
other. -/
def removeUnitsLoop (cfg : Config) (faults : Nat → UnitFaults) (containers : List container) :
    Nat → Nat → M Unit
  | _, 0 => pure ()
  | i, n + 1 => do
    match containers[i]? with
    | none => goPanic "index out of range"
    | some c =>
      let _ ← removeContainer cfg (faults i).stop (faults i).remove c
      removeUnitsLoop cfg faults containers (i + 1) n

/-- `dockerProvisioner.RemoveUnits` of `provisioner.go`; a nil app is `none`. -/
def RemoveUnits (cfg : Config) (f : RemoveUnitsFaults) (a : Option App) (units : Nat) :
    M (Option Err) := do
  match a with
  | none => pure (some "remove units: app should not be nil")
  | some a =>
    if units < 1 then
      pure (some "remove units: units must be at least 1")
    else
      match ← listContainersByAppOrderedByStatus f.list a.GetName with
      | .error e => pure (some e)
      | .ok containers =>
        if units ≥ containers.length then
          pure (some "remove units: cannot remove all units from app")
        else
          removeUnitsLoop cfg f.removals containers 0 units
          pure none

/-- The app `app3` of `TestUsePlatformImage`: no deploy yet, `UpdatePlatform` unset. -/
def app3 : App := { Name := "app3", Platform := "python", Deploys := 0 }

/-! ## Routes and log entries of containers -/

/-- The route of a container: its app and its address. -/
def routeOf (c : container) : Route := (c.AppName, c.getAddress)

/-- The log entry of an `AddRoute` call for a container. -/
def addRouteEvent (c : container) : Event := Event.addRoute c.AppName c.getAddress

/-- The log entry of a `RemoveRoute` call for a container. -/
def removeRouteEvent (c : container) : Event := Event.removeRoute c.AppName c.getAddress

/-- The IDs of the engine `RemoveContainer` calls of a log, in order. -/
def removedIDs (log : List Event) : List String :=
  log.filterMap (fun e => match e with
    | Event.removeContainer id => some id
    | _ => none)

/-! ## Example inputs -/

/-- A configuration with a registry, as a deployment with `docker:registry` set. -/
def exCfg : Config :=
  { registry := some "localhost:3030", repositoryNamespace := "tsuru", port := some "8888" }

/-- The app of `TestGitDeploy`. -/
def exApp : App := { Name := "myapp", Platform := "python", Deploys := 1 }

/-- A record of another app, in the store before the run. -/
def exOther : container :=
  { ID := "c0ffee", AppName := "other", Name := "0123456789abcdef0123", Status := "started",
    HostAddr := "10.10.10.10", HostPort := "49153" }

/-- A world with one record, one container and one image. -/
def exWorld : World :=
  { store := [exOther], containers := ["c0ffee"], images := ["localhost:3030/tsuru/python"] }

/-- A run in which every call succeeds: the engine creates container `b01dface`
on node `http://10.10.10.11:4243`. -/
def exRun : RunFaults :=
  { contName := "aaaabbbbccccddddeeee"
    create := { create := .ok ("http://10.10.10.11:4243", "b01dface") } }

/-- The build container exits with status 2. -/
def exRunExit2 : RunFaults := { exRun with wait := .ok 2 }

/-- The store fails from the update of step 3 on: the update fails and so does
the compensating removal of the record. -/
def exRunStoreDown : RunFaults :=
  { exRun with update := some "db down", bwRemoveRecord := some "db down" }

/-- The commit succeeds and the push to the registry fails. -/
def exRunPushFails : RunFaults := { exRun with push := some "registry unreachable" }

/-- Two new containers, not routed yet. -/
def exNew0 : container :=
  { ID := "new0", AppName := "myapp", HostAddr := "10.10.10.11", HostPort := "49160",
    Name := "n0", Status := "started" }

/-- Two outgoing containers. -/
def exOld0 : container :=
  { ID := "old0", AppName := "myapp", HostAddr := "10.10.10.10", HostPort := "49153",
    Name := "o0", Status := "started" }

def exOld1 : container :=
  { ID := "old1", AppName := "myapp", HostAddr := "10.10.10.10", HostPort := "49154",
    Name := "o1", Status := "started" }

/-- A world in which both outgoing containers are routed. -/
def exRouted : World :=
  { store := [exOld0, exOld1], containers := ["old0", "old1"],
    routes := [routeOf exOld0, routeOf exOld1] }

/-- The arguments of a replace-units pipeline that removes the two outgoing
containers. -/
def exChangeArgs : changeUnitsPipelineArgs :=
  { app := exApp, toRemove := [exOld0, exOld1], unitsToAdd := 2 }

/-- Three records of `myapp` (one in error, one stopped, one started) and one of
another app. -/
def exUnitErr : container :=
  { ID := "u-err", AppName := "myapp", HostAddr := "10.10.10.10", HostPort := "49170",
    Name := "e0", Status := "error", LastStatusUpdate := 7 }

def exUnitStopped : container :=
  { ID := "u-stopped", AppName := "myapp", HostAddr := "10.10.10.10", HostPort := "49171",
    Name := "e1", Status := "stopped", LastStatusUpdate := 3 }

def exUnitStarted : container :=
  { ID := "u-started", AppName := "myapp", HostAddr := "10.10.10.10", HostPort := "49172",
    Name := "e2", Status := "started", LastStatusUpdate := 1 }

def exUnits : World :=
  { store := [exUnitStarted, exOther, exUnitStopped, exUnitErr]
    containers := ["u-started", "c0ffee", "u-stopped", "u-err"]
    routes := [routeOf exUnitStarted, routeOf exOther] }

/-- The engine fails to remove the first container; the store removals succeed. -/
def exEngineFails : RemoveUnitsFaults :=
  { removals := fun i => if i = 0 then { remove := { engine := some "engine down" } } else {} }

/-! ## What the edge router sees -/

/-- Whether a log entry is a call on the edge router. -/
def Event.isRouterCall : Event → Bool
  | .addRoute _ _ => true
  | .removeRoute _ _ => true
  | .removeBackend _ => true
  | _ => false

/-- The calls on the edge router of a log, in order. -/
def routerCalls (log : List Event) : List Event := log.filter Event.isRouterCall

/-- What the edge router has seen: its routes, the route table after each call
and the calls made on it. -/
def routerView (w : World) : List Route × List (List Route) × List Event :=
  (w.routes, w.routeHistory, routerCalls w.log)

/-- A computation that leaves the view of the router as it is, however it ends. -/
def KeepsRouter {α : Type} (m : M α) : Prop := ∀ w, routerView (m w).world = routerView w

/-- An action none of whose functions makes a router call. -/
def Action.KeepsRouter {π : Type} (a : Action π) : Prop :=
  (∀ ctx, Docker.KeepsRouter (a.Forward ctx)) ∧
  (∀ bw, a.Backward = some bw → ∀ ctx, Docker.KeepsRouter (bw ctx))

/-- Between two worlds the route `k` stays: it is in the table at the end and in
the table after every router call made in between. -/
def Kept (k : Route) (w w1 : World) : Prop :=
  k ∈ w1.routes ∧ ∃ snaps, w1.routeHistory = w.routeHistory ++ snaps ∧ ∀ s ∈ snaps, k ∈ s

/-- Between two worlds every router call made satisfies `Q`. -/
def Calls (Q : Event → Prop) (w w1 : World) : Prop :=
  ∃ evs, routerCalls w1.log = routerCalls w.log ++ evs ∧ ∀ e ∈ evs, Q e

/-- Both: the route `k` stays and every router call satisfies `Q`. -/
def Safe (Q : Event → Prop) (k : Route) (w w1 : World) : Prop := Kept k w w1 ∧ Calls Q w w1

/-- The containers that the start flows of `provisionAddUnitsToHost` create when
the replace-units flow runs from the world `w`: the new containers of the flow. -/
def newUnits (cfg : Config) (f : ChangeFaults) (args : changeUnitsPipelineArgs) (w : World) :
    List container :=
  match startUnits cfg f.add.starts args.app (assembleImageName cfg args.app.GetName)
      (if args.toHost ≠ "" then [args.toHost] else []) 0 args.unitsToAdd w with
  | .ok (created, _) _ => created
  | .panic _ _ => []

/-- The router call `e` is not the removal of the route of a container of
`toRemove`. -/
def notOutgoing (toRemove : List container) (e : Event) : Prop :=
  ∀ o ∈ toRemove, e ≠ removeRouteEvent o

/-- Between two worlds the app `name` is routed: it has a route at the end and
after every router call made in between. -/
def AppRouted (name : String) (w w1 : World) : Prop :=
  (∃ address, (name, address) ∈ w1.routes) ∧
    ∃ snaps, w1.routeHistory = w.routeHistory ++ snaps ∧
      ∀ s ∈ snaps, ∃ address, (name, address) ∈ s

/-- The network settings that the engine reports for a container whose port
`8888/tcp` is bound to `hostPort`. -/
def exNet (hostPort : String) : NetworkSettings :=
  { IPAddress := "172.17.0.2"
    Ports := fun k => if k = "8888/tcp" then [{ HostIp := "0.0.0.0", HostPort := hostPort }] else [] }

/-- Two start flows that succeed: containers `new0` and `new1` on the node
`10.10.10.11`, with the host ports 49160 and 49161. -/
def exStarts : Nat → StartFaults := fun i =>
  if i = 0 then
    { run := { contName := "n0", create := { create := .ok ("http://10.10.10.11:4243", "new0") },
               inspectNet := .ok (some (exNet "49160")) } }
  else
    { run := { contName := "n1", create := { create := .ok ("http://10.10.10.11:4243", "new1") },
               inspectNet := .ok (some (exNet "49161")) } }

/-- A world in which only the first outgoing container is routed. -/
def exOneRoute : World :=
  { store := [exOld0, exOld1], containers := ["old0", "old1"], routes := [routeOf exOld0] }

/-- Both start flows succeed and every call of the flow succeeds. -/
def exReplaceOk : ChangeFaults := { add := { starts := exStarts } }

/-- Both start flows succeed; the router fails on the `RemoveRoute` of the
second outgoing container and on the compensating `AddRoute` calls. -/
def exRouterFlaps : ChangeFaults :=
  { add := { starts := exStarts }
    removeRoute := fun i => if i = 1 then some "router down" else none
    removeRouteUndo := fun _ => some "router down" }

/-- A record of `myapp` that carries its app image, as a successful deploy
leaves it. -/
def exDeployedRecord : container :=
  { ID := "bleble", AppName := "myapp", Type_ := "python", Image := "localhost:3030/tsuru/myapp" }

/-- A world whose store holds that record. -/
def exDeployed : World := { store := [exDeployedRecord] }

/-- The app `myapp` at its 20th deploy. -/
def exApp20 : App := { Name := "myapp", Platform := "python", Deploys := 20 }

/-! ## Queries of the metadata store -/

/-- Modelled from the spec: `getContainer` (defined in a file of the package
that is not part of the sources at hand), `getByID` of section 4.1: the record
of the store with the given `ID`, or an error when the query fails or there
is none. -/
def getContainer (fault : Option Err) (id : String) : M (Except Err container) := fun w =>
  let w1 := { w with log := w.log ++ [Event.storeGet id] }
  match fault with
  | some e => Res.ok (.error e) w1
  | none =>
    match w.store.find? (fun c => c.ID == id) with
    | some c => Res.ok (.ok c) w1
    | none => Res.ok (.error ErrNotFound) w1

/-- The container that the first start flow of `exStarts` returns for `myapp`
from `exWorld`. -/
def exStarted : container :=
  { ID := "new0", AppName := "myapp", Type_ := "python", IP := "172.17.0.2",
    HostAddr := "10.10.10.11", HostPort := "49160", Status := "started",
    Image := "localhost:3030/tsuru/myapp", Name := "n0", LastStatusUpdate := 1 }

/-! ## Computations that return -/

/-- The computation `m` returns from every world (no Go panic), with a value
that satisfies `P`. -/
def Ret {α : Type} (P : α → Prop) (m : M α) : Prop :=
  ∀ w, ∃ a w1, m w = Res.ok a w1 ∧ P a

/-- The results of a forward that are a container, when it succeeds. -/
def okCont (r : Except Err Result) : Prop := ∀ res, r = .ok res → ∃ c, res = Result.cont c

/-- The addresses that the engine gives (of the chosen node and of the
registered nodes) parse as URLs, so that `urlToHost` returns. -/
def CreateFaults.parses (f : CreateFaults) : Prop :=
  (∀ addr id, f.create = .ok (addr, id) → urlToHost addr ≠ none) ∧
  (∀ ns, f.nodes = .ok ns → ∀ a ∈ ns, urlToHost a ≠ none)

/-- Both start flows of `exStarts` succeed; every other call succeeds too. -/
def exAddOk : AddFaults := { starts := exStarts }

/-- The second start flow fails at the start of its container. -/
def exAddFails : AddFaults :=
  { starts := fun i =>
      if i = 0 then
        { run := { contName := "n0", create := { create := .ok ("http://10.10.10.11:4243", "new0") },
                   inspectNet := .ok (some (exNet "49160")) } }
      else
        { run := { contName := "n1", create := { create := .ok ("http://10.10.10.11:4243", "new1") },
                   start := some "cannot start" } } }

/-- The container that the second start flow of `exStarts` returns. -/
def exStarted1 : container :=
  { ID := "new1", AppName := "myapp", Type_ := "python", IP := "172.17.0.2",
    HostAddr := "10.10.10.11", HostPort := "49161", Status := "started",
    Image := "localhost:3030/tsuru/myapp", Name := "n1", LastStatusUpdate := 2 }

/-- The arguments of a run-container pipeline for `myapp` and its platform image. -/
def exRunArgs : runContainerActionsArgs :=
  { app := exApp, imageID := "localhost:3030/tsuru/python", privateKey := "key" }

/-- The record that `insertEmptyContainerInDB` inserts in the run `exRun` with
the arguments `exRunArgs`. -/
def exInserted : container :=
  { AppName := "myapp", Type_ := "python", Name := "aaaabbbbccccddddeeee", Status := "created",
    Image := "localhost:3030/tsuru/python", PrivateKey := "key" }

/-- The operations of `docker.go` that change a record: `setStatus`, `setImage`
and `stop`. -/
inductive RecordOp where
  | setStatus (status : String)
  | setImage (imageId : String)
  | stop
deriving DecidableEq, Repr

/-- Runs a record operation on a container; `fault` is the outcome of the
store update of `setStatus` and `setImage`, `sf` the outcomes of `stop`. -/
def RecordOp.run (sf : StopFaults) (fault : Option Err) :
    RecordOp → container → M (container × Option Err)
  | .setStatus status, c => c.setStatus fault status
  | .setImage imageId, c => c.setImage fault imageId
  | .stop, c => c.stop sf

/-- An in-memory container with the ID of `exDeployedRecord` and no other field
set. -/
def exStale : container := { ID := "bleble" }

/-- A container that has no record in `exWorld`. -/
def exGhost : container := { ID := "ghost", AppName := "myapp", Status := "created" }

/-- Modelled from the spec: `listContainersByApp` (defined in a file of the
package that is not part of the sources at hand), `listByApp` of section 4.1:
the records of the app in the store, or an error when the query fails. -/
def listContainersByApp (fault : Option Err) (appName : String) :
    M (Except Err (List container)) := fun w =>
  let w1 := { w with log := w.log ++ [Event.storeList appName] }
  match fault with
  | some e => Res.ok (.error e) w1
  | none => Res.ok (.ok (appRecords w.store appName)) w1

/-! ## `provisioner.go`: `Start` and `Destroy` -/

/-- Outcomes of the collaborator calls of `fixContainer`. -/
structure FixFaults where
  update : Option Err := none
  route : Option Err := none

/-- Modelled from the spec: `fixContainer` (defined in a file of the package
that is not part of the sources at hand), sections 4.5.4 and 4.5.7: when the
`IP` or the `HostPort` reported by the host differ from those of the record,
the record is rewritten and `AddRoute` is issued with the new address. -/
def fixContainer (cfg : Config) (f : FixFaults) (c : container) (info : containerNetworkInfo) :
    M (Option Err) := do
  if info.HTTPHostPort ≠ c.HostPort ∨ info.IP ≠ c.IP then
    let c := { c with IP := info.IP, HostPort := info.HTTPHostPort }
    match ← collUpdate f.update (.byID c.ID) c with
    | some e => pure (some e)
    | none =>
      match getRouter cfg with
      | (_, some e) => pure (some e)
      | (r, none) => AddRoute r f.route c.AppName c.getAddress
  else
    pure none

/-- Outcomes of the collaborator calls of one task of `Start`. -/
structure StartTaskFaults where
  start : Option Err := none
  setStatus : Option Err := none
  inspectNet : Except Err (Option NetworkSettings) := .ok none
  fix : FixFaults := {}

/-- The body of the goroutine of `dockerProvisioner.Start` for one container:
the error it sends on `errCh`, if any. -/
def startTask (cfg : Config) (f : StartTaskFaults) (c : container) : M (Option Err) := do
  match ← c.start cfg f.start with
  | some e => pure (some e)
  | none =>
    let (c, _) ← c.setStatus f.setStatus "started"
    let (info, err) ← c.networkInfo cfg f.inspectNet
    match err with
    | none =>
      let _ ← fixContainer cfg f.fix c info
      pure none
    | some _ => pure none

/-- The tasks of `Start`, goroutines in the source, one after the other by
index: the errors sent on `errCh`, in order. -/
def startTasks (cfg : Config) (faults : Nat → StartTaskFaults) : Nat → List container → M (List Err)
  | _, [] => pure []
  | i, c :: rest => do
    let err ← startTask cfg (faults i) c
    let errs ← startTasks cfg faults (i + 1) rest
    match err with
    | some e => pure (e :: errs)
    | none => pure errs

/-- Outcomes of the collaborator calls of `Start`. -/
structure StartAppFaults where
  list : Option Err := none
  tasks : Nat → StartTaskFaults := fun _ => {}

/-- `dockerProvisioner.Start` of `provisioner.go`: after the tasks are done the
error channel is closed and one receive from it gives the first error sent,
or nil. -/
def Start (cfg : Config) (f : StartAppFaults) (app : App) : M (Option Err) := do
  match ← listContainersByApp f.list app.GetName with
  | .error e => pure (some ("Got error while getting app containers: " ++ e))
  | .ok containers =>
    let errs ← startTasks cfg f.tasks 0 containers
    pure errs.head?

/-- `dockerCluster().RemoveImage`. -/
def RemoveImage (fault : Option Err) (name : String) : M (Option Err) := fun w =>
  let w := { w with log := w.log ++ [Event.removeImage name] }
  match fault with
  | some e => Res.ok (some e) w
  | none => Res.ok none { w with images := w.images.filter (fun x => x ≠ name) }

/-- `removeImage` of `docker.go`. -/
def removeImage (fault : Option Err) (imageId : String) : M (Option Err) :=
  RemoveImage fault imageId

/-- `r.RemoveBackend(name)`: on success the app has no route left.  A call on
the nil router panics. -/
def RemoveBackend (r : Option Router) (fault : Option Err) (name : String) : M (Option Err) :=
  fun w =>
  match r with
  | none => Res.panic "invalid memory address or nil pointer dereference" w
  | some _ =>
    let w := { w with log := w.log ++ [Event.removeBackend name] }
    match fault with
    | some e => Res.ok (some e) { w with routeHistory := w.routeHistory ++ [w.routes] }
    | none =>
      let routes := w.routes.filter (fun x => x.1 ≠ name)
      Res.ok none { w with routes := routes, routeHistory := w.routeHistory ++ [routes] }

/-- Outcomes of the collaborator calls of `Destroy`. -/
structure DestroyFaults where
  list : Option Err := none
  removals : Nat → UnitFaults := fun _ => {}
  image : Option Err := none
  backend : Option Err := none

/-- `dockerProvisioner.Destroy` of `provisioner.go`; the removals, goroutines
in the source, run one after the other. -/
def Destroy (cfg : Config) (f : DestroyFaults) (app : App) : M (Option Err) := do
  match ← listContainersByApp f.list app.GetName with
  | .error e => pure (some e)
  | .ok containers =>
    removeContainers cfg f.removals 0 containers
    let _ ← removeImage f.image (assembleImageName cfg app.GetName)
    match getRouter cfg with
    | (_, some e) => pure (some e)
    | (r, none) =>
      match ← RemoveBackend r f.backend app.GetName with
      | some e => pure (some e)
      | none => pure none

/-- A computation that returns, and whose calls all satisfy `P`. -/
def Logs {α : Type} (P : Event → Prop) (m : M α) : Prop :=
  ∀ w, ∃ a w1 evs, m w = Res.ok a w1 ∧ w1.log = w.log ++ evs ∧ ∀ e ∈ evs, P e

/-- The start of the second container of the app fails; every other call
succeeds. -/
def exStartFails : StartAppFaults :=
  { tasks := fun i => if i = 1 then { start := some "cannot start" } else {} }

/-- The engine fails to remove the first container and the image of the app;
the router removes the backend. -/
def exDestroyFails : DestroyFaults :=
  { removals := fun i => if i = 0 then { remove := { engine := some "engine down" } } else {}
    image := some "no such image" }

/-- `container.available` of `docker.go`. -/
def container.available (c : container) : Bool :=
  c.Status == "started" || c.Status == "unreachable"

/-- The configuration `exCfg` without the key `docker:router`: `getRouter`
returns an error. -/
def exNoRouter : Config :=
  { registry := some "localhost:3030", repositoryNamespace := "tsuru", port := some "8888",
    routerErr := some "key \"docker:router\" not found" }

/-- The build container of a deploy of `myapp`, created and started. -/
def exBuild : container :=
  { ID := "b01dface", AppName := "myapp", Type_ := "python", HostAddr := "10.10.10.11",
    Name := "aaaabbbbccccddddeeee", Status := "created", Image := "localhost:3030/tsuru/python" }

/-- A world that holds the build container and its record. -/
def exBuilding : World :=
  { store := [exOther, exBuild], containers := ["c0ffee", "b01dface"],
    images := ["localhost:3030/tsuru/python"] }

/-- Every call of the run succeeds but the removal of the build container from
the engine. -/
def exRunKeepsContainer : RunFaults :=
  { contName := "aaaabbbbccccddddeeee"
    create := { create := .ok ("http://10.10.10.11:4243", "b01dface") }
    remove := { engine := some "engine down" } }

/-- The build exits with status 2. -/
def exRunBuildFails : RunFaults :=
  { contName := "aaaabbbbccccddddeeee"
    create := { create := .ok ("http://10.10.10.11:4243", "b01dface") }
    wait := .ok 2 }

/-- The characters of host names and of IPv4 addresses: letters, digits, `.`
and `-`. -/
def isHostChar (c : Char) : Bool := c.isAlphanum || c == '.' || c == '-'

/-! ## `provisioner.go`: `Stop` and `Restart` -/

/-- Outcomes of the collaborator calls of `Stop`: of the listing and of the
`i`-th `stop`. -/
structure StopAppFaults where
  list : Option Err := none
  tasks : Nat → StopFaults := fun _ => {}

/-- The tasks of `Stop`, goroutines in the source, one after the other by
index: the errors sent on `errCh`, in order. -/
def stopTasks (faults : Nat → StopFaults) : Nat → List container → M (List Err)
  | _, [] => pure []
  | i, c :: rest => do
    let (_, err) ← c.stop (faults i)
    let errs ← stopTasks faults (i + 1) rest
    match err with
    | some e => pure (e :: errs)
    | none => pure errs

/-- `dockerProvisioner.Stop` of `provisioner.go`. -/
def Stop (f : StopAppFaults) (app : App) : M (Option Err) := do
  match ← listContainersByApp f.list app.GetName with
  | .error _ => pure none
  | .ok containers =>
    let errs ← stopTasks f.tasks 0 containers
    pure errs.head?

/-- `dockerProvisioner.Restart` of `provisioner.go`. -/
def Restart (cfg : Config) (fs : StopAppFaults) (fa : StartAppFaults) (app : App) :
    M (Option Err) := do
  match ← Stop fs app with
  | some e => pure (some e)
  | none => Start cfg fa app

/-! ## `io/flushing_writer.go` -/

/-- The underlying `http.ResponseWriter`, a collaborator: the status codes and
the data it was given, and the number of flushes. -/
structure ResponseWriter where
  headers : List Int := []
  body : List (List Nat) := []
  flushes : Nat := 0
deriving DecidableEq, Repr

/-- The struct `FlushingWriter`. -/
structure FlushingWriter where
  ResponseWriter : ResponseWriter := {}
  wrote : Bool := false
deriving DecidableEq, Repr

/-- Outcome of one `Write`: what the `Write` of the underlying writer returns,
whether the underlying writer is an `http.Flusher`, and the text of the value
recovered when its `Flush` panics. -/
structure WriteOutcome where
  written : Nat := 0
  err : Option Err := none
  flusher : Bool := true
  flushPanic : Option String := none
deriving DecidableEq, Repr

/-- `FlushingWriter.WriteHeader`. -/
def FlushingWriter.WriteHeader (w : FlushingWriter) (code : Int) : FlushingWriter :=
  let w := { w with wrote := true }
  { w with ResponseWriter := { w.ResponseWriter with headers := w.ResponseWriter.headers ++ [code] } }

/-- `FlushingWriter.Write`: the writer after the call, and the count and the
error returned. -/
def FlushingWriter.Write (o : WriteOutcome) (w : FlushingWriter) (data : List Nat) :
    FlushingWriter × Nat × Option Err :=
  let w := { w with wrote := true }
  let w := { w with ResponseWriter := { w.ResponseWriter with body := w.ResponseWriter.body ++ [data] } }
  match o.err with
  | some e => (w, o.written, some e)
  | none =>
    if o.flusher then
      match o.flushPanic with
      | some r => (w, o.written, some ("Error recovered on flushing writer: " ++ r))
      | none =>
        ({ w with ResponseWriter := { w.ResponseWriter with flushes := w.ResponseWriter.flushes + 1 } },
          o.written, none)
    else
      (w, o.written, none)

/-- `FlushingWriter.Wrote`. -/
def FlushingWriter.Wrote (w : FlushingWriter) : Bool := w.wrote

/-- A call of `WriteHeader` or of `Write` on a `FlushingWriter`. -/
inductive WriterCall where
  | WriteHeader (code : Int)
  | Write (o : WriteOutcome) (data : List Nat)
deriving DecidableEq, Repr

/-- Whether a call is a call of `WriteHeader`. -/
def WriterCall.isWriteHeader : WriterCall → Bool
  | .WriteHeader _ => true
  | .Write _ _ => false

/-- The writer after a sequence of calls, made in order. -/
def FlushingWriter.after (w : FlushingWriter) : List WriterCall → FlushingWriter
  | [] => w
  | .WriteHeader code :: rest => (w.WriteHeader code).after rest
  | .Write o data :: rest => (w.Write o data).1.after rest

/-- The engine creates the container of the first start flow on a node whose
registered address, `:4243`, is not a URL (`url.Parse` fails with `missing
protocol scheme`). -/
def exAddBadNode : AddFaults :=
  { starts := fun _ => { run := { contName := "n0", create := { create := .ok (":4243", "new0") } } } }

/-! ## Reasoning about computations -/

theorem bind_ok_iff {α β : Type} (m : M α) (f : α → M β) (w w' : World) (b : β) :
    (m >>= f) w = Res.ok b w' ↔ ∃ a w1, m w = Res.ok a w1 ∧ f a w1 = Res.ok b w' := by
  show M.bind m f w = Res.ok b w' ↔ _
  unfold M.bind
  cases hm : m w with
  | ok a w1 =>
    constructor
    · intro h
      exact ⟨a, w1, rfl, h⟩
    · rintro ⟨a1, w2, h1, h2⟩
      cases h1
      exact h2
  | panic msg w1 => simp

theorem pure_ok_iff {α : Type} (a b : α) (w w' : World) :
    (pure a : M α) w = Res.ok b w' ↔ a = b ∧ w = w' := by
  show M.pure a w = Res.ok b w' ↔ _
  simp [M.pure]

theorem goPanic_ne_ok {α : Type} (msg : String) (w w' : World) (b : α) :
    (goPanic msg : M α) w ≠ Res.ok b w' := by
  simp [goPanic]

theorem executeFrom_cons_ok {π : Type} (params : List π) (a : Action π) (rest : List (Action π))
    (prev : Result) (done : List (Action π × Result)) (w w' : World) (x : Except Err Result)
    (hmin : ¬ params.length < a.MinParams)
    (h : executeFrom params (a :: rest) prev done w = Res.ok x w') :
    ∃ r w1, a.Forward { Previous := prev, Params := params } w = Res.ok r w1 ∧
      ((∃ res, r = .ok res ∧ executeFrom params rest res ((a, res) :: done) w1 = Res.ok x w') ∨
       (∃ e, r = .error e ∧ x = .error e ∧ rollback params done w1 = Res.ok () w')) := by
  rw [executeFrom, if_neg hmin, bind_ok_iff] at h
  obtain ⟨r, w1, h1, h2⟩ := h
  refine ⟨r, w1, h1, ?_⟩
  cases r with
  | ok res => exact Or.inl ⟨res, rfl, h2⟩
  | error e =>
    right
    simp only [bind_ok_iff, pure_ok_iff] at h2
    obtain ⟨_, w2, h3, rfl, rfl⟩ := h2
    exact ⟨e, rfl, rfl, h3⟩

theorem rollback_cons_ok {π : Type} (params : List π) (a : Action π) (r : Result)
    (rest : List (Action π × Result)) (bw : BWContext π → M Unit) (hbw : a.Backward = some bw)
    (w w' : World) (h : rollback params ((a, r) :: rest) w = Res.ok () w') :
    ∃ w1, bw { FWResult := r, Params := params } w = Res.ok () w1 ∧
      rollback params rest w1 = Res.ok () w' := by
  rw [rollback, hbw, bind_ok_iff] at h
  obtain ⟨_, w1, h1, h2⟩ := h
  exact ⟨w1, h1, h2⟩


/-! ## Effects of the run-container actions on store, containers and images -/

theorem eraseP_append_fresh (p : container → Bool) (l : List container) (c : container)
    (h : ∀ x ∈ l, p x = false) (hc : p c = true) : (l ++ [c]).eraseP p = l := by
  induction l with
  | nil => simp [List.eraseP, hc]
  | cons a l ih =>
    have ha : p a = false := h a (List.mem_cons_self _ _)
    simp [List.eraseP_cons, ha]
    exact ih (fun x hx => h x (List.mem_cons_of_mem _ hx))

theorem replaceFirst_append_fresh (p : container → Bool) (d : container) (l : List container)
    (c : container) (h : ∀ x ∈ l, p x = false) (hc : p c = true) :
    replaceFirst p d (l ++ [c]) = l ++ [d] := by
  induction l with
  | nil => simp [replaceFirst, hc]
  | cons a l ih =>
    have ha : p a = false := h a (List.mem_cons_self _ _)
    simp [replaceFirst, ha]
    exact ih (fun x hx => h x (List.mem_cons_of_mem _ hx))

theorem filter_ne_append_fresh (l : List String) (id : String) (h : id ∉ l) :
    (l ++ [id]).filter (fun x => decide (x ≠ id)) = l := by
  rw [List.filter_append]
  simp
  intro a ha hai
  exact h (hai ▸ ha)

theorem eraseP_of_not_any (p : container → Bool) (l : List container) (h : l.any p = false) :
    l.eraseP p = l := by
  induction l with
  | nil => rfl
  | cons a l ih =>
    simp only [List.any_cons, Bool.or_eq_false_iff] at h
    simp [List.eraseP_cons, h.1, ih h.2]

theorem getImage_run (cfg : Config) (fault : Option Err) (app : App) (w : World) :
    ∃ img, getImage cfg fault app w =
      Res.ok img { w with log := w.log ++ [Event.storeFind app.GetName] } := by
  simp only [getImage, bind, M.bind, getOneContainerByAppName, pure, M.pure]
  cases fault with
  | some e => exact ⟨_, rfl⟩
  | none =>
    cases hfind : List.find? (fun c => c.AppName == app.GetName) w.store with
    | none => exact ⟨_, rfl⟩
    | some c =>
      by_cases hc : c.Image = "" ∨ usePlatformImage app = true
      · exact ⟨assembleImageName cfg app.GetPlatform, by simp [hc, M.pure]⟩
      · exact ⟨c.Image, by simp [hc, M.pure]⟩

theorem insert_forward_effect (f : RunFaults) (prev : Result) (args : runContainerActionsArgs)
    (rest : List runContainerActionsArgs) (w w1 : World) (r : Except Err Result)
    (h : (insertEmptyContainerInDB f).Forward { Previous := prev, Params := args :: rest } w =
      Res.ok r w1) :
    w1.containers = w.containers ∧ w1.images = w.images ∧
    ((∃ e, r = .error e ∧ w1.store = w.store) ∨
     (∃ c, r = .ok (.cont c) ∧ c.Name = f.contName ∧ w1.store = w.store ++ [c])) := by
  simp only [insertEmptyContainerInDB, bind, M.bind, collInsert, pure, M.pure] at h
  cases hins : f.insert with
  | some e =>
    simp only [hins, Res.ok.injEq] at h
    obtain ⟨rfl, rfl⟩ := h
    exact ⟨rfl, rfl, Or.inl ⟨e, rfl, rfl⟩⟩
  | none =>
    simp only [hins, Res.ok.injEq] at h
    obtain ⟨rfl, rfl⟩ := h
    exact ⟨rfl, rfl, Or.inr ⟨_, rfl, rfl, rfl⟩⟩


theorem hostToNodeAddressLoop_world (host : String) (ns : List String) (w w1 : World)
    (r : Except Err String) (h : hostToNodeAddressLoop host ns w = Res.ok r w1) : w1 = w := by
  induction ns with
  | nil =>
    simp only [hostToNodeAddressLoop, pure_ok_iff] at h
    exact h.2.symm
  | cons a rest ih =>
    simp only [hostToNodeAddressLoop] at h
    cases hu : urlToHost a with
    | none =>
      simp only [hu] at h
      exact absurd h (goPanic_ne_ok _ _ _ _)
    | some hst =>
      simp only [hu] at h
      by_cases hh : (hst == host) = true
      · simp only [hh, if_true, pure_ok_iff] at h
        exact h.2.symm
      · simp only [hh, if_false] at h
        exact ih h

theorem hostToNodeAddress_world (nodes : Except Err (List String)) (host : String) (w w1 : World)
    (r : Except Err String) (h : hostToNodeAddress nodes host w = Res.ok r w1) :
    w1 = { w with log := w.log ++ [Event.nodes] } := by
  simp only [hostToNodeAddress, bind_ok_iff] at h
  obtain ⟨a, w2, h1, h2⟩ := h
  simp only [Nodes, Res.ok.injEq] at h1
  obtain ⟨rfl, rfl⟩ := h1
  cases nodes with
  | error e =>
    simp only [pure_ok_iff] at h2
    exact h2.2.symm
  | ok ns => exact hostToNodeAddressLoop_world host ns _ _ r h2

theorem create_effect (cfg : Config) (f : CreateFaults) (c : container) (app : App)
    (imageId : String) (cmds dest : List String) (w w1 : World) (c1 : container) (err : Option Err)
    (h : c.create cfg f app imageId cmds dest w = Res.ok (c1, err) w1) :
    w1.store = w.store ∧ w1.images = w.images ∧ w1.routes = w.routes ∧
    w1.routeHistory = w.routeHistory ∧ c1.Name = c.Name ∧
    ((err ≠ none ∧ w1.containers = w.containers) ∨
     (err = none ∧ (∃ addr, f.create = .ok (addr, c1.ID)) ∧
        w1.containers = w.containers ++ [c1.ID])) := by
  simp only [container.create] at h
  cases hp : getPort cfg with
  | error e =>
    simp only [hp, pure_ok_iff, Prod.mk.injEq] at h
    obtain ⟨⟨rfl, rfl⟩, rfl⟩ := h
    simp
  | ok port =>
    simp only [hp] at h
    rw [bind_ok_iff] at h
    obtain ⟨nl, w2, h1, h2⟩ := h
    have hw2 : w2.store = w.store ∧ w2.images = w.images ∧ w2.routes = w.routes ∧
        w2.routeHistory = w.routeHistory ∧ w2.containers = w.containers := by
      cases dest with
      | nil =>
        simp only [pure_ok_iff] at h1
        obtain ⟨_, rfl⟩ := h1
        simp
      | cons host _ =>
        simp only [bind_ok_iff] at h1
        obtain ⟨x, w3, h3, h4⟩ := h1
        have := hostToNodeAddress_world _ _ _ _ _ h3
        subst this
        cases x <;> (simp only [pure_ok_iff] at h4; obtain ⟨_, rfl⟩ := h4; simp)
    obtain ⟨hs, hi, hr, hh, hc⟩ := hw2
    cases nl with
    | error e =>
      simp only [pure_ok_iff, Prod.mk.injEq] at h2
      obtain ⟨⟨rfl, rfl⟩, rfl⟩ := h2
      simp [hs, hi, hr, hh, hc]
    | ok nodeList =>
      simp only [bind_ok_iff] at h2
      obtain ⟨x, w3, h3, h4⟩ := h2
      simp only [CreateContainerSchedulerOpts] at h3
      cases hcreate : f.create with
      | error e =>
        simp only [hcreate, Res.ok.injEq] at h3
        obtain ⟨rfl, rfl⟩ := h3
        simp only [pure_ok_iff, Prod.mk.injEq] at h4
        obtain ⟨⟨rfl, rfl⟩, rfl⟩ := h4
        simp [hs, hi, hr, hh, hc]
      | ok p =>
        obtain ⟨addr, id⟩ := p
        simp only [hcreate, Res.ok.injEq] at h3
        obtain ⟨rfl, rfl⟩ := h3
        simp only at h4
        cases hu : urlToHost addr with
        | none =>
          simp only [hu] at h4
          exact absurd h4 (goPanic_ne_ok _ _ _ _)
        | some hst =>
          simp only [hu, pure_ok_iff, Prod.mk.injEq] at h4
          obtain ⟨⟨rfl, rfl⟩, rfl⟩ := h4
          simp [hs, hi, hr, hh, hc]


theorem createContainer_forward_effect (cfg : Config) (f : RunFaults) (c : container)
    (args : runContainerActionsArgs) (rest : List runContainerActionsArgs) (w w1 : World)
    (r : Except Err Result)
    (h : (createContainer cfg f).Forward { Previous := .cont c, Params := args :: rest } w =
      Res.ok r w1) :
    w1.store = w.store ∧ w1.images = w.images ∧
    ((∃ e, r = .error e ∧ w1.containers = w.containers) ∨
     (∃ c1 addr, r = .ok (.cont c1) ∧ c1.Name = c.Name ∧ f.create.create = .ok (addr, c1.ID) ∧
        w1.containers = w.containers ++ [c1.ID])) := by
  simp only [createContainer, bind_ok_iff] at h
  obtain ⟨⟨c1, err⟩, w2, h1, h2⟩ := h
  obtain ⟨hs, hi, _, _, hn, hc⟩ := create_effect _ _ _ _ _ _ _ _ _ _ _ h1
  cases err with
  | some e =>
    simp only [pure_ok_iff] at h2
    obtain ⟨rfl, rfl⟩ := h2
    rcases hc with ⟨_, hc⟩ | ⟨hc, _⟩
    · exact ⟨hs, hi, Or.inl ⟨e, rfl, hc⟩⟩
    · cases hc
  | none =>
    simp only [pure_ok_iff] at h2
    obtain ⟨rfl, rfl⟩ := h2
    rcases hc with ⟨hc, _⟩ | ⟨_, ⟨addr, ha⟩, hc⟩
    · exact absurd rfl hc
    · exact ⟨hs, hi, Or.inr ⟨c1, addr, rfl, hn, ha, hc⟩⟩

theorem startContainer_forward_effect (cfg : Config) (f : RunFaults) (c : container)
    (params : List runContainerActionsArgs) (w w1 : World) (r : Except Err Result)
    (h : (startContainer cfg f).Forward { Previous := .cont c, Params := params } w =
      Res.ok r w1) :
    w1.store = w.store ∧ w1.images = w.images ∧ w1.containers = w.containers ∧
    ((∃ e, r = .error e) ∨ r = .ok (.cont c)) := by
  simp only [startContainer, container.start, bind_ok_iff] at h
  obtain ⟨err, w2, h1, h2⟩ := h
  cases hp : getPort cfg with
  | error e =>
    simp only [hp, pure_ok_iff] at h1
    obtain ⟨rfl, rfl⟩ := h1
    simp only [pure_ok_iff] at h2
    obtain ⟨rfl, rfl⟩ := h2
    exact ⟨rfl, rfl, rfl, Or.inl ⟨e, rfl⟩⟩
  | ok port =>
    simp only [hp, bind_ok_iff, StartContainer, Res.ok.injEq] at h1
    obtain ⟨x, w3, ⟨rfl, rfl⟩, h3⟩ := h1
    cases hst : f.start with
    | some e =>
      simp only [hst, pure_ok_iff] at h3
      obtain ⟨rfl, rfl⟩ := h3
      simp only [pure_ok_iff] at h2
      obtain ⟨rfl, rfl⟩ := h2
      exact ⟨rfl, rfl, rfl, Or.inl ⟨e, rfl⟩⟩
    | none =>
      simp only [hst, pure_ok_iff] at h3
      obtain ⟨rfl, rfl⟩ := h3
      simp only [pure_ok_iff] at h2
      obtain ⟨rfl, rfl⟩ := h2
      exact ⟨rfl, rfl, rfl, Or.inr rfl⟩

theorem updateContainerInDB_forward_effect (f : RunFaults) (c : container)
    (params : List runContainerActionsArgs) (w w1 : World) (r : Except Err Result)
    (h : (updateContainerInDB f).Forward { Previous := .cont c, Params := params } w =
      Res.ok r w1) :
    w1.images = w.images ∧ w1.containers = w.containers ∧
    ((∃ e, r = .error e ∧ w1.store = w.store) ∨
     (r = .ok (.cont c) ∧ w1.store = replaceFirst (Selector.byName c.Name).sat c w.store)) := by
  simp only [updateContainerInDB, bind_ok_iff] at h
  obtain ⟨err, w2, h1, h2⟩ := h
  simp only [collUpdate] at h1
  cases hu : f.update with
  | some e =>
    simp only [hu, Res.ok.injEq] at h1
    obtain ⟨rfl, rfl⟩ := h1
    simp only [pure_ok_iff] at h2
    obtain ⟨rfl, rfl⟩ := h2
    exact ⟨rfl, rfl, Or.inl ⟨e, rfl, rfl⟩⟩
  | none =>
    simp only [hu] at h1
    by_cases hany : w.store.any (Selector.byName c.Name).sat = true
    · simp only [hany, if_true, Res.ok.injEq] at h1
      obtain ⟨rfl, rfl⟩ := h1
      simp only [pure_ok_iff] at h2
      obtain ⟨rfl, rfl⟩ := h2
      exact ⟨rfl, rfl, Or.inr ⟨rfl, rfl⟩⟩
    · simp only [hany, if_false, Res.ok.injEq] at h1
      obtain ⟨rfl, rfl⟩ := h1
      simp only [pure_ok_iff] at h2
      obtain ⟨rfl, rfl⟩ := h2
      exact ⟨rfl, rfl, Or.inl ⟨_, rfl, rfl⟩⟩


theorem logs_effect (fi fa : Option Err) (c : container) (w w1 : World) (err : Option Err)
    (h : c.logs fi fa w = Res.ok err w1) :
    w1.store = w.store ∧ w1.images = w.images ∧ w1.containers = w.containers := by
  simp only [container.logs, bind_ok_iff, InspectContainer, Res.ok.injEq] at h
  obtain ⟨x, w2, ⟨rfl, rfl⟩, h2⟩ := h
  cases fi with
  | some e =>
    simp only [pure_ok_iff] at h2
    obtain ⟨_, rfl⟩ := h2
    exact ⟨rfl, rfl, rfl⟩
  | none =>
    simp only [AttachToContainer, Res.ok.injEq] at h2
    obtain ⟨_, rfl⟩ := h2
    exact ⟨rfl, rfl, rfl⟩

theorem commit_effect (cfg : Config) (fc fp : Option Err) (c : container) (w w1 : World)
    (img : String) (err : Option Err) (h : c.commit cfg fc fp w = Res.ok (img, err) w1) :
    w1.store = w.store ∧ w1.containers = w.containers ∧
    (err ≠ none → (cfg.registry = none ∨ fp = none) → w1.images = w.images) := by
  simp only [container.commit, bind_ok_iff, CommitContainer] at h
  obtain ⟨x, w2, h1, h2⟩ := h
  cases fc with
  | some e =>
    simp only [Res.ok.injEq] at h1
    obtain ⟨rfl, rfl⟩ := h1
    simp only [pure_ok_iff, Prod.mk.injEq] at h2
    obtain ⟨_, rfl⟩ := h2
    exact ⟨rfl, rfl, fun _ _ => rfl⟩
  | none =>
    simp only [Res.ok.injEq] at h1
    obtain ⟨rfl, rfl⟩ := h1
    simp only [bind_ok_iff, pushImage] at h2
    obtain ⟨y, w3, h3, h4⟩ := h2
    cases hreg : cfg.registry with
    | none =>
      simp only [hreg, pure_ok_iff] at h3
      obtain ⟨rfl, rfl⟩ := h3
      simp only [pure_ok_iff, Prod.mk.injEq] at h4
      obtain ⟨⟨_, rfl⟩, rfl⟩ := h4
      exact ⟨rfl, rfl, fun hne _ => absurd rfl hne⟩
    | some reg =>
      simp only [hreg, bind_ok_iff, PushImage, Res.ok.injEq] at h3
      obtain ⟨z, w4, ⟨rfl, rfl⟩, h5⟩ := h3
      cases fp with
      | none =>
        simp only [pure_ok_iff] at h5
        obtain ⟨rfl, rfl⟩ := h5
        simp only [pure_ok_iff, Prod.mk.injEq] at h4
        obtain ⟨⟨_, rfl⟩, rfl⟩ := h4
        exact ⟨rfl, rfl, fun hne _ => absurd rfl hne⟩
      | some e =>
        simp only [pure_ok_iff] at h5
        obtain ⟨rfl, rfl⟩ := h5
        simp only [pure_ok_iff, Prod.mk.injEq] at h4
        obtain ⟨_, rfl⟩ := h4
        refine ⟨rfl, rfl, fun _ hor => ?_⟩
        rcases hor with h | h <;> cases h

theorem followLogsAndCommit_forward_error (cfg : Config) (f : RunFaults) (c : container)
    (args : runContainerActionsArgs) (rest : List runContainerActionsArgs) (w w1 : World) (e : Err)
    (h : (followLogsAndCommit cfg f).Forward { Previous := .cont c, Params := args :: rest } w =
      Res.ok (.error e) w1) :
    w1.store = w.store ∧ w1.containers = w.containers ∧
    ((cfg.registry = none ∨ f.push = none) → w1.images = w.images) := by
  simp only [followLogsAndCommit, bind_ok_iff] at h
  obtain ⟨err, w2, h1, h2⟩ := h
  obtain ⟨hs, hi, hc⟩ := logs_effect _ _ _ _ _ _ h1
  cases err with
  | some e1 =>
    simp only [pure_ok_iff] at h2
    obtain ⟨_, rfl⟩ := h2
    exact ⟨hs, hc, fun _ => hi⟩
  | none =>
    simp only [bind_ok_iff, WaitContainer, Res.ok.injEq] at h2
    obtain ⟨st, w3, ⟨rfl, rfl⟩, h3⟩ := h2
    cases hwait : f.wait with
    | error e1 =>
      simp only [hwait, pure_ok_iff] at h3
      obtain ⟨_, rfl⟩ := h3
      exact ⟨hs, hc, fun _ => hi⟩
    | ok status =>
      simp only [hwait] at h3
      by_cases hst : status ≠ 0
      · rw [if_pos hst] at h3
        simp only [pure_ok_iff] at h3
        obtain ⟨_, rfl⟩ := h3
        exact ⟨hs, hc, fun _ => hi⟩
      · rw [if_neg hst] at h3
        simp only [bind_ok_iff] at h3
        obtain ⟨⟨img, err⟩, w4, h4, h5⟩ := h3
        obtain ⟨hs4, hc4, hi4⟩ := commit_effect _ _ _ _ _ _ _ _ h4
        cases err with
        | some e1 =>
          simp only [pure_ok_iff] at h5
          obtain ⟨_, rfl⟩ := h5
          refine ⟨hs4.trans hs, hc4.trans hc, fun hor => ?_⟩
          exact (hi4 (by simp) hor).trans hi
        | none =>
          simp only [bind_ok_iff, pure_ok_iff] at h5
          obtain ⟨_, _, _, h6, _⟩ := h5
          cases h6

theorem insert_backward_effect (f : RunFaults) (c : container)
    (params : List runContainerActionsArgs) (bw : BWContext runContainerActionsArgs → M Unit)
    (hbw : (insertEmptyContainerInDB f).Backward = some bw) (w w1 : World)
    (h : bw { FWResult := .cont c, Params := params } w = Res.ok () w1) :
    w1.containers = w.containers ∧ w1.images = w.images ∧
    (f.bwRemoveRecord = none → w1.store = w.store.eraseP (Selector.byName c.Name).sat) := by
  simp only [insertEmptyContainerInDB, Option.some.injEq] at hbw
  subst hbw
  simp only [bind_ok_iff, pure_ok_iff, collRemove] at h
  obtain ⟨x, w2, h1, _, rfl⟩ := h
  cases hrm : f.bwRemoveRecord with
  | some e =>
    simp only [hrm, Res.ok.injEq] at h1
    obtain ⟨_, rfl⟩ := h1
    exact ⟨rfl, rfl, fun hn => by cases hn⟩
  | none =>
    simp only [hrm] at h1
    by_cases hany : w.store.any (Selector.byName c.Name).sat = true
    · simp only [hany, if_true, Res.ok.injEq] at h1
      obtain ⟨_, rfl⟩ := h1
      exact ⟨rfl, rfl, fun _ => rfl⟩
    · simp only [hany, if_false, Res.ok.injEq] at h1
      obtain ⟨_, rfl⟩ := h1
      refine ⟨rfl, rfl, fun _ => ?_⟩
      exact (eraseP_of_not_any _ _ (by simpa using hany)).symm

theorem filter_ne_of_not_mem (l : List String) (id : String) (h : id ∉ l) :
    l.filter (fun x => decide (x ≠ id)) = l := by
  rw [List.filter_eq_self]
  intro a ha
  simp only [ne_eq, decide_eq_true_eq]
  intro hai
  exact h (hai ▸ ha)

theorem createContainer_backward_effect (cfg : Config) (f : RunFaults) (c : container)
    (params : List runContainerActionsArgs) (bw : BWContext runContainerActionsArgs → M Unit)
    (hbw : (createContainer cfg f).Backward = some bw) (w w1 : World)
    (h : bw { FWResult := .cont c, Params := params } w = Res.ok () w1) :
    w1.store = w.store ∧ w1.images = w.images ∧
    (f.bwRemoveContainer = none →
      w1.containers = w.containers.filter (fun x => decide (x ≠ c.ID))) := by
  simp only [createContainer, Option.some.injEq] at hbw
  subst hbw
  simp only [bind_ok_iff, pure_ok_iff, RemoveContainer] at h
  obtain ⟨x, w2, h1, _, rfl⟩ := h
  cases hrm : f.bwRemoveContainer with
  | some e =>
    simp only [hrm, Res.ok.injEq] at h1
    obtain ⟨_, rfl⟩ := h1
    exact ⟨rfl, rfl, fun hn => by cases hn⟩
  | none =>
    simp only [hrm] at h1
    by_cases hmem : c.ID ∈ w.containers
    · simp only [hmem, if_true, Res.ok.injEq] at h1
      obtain ⟨_, rfl⟩ := h1
      exact ⟨rfl, rfl, fun _ => rfl⟩
    · simp only [hmem, if_false, Res.ok.injEq] at h1
      obtain ⟨_, rfl⟩ := h1
      exact ⟨rfl, rfl, fun _ => (filter_ne_of_not_mem _ _ hmem).symm⟩

theorem startContainer_backward_effect (cfg : Config) (f : RunFaults) (c : container)
    (params : List runContainerActionsArgs) (bw : BWContext runContainerActionsArgs → M Unit)
    (hbw : (startContainer cfg f).Backward = some bw) (w w1 : World)
    (h : bw { FWResult := .cont c, Params := params } w = Res.ok () w1) :
    w1.store = w.store ∧ w1.images = w.images ∧ w1.containers = w.containers := by
  simp only [startContainer, Option.some.injEq] at hbw
  subst hbw
  simp only [bind_ok_iff, pure_ok_iff, StopContainer, Res.ok.injEq] at h
  obtain ⟨x, w2, ⟨_, rfl⟩, _, rfl⟩ := h
  exact ⟨rfl, rfl, rfl⟩

theorem updateContainerInDB_backward_effect (f : RunFaults) (r : Result)
    (params : List runContainerActionsArgs) (bw : BWContext runContainerActionsArgs → M Unit)
    (hbw : (updateContainerInDB f).Backward = some bw) (w w1 : World)
    (h : bw { FWResult := r, Params := params } w = Res.ok () w1) : w1 = w := by
  simp only [updateContainerInDB, Option.some.injEq] at hbw
  subst hbw
  simp only [pure_ok_iff] at h
  exact h.2.symm


theorem deploy_error_state (cfg : Config) (f : RunFaults) (app : App) (cmds : List String)
    (w : World) (img : String) (e : Err) (w' : World)
    (h : deploy cfg f app cmds w = Res.ok (img, some e) w') :
    img = "" ∧
    ((∀ c ∈ w.store, c.Name ≠ f.contName) → f.bwRemoveRecord = none → w'.store = w.store) ∧
    ((∀ addr id, f.create.create = .ok (addr, id) → id ∉ w.containers) →
      f.bwRemoveContainer = none → w'.containers = w.containers) ∧
    ((cfg.registry = none ∨ f.push = none) → w'.images = w.images) := by
  obtain ⟨im, him⟩ := getImage_run cfg f.getOne app w
  simp only [deploy, bind_ok_iff, him, Res.ok.injEq, NewPipeline, Pipeline.Execute] at h
  obtain ⟨_, _, ⟨rfl, rfl⟩, x, wf, hexec, hfin⟩ := h
  -- the outcome of the pipeline is an error
  have hx : x = .error e ∧ img = "" ∧ wf = w' := by
    cases x with
    | error e1 =>
      simp only [pure_ok_iff, Prod.mk.injEq, Option.some.injEq] at hfin
      obtain ⟨⟨rfl, rfl⟩, rfl⟩ := hfin
      exact ⟨rfl, rfl, rfl⟩
    | ok res =>
      cases res with
      | str s => simp [pure_ok_iff] at hfin
      | null => exact absurd hfin (goPanic_ne_ok _ _ _ _)
      | cont c => exact absurd hfin (goPanic_ne_ok _ _ _ _)
      | conts cs => exact absurd hfin (goPanic_ne_ok _ _ _ _)
  obtain ⟨rfl, rfl, rfl⟩ := hx
  refine ⟨rfl, ?_⟩
  -- facts about erasing the inserted record
  have key : ∀ (c : container), c.Name = f.contName → (∀ c ∈ w.store, c.Name ≠ f.contName) →
      List.eraseP (Selector.byName f.contName).sat (w.store ++ [c]) = w.store := by
    intro c hc hfresh
    apply eraseP_append_fresh
    · intro x hx; simp [Selector.sat, hfresh x hx]
    · simp [Selector.sat, hc]
  have key2 : ∀ (c d : container), c.Name = f.contName → (∀ c ∈ w.store, c.Name ≠ f.contName) →
      replaceFirst (Selector.byName f.contName).sat d (w.store ++ [c]) = w.store ++ [d] := by
    intro c d hc hfresh
    apply replaceFirst_append_fresh
    · intro x hx; simp [Selector.sat, hfresh x hx]
    · simp [Selector.sat, hc]
  -- step 0
  obtain ⟨r0, w1, hf0, hcase0⟩ :=
    executeFrom_cons_ok _ _ _ _ _ _ _ _ (by simp [insertEmptyContainerInDB]) hexec
  obtain ⟨hc0, hi0, hs0⟩ := insert_forward_effect _ _ _ _ _ _ _ hf0
  simp only [List.nil_append] at hc0 hi0 hs0
  rcases hcase0 with ⟨res0, rfl, hexec1⟩ | ⟨e0, rfl, he, hrb⟩
  swap
  · simp only [rollback, pure_ok_iff] at hrb
    obtain ⟨_, rfl⟩ := hrb
    rcases hs0 with ⟨_, _, hs0⟩ | ⟨_, h0, _⟩
    · exact ⟨fun _ _ => hs0, fun _ _ => hc0, fun _ => hi0⟩
    · cases h0
  rcases hs0 with ⟨_, h0, _⟩ | ⟨c0, h0, hn0, hs0⟩
  · cases h0
  simp only [Except.ok.injEq] at h0
  subst h0
  obtain ⟨bw0, hbw0⟩ : ∃ bw, (insertEmptyContainerInDB f).Backward = some bw := ⟨_, rfl⟩
  -- rollback of step 0 alone
  have hrb0 : ∀ (wa wb : World),
      ((∀ c ∈ w.store, c.Name ≠ f.contName) →
        ∃ d, d.Name = f.contName ∧ wa.store = w.store ++ [d]) →
      rollback [({ app := app, imageID := im, commands := cmds } : runContainerActionsArgs)]
        [(insertEmptyContainerInDB f, Result.cont c0)] wa = Res.ok () wb →
      wb.containers = wa.containers ∧ wb.images = wa.images ∧
      ((∀ c ∈ w.store, c.Name ≠ f.contName) → f.bwRemoveRecord = none → wb.store = w.store) := by
    intro wa wb hwa hr
    obtain ⟨wm, hb, hr2⟩ := rollback_cons_ok _ _ _ _ bw0 hbw0 _ _ hr
    simp only [rollback, pure_ok_iff] at hr2
    obtain ⟨_, rfl⟩ := hr2
    obtain ⟨hc, hi, hs⟩ := insert_backward_effect _ _ _ bw0 hbw0 _ _ hb
    refine ⟨hc, hi, fun hfresh hrm => ?_⟩
    obtain ⟨d, hd, hwa⟩ := hwa hfresh
    rw [hs hrm, hn0, hwa]
    exact key d hd hfresh
  have hinv0 : (∀ c ∈ w.store, c.Name ≠ f.contName) →
      ∃ d, d.Name = f.contName ∧ w1.store = w.store ++ [d] := fun _ => ⟨c0, hn0, hs0⟩
  -- step 1
  obtain ⟨r1, w2, hf1, hcase1⟩ :=
    executeFrom_cons_ok _ _ _ _ _ _ _ _ (by simp [createContainer]) hexec1
  obtain ⟨hs1, hi1, hc1⟩ := createContainer_forward_effect _ _ _ _ _ _ _ _ hf1
  rcases hcase1 with ⟨res1, rfl, hexec2⟩ | ⟨e1, rfl, he, hrb⟩
  swap
  · obtain ⟨hcb, hib, hsb⟩ := hrb0 _ _ (by rw [hs1]; exact hinv0) hrb
    rcases hc1 with ⟨_, _, hc1⟩ | ⟨_, _, h1, _⟩
    · exact ⟨hsb, fun _ _ => hcb.trans (hc1.trans hc0), fun _ => hib.trans (hi1.trans hi0)⟩
    · cases h1
  rcases hc1 with ⟨_, h1, _⟩ | ⟨c1, addr, h1, hn1, hcr, hc1⟩
  · cases h1
  simp only [Except.ok.injEq] at h1
  subst h1
  obtain ⟨bw1, hbw1⟩ : ∃ bw, (createContainer cfg f).Backward = some bw := ⟨_, rfl⟩
  -- rollback of steps 1 and 0
  have hrb1 : ∀ (wa wb : World),
      ((∀ c ∈ w.store, c.Name ≠ f.contName) →
        ∃ d, d.Name = f.contName ∧ wa.store = w.store ++ [d]) →
      wa.containers = w.containers ++ [c1.ID] →
      rollback [({ app := app, imageID := im, commands := cmds } : runContainerActionsArgs)]
        [(createContainer cfg f, Result.cont c1), (insertEmptyContainerInDB f, Result.cont c0)]
        wa = Res.ok () wb →
      wb.images = wa.images ∧
      ((∀ c ∈ w.store, c.Name ≠ f.contName) → f.bwRemoveRecord = none → wb.store = w.store) ∧
      ((∀ addr id, f.create.create = .ok (addr, id) → id ∉ w.containers) →
        f.bwRemoveContainer = none → wb.containers = w.containers) := by
    intro wa wb hwa hca hr
    obtain ⟨wm, hb, hr2⟩ := rollback_cons_ok _ _ _ _ bw1 hbw1 _ _ hr
    obtain ⟨hs, hi, hc⟩ := createContainer_backward_effect _ _ _ _ bw1 hbw1 _ _ hb
    obtain ⟨hcb, hib, hsb⟩ := hrb0 wm wb (by rw [hs]; exact hwa) hr2
    refine ⟨hib.trans hi, hsb, fun hfresh hrm => ?_⟩
    rw [hcb, hc hrm, hca]
    exact filter_ne_append_fresh _ _ (hfresh addr c1.ID hcr)
  -- step 2
  obtain ⟨r2, w3, hf2, hcase2⟩ :=
    executeFrom_cons_ok _ _ _ _ _ _ _ _ (by simp [startContainer]) hexec2
  obtain ⟨hs2, hi2, hc2, hr2⟩ := startContainer_forward_effect _ _ _ _ _ _ _ hf2
  have hst3 : w3.store = w.store ++ [c0] := hs2.trans (hs1.trans hs0)
  have hct3 : w3.containers = w.containers ++ [c1.ID] := by rw [hc2, hc1, hc0]
  have him3 : w3.images = w.images := hi2.trans (hi1.trans hi0)
  have hrb2 : ∀ (wa wb : World),
      ((∀ c ∈ w.store, c.Name ≠ f.contName) →
        ∃ d, d.Name = f.contName ∧ wa.store = w.store ++ [d]) →
      wa.containers = w.containers ++ [c1.ID] →
      rollback [({ app := app, imageID := im, commands := cmds } : runContainerActionsArgs)]
        [(startContainer cfg f, Result.cont c1), (createContainer cfg f, Result.cont c1),
          (insertEmptyContainerInDB f, Result.cont c0)] wa = Res.ok () wb →
      wb.images = wa.images ∧
      ((∀ c ∈ w.store, c.Name ≠ f.contName) → f.bwRemoveRecord = none → wb.store = w.store) ∧
      ((∀ addr id, f.create.create = .ok (addr, id) → id ∉ w.containers) →
        f.bwRemoveContainer = none → wb.containers = w.containers) := by
    intro wa wb hwa hca hr
    obtain ⟨bw2, hbw2⟩ : ∃ bw, (startContainer cfg f).Backward = some bw := ⟨_, rfl⟩
    obtain ⟨wm, hb, hr2⟩ := rollback_cons_ok _ _ _ _ bw2 hbw2 _ _ hr
    obtain ⟨hs, hi, hc⟩ := startContainer_backward_effect _ _ _ _ bw2 hbw2 _ _ hb
    obtain ⟨hib, hsb, hcb⟩ := hrb1 wm wb (by rw [hs]; exact hwa) (by rw [hc]; exact hca) hr2
    exact ⟨hib.trans hi, hsb, hcb⟩
  rcases hcase2 with ⟨res2, rfl, hexec3⟩ | ⟨e2, rfl, he, hrb⟩
  swap
  · obtain ⟨hib, hsb, hcb⟩ := hrb1 _ _ (fun _ => ⟨c0, hn0, hst3⟩) hct3 hrb
    exact ⟨hsb, hcb, fun _ => hib.trans him3⟩
  rcases hr2 with ⟨_, h2⟩ | h2
  · cases h2
  simp only [Except.ok.injEq] at h2
  subst h2
  -- step 3
  obtain ⟨r3, w4, hf3, hcase3⟩ :=
    executeFrom_cons_ok _ _ _ _ _ _ _ _ (by simp [updateContainerInDB]) hexec3
  obtain ⟨hi3, hc3, hs3⟩ := updateContainerInDB_forward_effect _ _ _ _ _ _ hf3
  rcases hcase3 with ⟨res3, rfl, hexec4⟩ | ⟨e3, rfl, he, hrb⟩
  swap
  · rcases hs3 with ⟨_, _, hs3⟩ | ⟨h3, _⟩
    · obtain ⟨hib, hsb, hcb⟩ :=
        hrb2 _ _ (fun _ => ⟨c0, hn0, hs3.trans hst3⟩) (hc3.trans hct3) hrb
      exact ⟨hsb, hcb, fun _ => hib.trans (hi3.trans him3)⟩
    · cases h3
  rcases hs3 with ⟨_, h3, _⟩ | ⟨h3, hs3⟩
  · cases h3
  simp only [Except.ok.injEq] at h3
  subst h3
  obtain ⟨bw3, hbw3⟩ : ∃ bw, (updateContainerInDB f).Backward = some bw := ⟨_, rfl⟩
  -- step 4
  obtain ⟨r4, w5, hf4, hcase4⟩ :=
    executeFrom_cons_ok _ _ _ _ _ _ _ _ (by simp [followLogsAndCommit]) hexec4
  rcases hcase4 with ⟨res4, rfl, hexec5⟩ | ⟨e4, rfl, he, hrb⟩
  · simp only [executeFrom, pure_ok_iff] at hexec5
    cases hexec5.1
  obtain ⟨hs4, hc4, hi4⟩ := followLogsAndCommit_forward_error _ _ _ _ _ _ _ _ hf4
  obtain ⟨wm, hb, hrb⟩ := rollback_cons_ok _ _ _ _ bw3 hbw3 _ _ hrb
  have hwm := updateContainerInDB_backward_effect _ _ _ bw3 hbw3 _ _ hb
  rw [hwm] at hrb
  have hst5 : (∀ c ∈ w.store, c.Name ≠ f.contName) →
      ∃ d, d.Name = f.contName ∧ w5.store = w.store ++ [d] := by
    intro hfresh
    refine ⟨c1, hn1.trans hn0, ?_⟩
    rw [hs4, hs3, hst3, hn1, hn0]
    exact key2 c0 c1 hn0 hfresh
  obtain ⟨hib, hsb, hcb⟩ := hrb2 _ _ hst5 (by rw [hc4, hc3, hct3]) hrb
  exact ⟨hsb, hcb, fun hor => hib.trans ((hi4 hor).trans (hi3.trans him3))⟩

/-! ## The router calls -/

theorem RemoveRoute_run (r : Router) (fault : Option Err) (name address : String) (w : World) :
    ∃ err w1, RemoveRoute (some r) fault name address w = Res.ok err w1 ∧
      w1.log = w.log ++ [Event.removeRoute name address] ∧
      w1.store = w.store ∧ w1.containers = w.containers ∧ w1.images = w.images ∧
      w1.routeHistory = w.routeHistory ++ [w1.routes] ∧
      (∀ e, fault = some e → err = some e ∧ w1.routes = w.routes) ∧
      (fault = none → (err = none ∨ err = some ErrRouteNotFound) ∧
        ∀ x, x ∈ w1.routes ↔ (x ∈ w.routes ∧ x ≠ (name, address))) := by
  cases fault with
  | some e =>
    refine ⟨some e, _, rfl, rfl, rfl, rfl, rfl, rfl, ?_, ?_⟩
    · intro e1 h
      cases h
      exact ⟨rfl, rfl⟩
    · intro h
      cases h
  | none =>
    by_cases hmem : (name, address) ∈ w.routes
    · have hrun : RemoveRoute (some r) none name address w = Res.ok none
          { w with
            routes := w.routes.filter (fun x => x ≠ (name, address))
            log := w.log ++ [Event.removeRoute name address]
            routeHistory := w.routeHistory ++ [w.routes.filter (fun x => x ≠ (name, address))] } := by
        simp only [RemoveRoute, hmem, if_true]
      refine ⟨none, _, hrun, rfl, rfl, rfl, rfl, rfl, ?_, ?_⟩
      · intro e h
        cases h
      · intro _
        refine ⟨Or.inl rfl, fun x => ?_⟩
        simp [List.mem_filter]
    · have hrun : RemoveRoute (some r) none name address w = Res.ok (some ErrRouteNotFound)
          { w with
            log := w.log ++ [Event.removeRoute name address]
            routeHistory := w.routeHistory ++ [w.routes] } := by
        simp only [RemoveRoute, hmem, if_false]
      refine ⟨some ErrRouteNotFound, _, hrun, rfl, rfl, rfl, rfl, rfl, ?_, ?_⟩
      · intro e h
        cases h
      · intro _
        refine ⟨Or.inr rfl, fun x => ?_⟩
        constructor
        · intro hx
          exact ⟨hx, fun h => hmem (h ▸ hx)⟩
        · intro hx
          exact hx.1

theorem AddRoute_run (r : Router) (fault : Option Err) (name address : String) (w : World) :
    ∃ err w1, AddRoute (some r) fault name address w = Res.ok err w1 ∧
      w1.log = w.log ++ [Event.addRoute name address] ∧
      w1.store = w.store ∧ w1.containers = w.containers ∧ w1.images = w.images ∧
      w1.routeHistory = w.routeHistory ++ [w1.routes] ∧
      err = fault ∧
      (fault ≠ none → w1.routes = w.routes) ∧
      (fault = none → ∀ x, x ∈ w1.routes ↔ (x ∈ w.routes ∨ x = (name, address))) := by
  cases fault with
  | some e =>
    refine ⟨some e, _, rfl, rfl, rfl, rfl, rfl, rfl, rfl, fun _ => rfl, ?_⟩
    intro h
    cases h
  | none =>
    by_cases hmem : (name, address) ∈ w.routes
    · refine ⟨none, _, rfl, rfl, rfl, rfl, rfl, ?_, rfl, fun h => absurd rfl h, ?_⟩
      · simp only [hmem, if_true]
      · intro _ x
        simp only [hmem, if_true]
        constructor
        · intro hx
          exact Or.inl hx
        · rintro (hx | hx)
          · exact hx
          · exact hx ▸ hmem
    · refine ⟨none, _, rfl, rfl, rfl, rfl, rfl, ?_, rfl, fun h => absurd rfl h, ?_⟩
      · simp only [hmem, if_false]
      · intro _ x
        simp only [hmem, if_false, List.mem_append, List.mem_singleton]


theorem removeRoutes_run (r : Router) (faults : Nat → Option Err) (cs : List container) :
    ∀ (k : Nat) (w : World), ∃ w1, removeRoutes (some r) faults k cs w = Res.ok () w1 ∧
      w1.log = w.log ++ cs.map (fun c => Event.removeRoute c.AppName c.getAddress) ∧
      w1.store = w.store ∧ w1.containers = w.containers ∧ w1.images = w.images ∧
      ((∀ j, j < cs.length → faults (k + j) = none) →
        ∀ x, x ∈ w1.routes ↔ (x ∈ w.routes ∧ x ∉ cs.map routeOf)) := by
  induction cs with
  | nil =>
    intro k w
    exact ⟨w, rfl, by simp, rfl, rfl, rfl, fun _ x => by simp⟩
  | cons c rest ih =>
    intro k w
    obtain ⟨err, w1, h1, hl1, hs1, hc1, hi1, _, _, hr1⟩ :=
      RemoveRoute_run r (faults k) c.AppName c.getAddress w
    obtain ⟨w2, h2, hl2, hs2, hc2, hi2, hr2⟩ := ih (k + 1) w1
    refine ⟨w2, ?_, ?_, hs2.trans hs1, hc2.trans hc1, hi2.trans hi1, ?_⟩
    · simp only [removeRoutes, bind, M.bind, h1, h2]
    · rw [hl2, hl1]
      simp
    · intro hf x
      have h0 : faults k = none := by simpa using hf 0 (by simp)
      have hrest : ∀ j, j < rest.length → faults (k + 1 + j) = none := by
        intro j hj
        have := hf (j + 1) (by simp; omega)
        rwa [show k + (j + 1) = k + 1 + j by omega] at this
      rw [hr2 hrest x, (hr1 h0).2 x]
      simp only [List.map_cons, List.mem_cons, routeOf, not_or, ne_eq]
      tauto

theorem addRoutes_run (r : Router) (faults : Nat → Option Err) (cs : List container) :
    ∀ (k : Nat) (w : World), ∃ w1, addRoutes (some r) faults k cs w = Res.ok () w1 ∧
      w1.log = w.log ++ cs.map (fun c => Event.addRoute c.AppName c.getAddress) ∧
      w1.store = w.store ∧ w1.containers = w.containers ∧ w1.images = w.images ∧
      ((∀ j, j < cs.length → faults (k + j) = none) →
        ∀ x, x ∈ w1.routes ↔ (x ∈ w.routes ∨ x ∈ cs.map routeOf)) := by
  induction cs with
  | nil =>
    intro k w
    exact ⟨w, rfl, by simp, rfl, rfl, rfl, fun _ x => by simp⟩
  | cons c rest ih =>
    intro k w
    obtain ⟨err, w1, h1, hl1, hs1, hc1, hi1, _, _, _, hr1⟩ :=
      AddRoute_run r (faults k) c.AppName c.getAddress w
    obtain ⟨w2, h2, hl2, hs2, hc2, hi2, hr2⟩ := ih (k + 1) w1
    refine ⟨w2, ?_, ?_, hs2.trans hs1, hc2.trans hc1, hi2.trans hi1, ?_⟩
    · simp only [addRoutes, bind, M.bind, h1, h2]
    · rw [hl2, hl1]
      simp
    · intro hf x
      have h0 : faults k = none := by simpa using hf 0 (by simp)
      have hrest : ∀ j, j < rest.length → faults (k + 1 + j) = none := by
        intro j hj
        have := hf (j + 1) (by simp; omega)
        rwa [show k + (j + 1) = k + 1 + j by omega] at this
      rw [hr2 hrest x, hr1 h0 x]
      simp only [List.map_cons, List.mem_cons, routeOf]
      tauto


theorem addNewRoutesLoop_ok (r : Router) (f : ChangeFaults) (rest : List container) :
    ∀ (i : Nat) (added : List container) (w : World),
      (∀ j, j < rest.length → f.addRoute (i + j) = none) →
      ∃ w1, addNewRoutesLoop (some r) f i added rest w = Res.ok none w1 ∧
        w1.log = w.log ++ rest.map addRouteEvent ∧
        w1.store = w.store ∧ w1.containers = w.containers ∧ w1.images = w.images ∧
        ∀ x, x ∈ w1.routes ↔ (x ∈ w.routes ∨ x ∈ rest.map routeOf) := by
  induction rest with
  | nil =>
    intro i added w _
    exact ⟨w, rfl, by simp, rfl, rfl, rfl, fun x => by simp⟩
  | cons c rest ih =>
    intro i added w hf
    have h0 : f.addRoute i = none := by simpa using hf 0 (by simp)
    have hrest : ∀ j, j < rest.length → f.addRoute (i + 1 + j) = none := by
      intro j hj
      have := hf (j + 1) (by simp; omega)
      rwa [show i + (j + 1) = i + 1 + j by omega] at this
    obtain ⟨err, w1, h1, hl1, hs1, hc1, hi1, _, herr, _, hr1⟩ :=
      AddRoute_run r (f.addRoute i) c.AppName c.getAddress w
    rw [h0] at herr
    subst herr
    obtain ⟨w2, h2, hl2, hs2, hc2, hi2, hr2⟩ := ih (i + 1) (added ++ [c]) w1 hrest
    refine ⟨w2, ?_, ?_, hs2.trans hs1, hc2.trans hc1, hi2.trans hi1, ?_⟩
    · simp only [addNewRoutesLoop, bind, M.bind, h1, h2]
    · rw [hl2, hl1]
      simp [addRouteEvent]
    · intro x
      rw [hr2 x, hr1 h0 x]
      simp only [List.map_cons, List.mem_cons, routeOf]
      tauto

theorem removedIDs_append (l1 l2 : List Event) :
    removedIDs (l1 ++ l2) = removedIDs l1 ++ removedIDs l2 := by
  simp [removedIDs, List.filterMap_append]

theorem eraseP_replaceFirst (p : container → Bool) (d : container) (hd : p d = true)
    (l : List container) : (replaceFirst p d l).eraseP p = l.eraseP p := by
  induction l with
  | nil => rfl
  | cons a l ih =>
    by_cases ha : p a = true
    · simp [replaceFirst, ha, List.eraseP_cons, hd]
    · simp [replaceFirst, ha, List.eraseP_cons, ih]

theorem eraseP_byID_eq_filter (id : String) (l : List container)
    (hnd : (l.map (fun c => c.ID)).Nodup) :
    l.eraseP (Selector.byID id).sat = l.filter (fun x => x.ID ≠ id) := by
  induction l with
  | nil => rfl
  | cons a l ih =>
    simp only [List.map_cons, List.nodup_cons] at hnd
    by_cases ha : a.ID = id
    · have hfilter : l.filter (fun x => decide (x.ID ≠ id)) = l := by
        rw [List.filter_eq_self]
        intro x hx
        simp only [ne_eq, decide_eq_true_eq]
        intro hxid
        exact hnd.1 (List.mem_map.2 ⟨x, hx, hxid.trans ha.symm⟩)
      have h1 : (Selector.byID id).sat a = true := by simp [Selector.sat, ha]
      have h2 : decide (a.ID ≠ id) = false := by simp [ha]
      rw [List.eraseP_cons, h1, List.filter_cons, h2, hfilter]
      simp
    · have h1 : (Selector.byID id).sat a = false := by simp [Selector.sat, ha]
      have h2 : decide (a.ID ≠ id) = true := by simp [ha]
      rw [List.eraseP_cons, h1, List.filter_cons, h2, ih hnd.2]
      simp

theorem stop_run (sf : StopFaults) (c : container) (w : World) :
    ∃ c1 w1, c.stop sf w = Res.ok (c1, none) w1 ∧
      c1.ID = c.ID ∧ c1.AppName = c.AppName ∧ c1.getAddress = c.getAddress ∧
      w1.routes = w.routes ∧ w1.routeHistory = w.routeHistory ∧
      w1.containers = w.containers ∧ w1.images = w.images ∧
      removedIDs w1.log = removedIDs w.log ∧
      (w1.store = w.store ∨ w1.store = replaceFirst (Selector.byID c.ID).sat c1 w.store) := by
  by_cases hst : c.Status = "stopped"
  · refine ⟨c, w, ?_, rfl, rfl, rfl, rfl, rfl, rfl, rfl, rfl, Or.inl rfl⟩
    simp only [container.stop, hst, if_true, pure, M.pure]
  · simp only [container.stop, hst, if_false, bind, M.bind, StopContainer,
      container.setStatus, timeNow, collUpdate, pure, M.pure]
    cases hu : sf.update with
    | some e =>
      refine ⟨_, _, rfl, rfl, rfl, rfl, rfl, rfl, rfl, rfl, ?_, Or.inl rfl⟩
      simp [removedIDs, List.filterMap_append]
    | none =>
      by_cases hany : w.store.any (Selector.byID c.ID).sat = true
      · simp only [hany, if_true]
        refine ⟨_, _, rfl, rfl, rfl, rfl, rfl, rfl, rfl, rfl, ?_, Or.inr rfl⟩
        simp [removedIDs, List.filterMap_append]
      · simp only [hany]
        refine ⟨_, _, rfl, rfl, rfl, rfl, rfl, rfl, rfl, rfl, ?_, Or.inl rfl⟩
        simp [removedIDs, List.filterMap_append]

theorem collRemove_run (fault : Option Err) (sel : Selector) (w : World) :
    ∃ err w1, collRemove fault sel w = Res.ok err w1 ∧
      w1.log = w.log ++ [Event.storeRemove sel] ∧
      w1.containers = w.containers ∧ w1.images = w.images ∧ w1.routes = w.routes ∧
      w1.routeHistory = w.routeHistory ∧
      (fault = none → w1.store = w.store.eraseP sel.sat) ∧
      (fault ≠ none → w1.store = w.store) := by
  cases fault with
  | some e =>
    exact ⟨_, _, rfl, rfl, rfl, rfl, rfl, rfl, fun h => (by cases h), fun _ => rfl⟩
  | none =>
    by_cases hany : w.store.any sel.sat = true
    · simp only [collRemove, hany, if_true]
      exact ⟨_, _, rfl, rfl, rfl, rfl, rfl, rfl, fun _ => rfl, fun h => absurd rfl h⟩
    · simp only [collRemove, hany]
      refine ⟨_, _, rfl, rfl, rfl, rfl, rfl, rfl, fun _ => ?_, fun h => absurd rfl h⟩
      exact (eraseP_of_not_any _ _ (by simpa using hany)).symm

theorem RemoveContainer_run (fault : Option Err) (id : String) (w : World) :
    ∃ err w1, RemoveContainer fault id w = Res.ok err w1 ∧
      w1.log = w.log ++ [Event.removeContainer id] ∧
      w1.store = w.store ∧ w1.images = w.images ∧ w1.routes = w.routes ∧
      w1.routeHistory = w.routeHistory := by
  cases fault with
  | some e => exact ⟨_, _, rfl, rfl, rfl, rfl, rfl, rfl⟩
  | none =>
    by_cases hmem : id ∈ w.containers
    · simp only [RemoveContainer, hmem, if_true]
      exact ⟨_, _, rfl, rfl, rfl, rfl, rfl, rfl⟩
    · simp only [RemoveContainer, hmem, if_false]
      exact ⟨_, _, rfl, rfl, rfl, rfl, rfl, rfl⟩

theorem remove_run (cfg : Config) (rf : RemoveFaults) (c : container) (w : World)
    (hrouter : cfg.routerErr = none) :
    ∃ w1, c.remove cfg rf w = Res.ok none w1 ∧
      removedIDs w1.log = removedIDs w.log ++ [c.ID] ∧
      w1.images = w.images ∧
      (rf.store = none → w1.store = w.store.eraseP (Selector.byID c.ID).sat) ∧
      (rf.store ≠ none → w1.store = w.store) ∧
      w1.routeHistory = w.routeHistory ++ [w1.routes] ∧
      (∀ x, x ∈ w1.routes → x ∈ w.routes) ∧
      (∀ x, x ∈ w.routes → x ≠ routeOf c → x ∈ w1.routes) := by
  have hget : getRouter cfg = (some Router.mk, none) := by simp [getRouter, hrouter]
  obtain ⟨e1, w1, h1, hl1, hs1, hi1, hr1, hh1⟩ := RemoveContainer_run rf.engine c.ID w
  obtain ⟨e3, w3, h3, hl3, _, hi3, hr3, hh3, hs3, hs3n⟩ :=
    collRemove_run rf.store (Selector.byID c.ID)
      { w1 with log := w1.log ++ [Event.agentDelete
        ("http://" ++ c.HostAddr ++ ":" ++ toString cfg.sshAgentPort ++ "/container/" ++ c.IP)] }
  obtain ⟨e4, w4, h4, hl4, hs4, _, hi4, hh4, hsome4, hnone4⟩ :=
    RemoveRoute_run Router.mk rf.route c.AppName c.getAddress w3
  refine ⟨w4, ?_, ?_, ?_, ?_, ?_, ?_, ?_, ?_⟩
  · simp only [container.remove, hget, bind, M.bind, h1, container.removeHost, agentDelete, h3,
      h4, pure, M.pure]
  · rw [hl4, hl3]
    simp only [removedIDs_append, hl1]
    simp [removedIDs]
  · rw [hi4, hi3, hi1]
  · intro h
    rw [hs4, hs3 h, hs1]
  · intro h
    rw [hs4, hs3n h, hs1]
  · rw [hh4, hh3, hh1]
  · intro x hx
    have hx3 : x ∈ w3.routes := by
      cases hf : rf.route with
      | none => exact (((hnone4 hf).2 x).1 hx).1
      | some e =>
        rw [(hsome4 e hf).2] at hx
        exact hx
    rw [hr3, hr1] at hx3
    exact hx3
  · intro x hx hne
    have hx3 : x ∈ w3.routes := by
      rw [hr3, hr1]
      exact hx
    cases hf : rf.route with
    | none => exact ((hnone4 hf).2 x).2 ⟨hx3, hne⟩
    | some e =>
      rw [(hsome4 e hf).2]
      exact hx3

theorem removeContainer_run (cfg : Config) (sf : StopFaults) (rf : RemoveFaults) (c : container)
    (w : World) (hrouter : cfg.routerErr = none) :
    ∃ w1, removeContainer cfg sf rf c w = Res.ok none w1 ∧
      removedIDs w1.log = removedIDs w.log ++ [c.ID] ∧
      w1.images = w.images ∧
      (rf.store = none → w1.store = w.store.eraseP (Selector.byID c.ID).sat) ∧
      w1.routeHistory = w.routeHistory ++ [w1.routes] ∧
      (∀ x, x ∈ w1.routes → x ∈ w.routes) ∧
      (∀ x, x ∈ w.routes → x ≠ routeOf c → x ∈ w1.routes) := by
  obtain ⟨c1, w1, h1, hid, happ, haddr, hr1, hh1, _, hi1, hl1, hs1⟩ := stop_run sf c w
  obtain ⟨w2, h2, hl2, hi2, hs2, _, hh2, hsub, hsup⟩ := remove_run cfg rf c1 w1 hrouter
  refine ⟨w2, ?_, ?_, hi2.trans hi1, ?_, ?_, ?_, ?_⟩
  · simp only [removeContainer, bind, M.bind, h1, h2, pure, M.pure]
  · rw [hl2, hl1, hid]
  · intro h
    rw [hs2 h, hid]
    rcases hs1 with hs1 | hs1
    · rw [hs1]
    · rw [hs1]
      exact eraseP_replaceFirst _ _ (by simp [Selector.sat, hid]) _
  · rw [hh2, hh1]
  · intro x hx
    rw [← hr1]
    exact hsub x hx
  · intro x hx hne
    apply hsup x (by rw [hr1]; exact hx)
    simpa [routeOf, happ, haddr] using hne


theorem nodup_ids_filter (p : container → Bool) (l : List container)
    (h : (l.map (fun c => c.ID)).Nodup) : ((l.filter p).map (fun c => c.ID)).Nodup :=
  h.sublist ((List.filter_sublist l).map _)

theorem removeUnitsLoop_run (cfg : Config) (faults : Nat → UnitFaults)
    (containers : List container) (hrouter : cfg.routerErr = none) :
    ∀ (n i : Nat) (w : World), i + n ≤ containers.length →
      ∃ w1, removeUnitsLoop cfg faults containers i n w = Res.ok () w1 ∧
        removedIDs w1.log =
          removedIDs w.log ++ ((containers.drop i).take n).map (fun c => c.ID) ∧
        ((∀ j, i ≤ j → j < i + n → (faults j).remove.store = none) →
          (w.store.map (fun c => c.ID)).Nodup →
          w1.store = w.store.filter
            (fun x => x.ID ∉ ((containers.drop i).take n).map (fun c => c.ID))) := by
  intro n
  induction n with
  | zero =>
    intro i w _
    refine ⟨w, rfl, by simp, fun _ _ => ?_⟩
    simp
  | succ n ih =>
    intro i w hlen
    have hi : i < containers.length := by omega
    have hget : containers[i]? = some containers[i] := List.getElem?_eq_getElem hi
    have hdrop : containers.drop i = containers[i] :: containers.drop (i + 1) :=
      List.drop_eq_getElem_cons hi
    obtain ⟨w1, h1, hl1, _, hs1, _⟩ :=
      removeContainer_run cfg (faults i).stop (faults i).remove containers[i] w hrouter
    obtain ⟨w2, h2, hl2, hs2⟩ := ih (i + 1) w1 (by omega)
    refine ⟨w2, ?_, ?_, ?_⟩
    · simp only [removeUnitsLoop, hget, bind, M.bind, h1, h2]
    · rw [hl2, hl1, hdrop, List.take_succ_cons, List.map_cons, List.append_assoc,
        List.singleton_append]
    · intro hf hnd
      have hw1 : w1.store = w.store.filter (fun x => x.ID ≠ containers[i].ID) := by
        rw [hs1 (hf i (le_refl _) (by omega))]
        exact eraseP_byID_eq_filter _ _ hnd
      have hnd1 : (w1.store.map (fun c => c.ID)).Nodup := by
        rw [hw1]
        exact nodup_ids_filter _ _ hnd
      rw [hs2 (fun j hj1 hj2 => hf j (by omega) (by omega)) hnd1, hw1, hdrop,
        List.filter_filter]
      apply List.filter_congr
      intro x _
      simp only [List.take_succ_cons, List.map_cons, List.mem_cons, not_or, ne_eq,
        Bool.decide_and, decide_not, Bool.and_comm]

theorem count_after_removal (store : List container) (appName : String) (units : Nat)
    (hnd : (store.map (fun c => c.ID)).Nodup) :
    ((store.filter (fun x => x.ID ∉
        (((store.filter (fun c => c.AppName == appName)).insertionSort statusLE).take units).map
          (fun c => c.ID))).filter (fun c => c.AppName == appName)).length =
      (store.filter (fun c => c.AppName == appName)).length - units := by
  set L := store.filter (fun c => c.AppName == appName) with hL
  set S := L.insertionSort statusLE with hS
  have hperm : S.Perm L := List.perm_insertionSort statusLE L
  have hndL : (L.map (fun c => c.ID)).Nodup := nodup_ids_filter _ _ hnd
  have hndS : (S.map (fun c => c.ID)).Nodup := (hperm.map _).nodup_iff.2 hndL
  set V := (S.take units).map (fun c => c.ID) with hV
  have hcomm : (store.filter (fun x => x.ID ∉ V)).filter (fun c => c.AppName == appName) =
      L.filter (fun x => x.ID ∉ V) := by
    rw [hL, List.filter_filter, List.filter_filter]
    apply List.filter_congr
    intro x _
    rw [Bool.and_comm]
  rw [hcomm, ← (hperm.filter _).length_eq]
  have hsplit : S = S.take units ++ S.drop units := (List.take_append_drop units S).symm
  have htake : (S.take units).filter (fun x => x.ID ∉ V) = [] := by
    rw [List.filter_eq_nil_iff]
    intro x hx
    simp only [decide_not, Bool.not_eq_true', decide_eq_false_iff_not, not_not]
    exact List.mem_map.2 ⟨x, hx, rfl⟩
  have hdrop : (S.drop units).filter (fun x => x.ID ∉ V) = S.drop units := by
    rw [List.filter_eq_self]
    intro x hx
    simp only [decide_not, Bool.not_eq_true', decide_eq_false_iff_not]
    intro hxV
    rw [hsplit, List.map_append] at hndS
    have hdisj := (List.nodup_append.1 hndS).2.2
    exact hdisj hxV (List.mem_map.2 ⟨x, hx, rfl⟩)
  calc (S.filter (fun x => x.ID ∉ V)).length
      = ((S.take units ++ S.drop units).filter (fun x => x.ID ∉ V)).length := by rw [← hsplit]
    _ = (S.drop units).length := by rw [List.filter_append, htake, hdrop, List.nil_append]
    _ = L.length - units := by rw [List.length_drop, hperm.length_eq]

/-! ## Computations that make no router call -/

theorem keeps_pure {α : Type} (a : α) : KeepsRouter (pure a : M α) := fun _ => rfl

theorem keeps_goPanic {α : Type} (msg : String) : KeepsRouter (goPanic msg : M α) := fun _ => rfl

theorem keeps_bind {α β : Type} (m : M α) (f : α → M β) (hm : KeepsRouter m)
    (hf : ∀ a, KeepsRouter (f a)) : KeepsRouter (m >>= f) := by
  intro w
  show routerView (M.bind m f w).world = routerView w
  unfold M.bind
  have h1 := hm w
  cases hmw : m w with
  | ok a w1 =>
    rw [hmw] at h1
    simp only
    rw [hf a w1]
    exact h1
  | panic msg w1 =>
    rw [hmw] at h1
    exact h1

theorem routerView_log (w : World) (e : Event) (he : e.isRouterCall = false) :
    routerView { w with log := w.log ++ [e] } = routerView w := by
  simp [routerView, routerCalls, List.filter_append, he]

theorem keeps_of_log {α : Type} (m : M α)
    (h : ∀ w, ∃ e, e.isRouterCall = false ∧
      routerView (m w).world = routerView { w with log := w.log ++ [e] }) : KeepsRouter m := by
  intro w
  obtain ⟨e, he, hw⟩ := h w
  rw [hw]
  exact routerView_log w e he

theorem keeps_collInsert (fault : Option Err) (doc : container) :
    KeepsRouter (collInsert fault doc) := by
  apply keeps_of_log
  intro w
  refine ⟨Event.storeInsert doc, rfl, ?_⟩
  cases fault <;> rfl

theorem keeps_collUpdate (fault : Option Err) (sel : Selector) (doc : container) :
    KeepsRouter (collUpdate fault sel doc) := by
  apply keeps_of_log
  intro w
  refine ⟨Event.storeUpdate sel doc, rfl, ?_⟩
  cases fault with
  | some e => rfl
  | none =>
    simp only [collUpdate]
    split <;> rfl

theorem keeps_collRemove (fault : Option Err) (sel : Selector) :
    KeepsRouter (collRemove fault sel) := by
  apply keeps_of_log
  intro w
  refine ⟨Event.storeRemove sel, rfl, ?_⟩
  cases fault with
  | some e => rfl
  | none =>
    simp only [collRemove]
    split <;> rfl

theorem keeps_CreateContainerSchedulerOpts (outcome : Except Err (String × String))
    (name image appName : String) :
    KeepsRouter (CreateContainerSchedulerOpts outcome name image appName) := by
  apply keeps_of_log
  intro w
  refine ⟨Event.createContainer name image appName, rfl, ?_⟩
  cases outcome with
  | error e => rfl
  | ok p =>
    obtain ⟨addr, id⟩ := p
    rfl

theorem keeps_StartContainer (fault : Option Err) (id : String) :
    KeepsRouter (StartContainer fault id) :=
  keeps_of_log _ (fun _ => ⟨Event.startContainer id, rfl, rfl⟩)

theorem keeps_StopContainer (fault : Option Err) (id : String) (timeout : Nat) :
    KeepsRouter (StopContainer fault id timeout) :=
  keeps_of_log _ (fun _ => ⟨Event.stopContainer id timeout, rfl, rfl⟩)

theorem keeps_RemoveContainer (fault : Option Err) (id : String) :
    KeepsRouter (RemoveContainer fault id) := by
  apply keeps_of_log
  intro w
  refine ⟨Event.removeContainer id, rfl, ?_⟩
  cases fault with
  | some e => rfl
  | none =>
    simp only [RemoveContainer]
    split <;> rfl

theorem keeps_InspectContainerNet (outcome : Except Err (Option NetworkSettings)) (id : String) :
    KeepsRouter (InspectContainerNet outcome id) :=
  keeps_of_log _ (fun _ => ⟨Event.inspectContainer id, rfl, rfl⟩)

theorem keeps_Nodes (outcome : Except Err (List String)) : KeepsRouter (Nodes outcome) :=
  keeps_of_log _ (fun _ => ⟨Event.nodes, rfl, rfl⟩)

theorem keeps_agentDelete (fault : Option Err) (url : String) :
    KeepsRouter (agentDelete fault url) :=
  keeps_of_log _ (fun _ => ⟨Event.agentDelete url, rfl, rfl⟩)

theorem keeps_timeNow : KeepsRouter timeNow := fun _ => rfl


theorem keeps_hostToNodeAddressLoop (host : String) (ns : List String) :
    KeepsRouter (hostToNodeAddressLoop host ns) := by
  induction ns with
  | nil => exact keeps_pure _
  | cons a rest ih =>
    simp only [hostToNodeAddressLoop]
    cases urlToHost a with
    | none => exact keeps_goPanic _
    | some h =>
      simp only
      split
      · exact keeps_pure _
      · exact ih

theorem keeps_hostToNodeAddress (nodes : Except Err (List String)) (host : String) :
    KeepsRouter (hostToNodeAddress nodes host) := by
  apply keeps_bind _ _ (keeps_Nodes _)
  intro r
  cases r with
  | error e => exact keeps_pure _
  | ok ns => exact keeps_hostToNodeAddressLoop _ _

theorem keeps_create (cfg : Config) (f : CreateFaults) (c : container) (app : App)
    (imageId : String) (cmds dest : List String) :
    KeepsRouter (c.create cfg f app imageId cmds dest) := by
  simp only [container.create]
  cases getPort cfg with
  | error e => exact keeps_pure _
  | ok port =>
    simp only
    apply keeps_bind
    · cases dest with
      | nil => exact keeps_pure _
      | cons host rest =>
        apply keeps_bind _ _ (keeps_hostToNodeAddress _ _)
        intro r
        cases r <;> exact keeps_pure _
    · intro nl
      cases nl with
      | error e => exact keeps_pure _
      | ok l =>
        apply keeps_bind _ _ (keeps_CreateContainerSchedulerOpts _ _ _ _)
        intro r
        cases r with
        | error e => exact keeps_pure _
        | ok p =>
          obtain ⟨addr, id⟩ := p
          simp only
          cases urlToHost addr with
          | none => exact keeps_goPanic _
          | some h => exact keeps_pure _

theorem keeps_containerStart (cfg : Config) (fault : Option Err) (c : container) :
    KeepsRouter (c.start cfg fault) := by
  simp only [container.start]
  cases getPort cfg with
  | error e => exact keeps_pure _
  | ok port =>
    apply keeps_bind _ _ (keeps_StartContainer _ _)
    intro r
    cases r <;> exact keeps_pure _

theorem keeps_networkInfo (cfg : Config) (inspect : Except Err (Option NetworkSettings))
    (c : container) : KeepsRouter (c.networkInfo cfg inspect) := by
  simp only [container.networkInfo]
  cases getPort cfg with
  | error e => exact keeps_pure _
  | ok port =>
    apply keeps_bind _ _ (keeps_InspectContainerNet _ _)
    intro r
    cases r with
    | error e => exact keeps_pure _
    | ok dc =>
      simp only
      split <;> exact keeps_pure _

theorem keeps_setStatus (fault : Option Err) (c : container) (status : String) :
    KeepsRouter (c.setStatus fault status) := by
  apply keeps_bind _ _ keeps_timeNow
  intro now
  apply keeps_bind _ _ (keeps_collUpdate _ _ _)
  intro err
  exact keeps_pure _

theorem keeps_setImage (fault : Option Err) (c : container) (imageId : String) :
    KeepsRouter (c.setImage fault imageId) := by
  apply keeps_bind _ _ (keeps_collUpdate _ _ _)
  intro err
  exact keeps_pure _

theorem keeps_stop (sf : StopFaults) (c : container) : KeepsRouter (c.stop sf) := by
  simp only [container.stop]
  split
  · exact keeps_pure _
  · apply keeps_bind _ _ (keeps_StopContainer _ _ _)
    intro _
    apply keeps_bind _ _ (keeps_setStatus _ _ _)
    intro _
    exact keeps_pure _

theorem keeps_rollback {π : Type} (params : List π) (done : List (Action π × Result))
    (h : ∀ p ∈ done, p.1.KeepsRouter) : KeepsRouter (rollback params done) := by
  induction done with
  | nil => exact keeps_pure _
  | cons p rest ih =>
    obtain ⟨a, r⟩ := p
    have hrest := ih (fun p hp => h p (List.mem_cons_of_mem _ hp))
    have ha := (h (a, r) (List.mem_cons_self _ _)).2
    simp only [rollback]
    cases hb : a.Backward with
    | none =>
      simp only
      exact keeps_bind _ _ (keeps_pure _) (fun _ => hrest)
    | some bw =>
      simp only
      exact keeps_bind _ _ (ha bw hb _) (fun _ => hrest)

theorem keeps_executeFrom {π : Type} (params : List π) (acts : List (Action π))
    (hacts : ∀ a ∈ acts, a.KeepsRouter) :
    ∀ (prev : Result) (done : List (Action π × Result)), (∀ p ∈ done, p.1.KeepsRouter) →
      KeepsRouter (executeFrom params acts prev done) := by
  induction acts with
  | nil =>
    intro prev done _
    exact keeps_pure _
  | cons a rest ih =>
    intro prev done hdone
    have ha := hacts a (List.mem_cons_self _ _)
    simp only [executeFrom]
    apply keeps_bind
    · split
      · exact keeps_pure _
      · exact ha.1 _
    · intro r
      cases r with
      | ok res =>
        apply ih (fun b hb => hacts b (List.mem_cons_of_mem _ hb))
        intro p hp
        rcases List.mem_cons.1 hp with rfl | hp
        · exact ha
        · exact hdone p hp
      | error e =>
        apply keeps_bind _ _ (keeps_rollback params done hdone)
        intro _
        exact keeps_pure _


theorem keeps_insertEmptyContainerInDB (f : RunFaults) :
    (insertEmptyContainerInDB f).KeepsRouter := by
  constructor
  · intro ctx
    simp only [insertEmptyContainerInDB]
    cases ctx.Params with
    | nil => exact keeps_goPanic _
    | cons args rest =>
      apply keeps_bind _ _ (keeps_collInsert _ _)
      intro r
      cases r <;> exact keeps_pure _
  · intro bw hbw ctx
    simp only [insertEmptyContainerInDB, Option.some.injEq] at hbw
    subst hbw
    obtain ⟨r, ps⟩ := ctx
    cases r with
    | cont c => exact keeps_bind _ _ (keeps_collRemove _ _) (fun _ => keeps_pure _)
    | null => exact keeps_goPanic _
    | conts cs => exact keeps_goPanic _
    | str s => exact keeps_goPanic _

theorem keeps_createContainer (cfg : Config) (f : RunFaults) :
    (createContainer cfg f).KeepsRouter := by
  constructor
  · intro ctx
    simp only [createContainer]
    cases ctx.Previous with
    | cont c =>
      cases ctx.Params with
      | nil => exact keeps_goPanic _
      | cons args rest =>
        apply keeps_bind _ _ (keeps_create _ _ _ _ _ _ _)
        intro r
        obtain ⟨c1, err⟩ := r
        cases err <;> exact keeps_pure _
    | null => exact keeps_goPanic _
    | conts cs => exact keeps_goPanic _
    | str s => exact keeps_goPanic _
  · intro bw hbw ctx
    simp only [createContainer, Option.some.injEq] at hbw
    subst hbw
    obtain ⟨r, ps⟩ := ctx
    cases r with
    | cont c => exact keeps_bind _ _ (keeps_RemoveContainer _ _) (fun _ => keeps_pure _)
    | null => exact keeps_goPanic _
    | conts cs => exact keeps_goPanic _
    | str s => exact keeps_goPanic _

theorem keeps_startContainer (cfg : Config) (f : RunFaults) :
    (startContainer cfg f).KeepsRouter := by
  constructor
  · intro ctx
    simp only [startContainer]
    cases ctx.Previous with
    | cont c =>
      apply keeps_bind _ _ (keeps_containerStart _ _ _)
      intro r
      cases r <;> exact keeps_pure _
    | null => exact keeps_goPanic _
    | conts cs => exact keeps_goPanic _
    | str s => exact keeps_goPanic _
  · intro bw hbw ctx
    simp only [startContainer, Option.some.injEq] at hbw
    subst hbw
    obtain ⟨r, ps⟩ := ctx
    cases r with
    | cont c => exact keeps_bind _ _ (keeps_StopContainer _ _ _) (fun _ => keeps_pure _)
    | null => exact keeps_goPanic _
    | conts cs => exact keeps_goPanic _
    | str s => exact keeps_goPanic _

theorem keeps_updateContainerInDB (f : RunFaults) : (updateContainerInDB f).KeepsRouter := by
  constructor
  · intro ctx
    simp only [updateContainerInDB]
    cases ctx.Previous with
    | cont c =>
      apply keeps_bind _ _ (keeps_collUpdate _ _ _)
      intro r
      cases r <;> exact keeps_pure _
    | null => exact keeps_goPanic _
    | conts cs => exact keeps_goPanic _
    | str s => exact keeps_goPanic _
  · intro bw hbw ctx
    simp only [updateContainerInDB, Option.some.injEq] at hbw
    subst hbw
    exact keeps_pure _

theorem keeps_setNetworkInfo (cfg : Config) (f : RunFaults) :
    (setNetworkInfo cfg f).KeepsRouter := by
  constructor
  · intro ctx
    simp only [setNetworkInfo]
    cases ctx.Previous with
    | cont c =>
      apply keeps_bind _ _ (keeps_networkInfo _ _ _)
      intro r
      obtain ⟨info, err⟩ := r
      cases err <;> exact keeps_pure _
    | null => exact keeps_goPanic _
    | conts cs => exact keeps_goPanic _
    | str s => exact keeps_goPanic _
  · intro bw hbw
    simp [setNetworkInfo] at hbw

theorem keeps_startFlow (cfg : Config) (f : StartFaults) (app : App) (imageId : String)
    (dest : List String) : KeepsRouter (start cfg f app imageId dest) := by
  simp only [start]
  cases f.prepare with
  | error e => exact keeps_pure _
  | ok p =>
    obtain ⟨privateKey, commands⟩ := p
    simp only
    apply keeps_bind
    · apply keeps_executeFrom
      · intro a ha
        simp only [NewPipeline, List.mem_cons, List.mem_singleton, List.not_mem_nil,
          or_false] at ha
        rcases ha with rfl | rfl | rfl | rfl | rfl
        · exact keeps_insertEmptyContainerInDB _
        · exact keeps_createContainer _ _
        · exact keeps_startContainer _ _
        · exact keeps_updateContainerInDB _
        · exact keeps_setNetworkInfo _ _
      · intro p hp
        cases hp
    · intro r
      cases r with
      | error e => exact keeps_pure _
      | ok res =>
        cases res with
        | cont c =>
          apply keeps_bind _ _ (keeps_setImage _ _ _)
          intro r1
          obtain ⟨c1, err⟩ := r1
          cases err with
          | some e => exact keeps_pure _
          | none =>
            apply keeps_bind _ _ (keeps_setStatus _ _ _)
            intro r2
            obtain ⟨c2, err2⟩ := r2
            cases err2 <;> exact keeps_pure _
        | null => exact keeps_goPanic _
        | conts cs => exact keeps_goPanic _
        | str s => exact keeps_goPanic _


/-! ## The container that a start flow returns -/

theorem create_result (cfg : Config) (f : CreateFaults) (c : container) (app : App)
    (imageId : String) (cmds dest : List String) (w w1 : World) (c1 : container)
    (h : c.create cfg f app imageId cmds dest w = Res.ok (c1, none) w1) :
    c1.AppName = c.AppName ∧ c1.HostPort = c.HostPort ∧
    ∃ addr host, f.create = .ok (addr, c1.ID) ∧ urlToHost addr = some host ∧
      c1.HostAddr = host := by
  simp only [container.create] at h
  cases hp : getPort cfg with
  | error e => simp [hp, pure_ok_iff] at h
  | ok port =>
    simp only [hp] at h
    rw [bind_ok_iff] at h
    obtain ⟨nl, w2, _, h2⟩ := h
    cases nl with
    | error e => simp [pure_ok_iff] at h2
    | ok nodeList =>
      simp only [bind_ok_iff] at h2
      obtain ⟨x, w3, h3, h4⟩ := h2
      simp only [CreateContainerSchedulerOpts] at h3
      cases hcreate : f.create with
      | error e =>
        simp only [hcreate, Res.ok.injEq] at h3
        obtain ⟨rfl, rfl⟩ := h3
        simp [pure_ok_iff] at h4
      | ok p =>
        obtain ⟨addr, id⟩ := p
        simp only [hcreate, Res.ok.injEq] at h3
        obtain ⟨rfl, rfl⟩ := h3
        simp only at h4
        cases hu : urlToHost addr with
        | none =>
          simp only [hu] at h4
          exact absurd h4 (goPanic_ne_ok _ _ _ _)
        | some hst =>
          simp only [hu, pure_ok_iff, Prod.mk.injEq, and_true] at h4
          obtain ⟨rfl, _⟩ := h4
          exact ⟨rfl, rfl, addr, hst, rfl, hu, rfl⟩

theorem networkInfo_result (cfg : Config) (inspect : Except Err (Option NetworkSettings))
    (c : container) (w w1 : World) (info : containerNetworkInfo)
    (h : c.networkInfo cfg inspect w = Res.ok (info, none) w1) :
    ∃ port ns, cfg.port = some port ∧ inspect = .ok (some ns) ∧
      info.HTTPHostPort = firstHostPort (ns.Ports (port ++ "/tcp")) ∧
      info.HTTPHostPort ≠ "" := by
  simp only [container.networkInfo] at h
  cases hport : cfg.port with
  | none => simp [getPort, hport, pure_ok_iff] at h
  | some port =>
    simp only [getPort, hport, bind_ok_iff, InspectContainerNet, Res.ok.injEq] at h
    obtain ⟨r, w2, ⟨rfl, rfl⟩, h2⟩ := h
    cases inspect with
    | error e => simp [pure_ok_iff] at h2
    | ok dc =>
      cases dc with
      | none => simp [pure_ok_iff] at h2
      | some ns =>
        simp only at h2
        split at h2
        · simp [pure_ok_iff] at h2
        · rename_i hne
          simp only [pure_ok_iff, Prod.mk.injEq, and_true] at h2
          obtain ⟨rfl, _⟩ := h2
          exact ⟨port, ns, rfl, rfl, rfl, hne⟩

theorem setImage_result (fault : Option Err) (c : container) (imageId : String) (w w1 : World)
    (c1 : container) (err : Option Err) (h : c.setImage fault imageId w = Res.ok (c1, err) w1) :
    c1 = { c with Image := imageId } := by
  simp only [container.setImage, bind_ok_iff, pure_ok_iff, Prod.mk.injEq] at h
  obtain ⟨_, _, _, ⟨rfl, _⟩, _⟩ := h
  rfl

theorem setStatus_result (fault : Option Err) (c : container) (status : String) (w w1 : World)
    (c1 : container) (err : Option Err) (h : c.setStatus fault status w = Res.ok (c1, err) w1) :
    c1.AppName = c.AppName ∧ c1.HostAddr = c.HostAddr ∧ c1.HostPort = c.HostPort ∧
    c1.ID = c.ID ∧ c1.Status = status ∧ c1.Image = c.Image := by
  simp only [container.setStatus, bind_ok_iff, pure_ok_iff, Prod.mk.injEq] at h
  obtain ⟨_, _, _, _, _, _, ⟨rfl, _⟩, _⟩ := h
  exact ⟨rfl, rfl, rfl, rfl, rfl, rfl⟩

theorem find_replaceFirst (p : container → Bool) (doc : container) (hdoc : p doc = true) :
    ∀ l : List container, l.any p = true → (replaceFirst p doc l).find? p = some doc := by
  intro l
  induction l with
  | nil => intro h; simp at h
  | cons a l ih =>
    intro h
    by_cases ha : p a = true
    · simp [replaceFirst, ha, List.find?_cons, hdoc]
    · have hl : l.any p = true := by
        simpa [List.any_cons, ha] using h
      simp only [replaceFirst, ha, Bool.false_eq_true, if_false, List.find?_cons]
      exact ih hl

theorem setStatus_stored (fault : Option Err) (c : container) (status : String) (w w1 : World)
    (c1 : container) (h : c.setStatus fault status w = Res.ok (c1, none) w1) :
    w1.store.find? (fun r => r.ID == c1.ID) = some c1 := by
  simp only [container.setStatus, bind_ok_iff, pure_ok_iff, Prod.mk.injEq, timeNow,
    Res.ok.injEq] at h
  obtain ⟨now, w2, ⟨rfl, rfl⟩, err, w3, hup, ⟨rfl, rfl⟩, rfl⟩ := h
  simp only [collUpdate] at hup
  cases fault with
  | some e => simp at hup
  | none =>
    simp only at hup
    split at hup
    · rename_i hany
      simp only [Res.ok.injEq, true_and] at hup
      subst hup
      exact find_replaceFirst (Selector.byID c.ID).sat _ (by simp [Selector.sat]) _ hany
    · simp [ErrNotFound] at hup

theorem start_result (cfg : Config) (f : StartFaults) (app : App) (imageId : String)
    (dest : List String) (w w' : World) (c : container)
    (h : start cfg f app imageId dest w = Res.ok (.ok c) w') :
    c.AppName = app.GetName ∧
    ∃ addr id host port ns, f.run.create.create = .ok (addr, id) ∧ urlToHost addr = some host ∧
      cfg.port = some port ∧ f.run.inspectNet = .ok (some ns) ∧
      c.HostAddr = host ∧ c.HostPort = firstHostPort (ns.Ports (port ++ "/tcp")) ∧
      c.ID = id ∧ c.HostPort ≠ "" ∧ c.Status = "started" ∧ c.Image = imageId ∧
      w'.store.find? (fun r => r.ID == c.ID) = some c := by
  simp only [start] at h
  cases hprep : f.prepare with
  | error e => simp [hprep, pure_ok_iff] at h
  | ok p =>
    obtain ⟨privateKey, commands⟩ := p
    simp only [hprep, NewPipeline, Pipeline.Execute, bind_ok_iff] at h
    obtain ⟨x, wf, hexec, hfin⟩ := h
    -- step 0
    obtain ⟨r0, w1, hf0, hcase0⟩ :=
      executeFrom_cons_ok _ _ _ _ _ _ _ _ (by simp [insertEmptyContainerInDB]) hexec
    rcases hcase0 with ⟨res0, rfl, hexec1⟩ | ⟨e0, rfl, rfl, _⟩
    swap
    · simp [pure_ok_iff] at hfin
    simp only [insertEmptyContainerInDB, bind_ok_iff] at hf0
    obtain ⟨err0, _, _, hf0⟩ := hf0
    cases err0 with
    | some e => simp [pure_ok_iff] at hf0
    | none =>
    simp only [pure_ok_iff, Except.ok.injEq] at hf0
    obtain ⟨rfl, rfl⟩ := hf0
    -- step 1
    obtain ⟨r1, w2, hf1, hcase1⟩ :=
      executeFrom_cons_ok _ _ _ _ _ _ _ _ (by simp [createContainer]) hexec1
    rcases hcase1 with ⟨res1, rfl, hexec2⟩ | ⟨e1, rfl, rfl, _⟩
    swap
    · simp [pure_ok_iff] at hfin
    simp only [createContainer, bind_ok_iff] at hf1
    obtain ⟨⟨c1, err1⟩, _, hcr, hf1⟩ := hf1
    cases err1 with
    | some e => simp [pure_ok_iff] at hf1
    | none =>
    simp only [pure_ok_iff, Except.ok.injEq] at hf1
    obtain ⟨rfl, rfl⟩ := hf1
    obtain ⟨happ1, hport1, addr, host, hcreate, hurl, hhost⟩ :=
      create_result _ _ _ _ _ _ _ _ _ _ hcr
    -- step 2
    obtain ⟨r2, w3, hf2, hcase2⟩ :=
      executeFrom_cons_ok _ _ _ _ _ _ _ _ (by simp [startContainer]) hexec2
    rcases hcase2 with ⟨res2, rfl, hexec3⟩ | ⟨e2, rfl, rfl, _⟩
    swap
    · simp [pure_ok_iff] at hfin
    obtain ⟨_, _, _, hr2⟩ := startContainer_forward_effect _ _ _ _ _ _ _ hf2
    rcases hr2 with ⟨_, h2⟩ | h2
    · cases h2
    simp only [Except.ok.injEq] at h2
    subst h2
    -- step 3
    obtain ⟨r3, w4, hf3, hcase3⟩ :=
      executeFrom_cons_ok _ _ _ _ _ _ _ _ (by simp [updateContainerInDB]) hexec3
    rcases hcase3 with ⟨res3, rfl, hexec4⟩ | ⟨e3, rfl, rfl, _⟩
    swap
    · simp [pure_ok_iff] at hfin
    obtain ⟨_, _, hs3⟩ := updateContainerInDB_forward_effect _ _ _ _ _ _ hf3
    rcases hs3 with ⟨_, h3, _⟩ | ⟨h3, _⟩
    · cases h3
    simp only [Except.ok.injEq] at h3
    subst h3
    -- step 4
    obtain ⟨r4, w5, hf4, hcase4⟩ :=
      executeFrom_cons_ok _ _ _ _ _ _ _ _ (by simp [setNetworkInfo]) hexec4
    rcases hcase4 with ⟨res4, rfl, hexec5⟩ | ⟨e4, rfl, rfl, _⟩
    swap
    · simp [pure_ok_iff] at hfin
    simp only [executeFrom, pure_ok_iff] at hexec5
    obtain ⟨rfl, rfl⟩ := hexec5
    simp only [setNetworkInfo, bind_ok_iff] at hf4
    obtain ⟨⟨info, err4⟩, _, hni, hf4⟩ := hf4
    cases err4 with
    | some e => simp [pure_ok_iff] at hf4
    | none =>
    simp only [pure_ok_iff, Except.ok.injEq] at hf4
    obtain ⟨rfl, rfl⟩ := hf4
    obtain ⟨port, ns, hport, hinsp, hhp, hpne⟩ := networkInfo_result _ _ _ _ _ _ hni
    -- setImage, setStatus
    simp only [bind_ok_iff] at hfin
    obtain ⟨⟨c5, err5⟩, w6, hsi, hfin⟩ := hfin
    have hc5 := setImage_result _ _ _ _ _ _ _ hsi
    cases err5 with
    | some e => simp [pure_ok_iff] at hfin
    | none =>
    simp only [bind_ok_iff] at hfin
    obtain ⟨⟨c6, err6⟩, w7, hss, hfin⟩ := hfin
    obtain ⟨ha6, hh6, hp6, hid6, hst6, him6⟩ := setStatus_result _ _ _ _ _ _ _ hss
    cases err6 with
    | some e => simp [pure_ok_iff] at hfin
    | none =>
    have hstored := setStatus_stored _ _ _ _ _ _ hss
    simp only [pure_ok_iff, Except.ok.injEq] at hfin
    obtain ⟨rfl, rfl⟩ := hfin
    subst hc5
    refine ⟨?_, addr, c1.ID, host, port, ns, hcreate, hurl, hport, hinsp, ?_, ?_, hid6, ?_,
      hst6, him6, hstored⟩
    · rw [ha6]
      exact happ1
    · rw [hh6]
      exact hhost
    · rw [hp6]
      exact hhp
    · rw [hp6]
      exact hpne


/-! ## Router calls that leave a route in place -/

theorem Kept.ktrans {k : Route} {w w1 w2 : World} (h1 : Kept k w w1) (h2 : Kept k w1 w2) :
    Kept k w w2 := by
  obtain ⟨_, s1, hs1, hk1⟩ := h1
  obtain ⟨hk, s2, hs2, hk2⟩ := h2
  refine ⟨hk, s1 ++ s2, by rw [hs2, hs1, List.append_assoc], ?_⟩
  intro s hs
  rcases List.mem_append.1 hs with h | h
  · exact hk1 s h
  · exact hk2 s h

theorem Calls.ctrans {Q : Event → Prop} {w w1 w2 : World} (h1 : Calls Q w w1)
    (h2 : Calls Q w1 w2) : Calls Q w w2 := by
  obtain ⟨e1, he1, hq1⟩ := h1
  obtain ⟨e2, he2, hq2⟩ := h2
  refine ⟨e1 ++ e2, by rw [he2, he1, List.append_assoc], ?_⟩
  intro e he
  rcases List.mem_append.1 he with h | h
  · exact hq1 e h
  · exact hq2 e h

theorem Safe.strans {Q : Event → Prop} {k : Route} {w w1 w2 : World} (h1 : Safe Q k w w1)
    (h2 : Safe Q k w1 w2) : Safe Q k w w2 :=
  ⟨h1.1.ktrans h2.1, h1.2.ctrans h2.2⟩

theorem Safe.of_view {Q : Event → Prop} {k : Route} {w w1 : World}
    (hv : routerView w1 = routerView w) (hk : k ∈ w.routes) : Safe Q k w w1 := by
  simp only [routerView, Prod.mk.injEq] at hv
  obtain ⟨hr, hh, hl⟩ := hv
  refine ⟨⟨hr ▸ hk, [], by simp [hh], by simp⟩, [], by simp [hl], by simp⟩

theorem Safe.refl {Q : Event → Prop} {k : Route} {w : World} (hk : k ∈ w.routes) :
    Safe Q k w w :=
  Safe.of_view rfl hk

theorem routerCalls_append_router (log : List Event) (e : Event) (he : e.isRouterCall = true) :
    routerCalls (log ++ [e]) = routerCalls log ++ [e] := by
  simp [routerCalls, List.filter_append, he]

theorem RemoveRoute_safe {Q : Event → Prop} {k : Route} (r : Router) (fault : Option Err)
    (name address : String) (w w1 : World) (err : Option Err)
    (h : RemoveRoute (some r) fault name address w = Res.ok err w1)
    (hk : k ∈ w.routes) (hne : k ≠ (name, address)) (hq : Q (Event.removeRoute name address)) :
    Safe Q k w w1 := by
  obtain ⟨err1, w2, h2, hl, _, _, _, hh, hsome, hnone⟩ := RemoveRoute_run r fault name address w
  rw [h2, Res.ok.injEq] at h
  obtain ⟨_, rfl⟩ := h
  have hk1 : k ∈ w2.routes := by
    cases hf : fault with
    | none => exact ((hnone hf).2 k).2 ⟨hk, hne⟩
    | some e =>
      rw [(hsome e hf).2]
      exact hk
  refine ⟨⟨hk1, [w2.routes], hh, ?_⟩, [Event.removeRoute name address], ?_, ?_⟩
  · intro s hs
    rw [List.mem_singleton.1 hs]
    exact hk1
  · rw [hl]
    exact routerCalls_append_router _ _ rfl
  · intro e he
    rw [List.mem_singleton.1 he]
    exact hq

theorem AddRoute_safe {Q : Event → Prop} {k : Route} (r : Router) (fault : Option Err)
    (name address : String) (w w1 : World) (err : Option Err)
    (h : AddRoute (some r) fault name address w = Res.ok err w1)
    (hk : k ∈ w.routes) (hq : Q (Event.addRoute name address)) :
    Safe Q k w w1 := by
  obtain ⟨err1, w2, h2, hl, _, _, _, hh, _, hsame, hadd⟩ := AddRoute_run r fault name address w
  rw [h2, Res.ok.injEq] at h
  obtain ⟨_, rfl⟩ := h
  have hk1 : k ∈ w2.routes := by
    cases hf : fault with
    | none => exact (hadd hf k).2 (Or.inl hk)
    | some e =>
      rw [hsame (by rw [hf]; simp)]
      exact hk
  refine ⟨⟨hk1, [w2.routes], hh, ?_⟩, [Event.addRoute name address], ?_, ?_⟩
  · intro s hs
    rw [List.mem_singleton.1 hs]
    exact hk1
  · rw [hl]
    exact routerCalls_append_router _ _ rfl
  · intro e he
    rw [List.mem_singleton.1 he]
    exact hq

theorem removeRoutes_safe {Q : Event → Prop} {k : Route} (r : Router) (faults : Nat → Option Err)
    (cs : List container) :
    ∀ (j : Nat) (w w1 : World), removeRoutes (some r) faults j cs w = Res.ok () w1 →
      k ∈ w.routes → (∀ c ∈ cs, k ≠ routeOf c ∧ Q (removeRouteEvent c)) → Safe Q k w w1 := by
  induction cs with
  | nil =>
    intro j w w1 h hk _
    simp only [removeRoutes, pure_ok_iff] at h
    obtain ⟨_, rfl⟩ := h
    exact Safe.refl hk
  | cons c rest ih =>
    intro j w w1 h hk hcs
    simp only [removeRoutes, bind_ok_iff] at h
    obtain ⟨err, w2, h1, h2⟩ := h
    have hc := hcs c (List.mem_cons_self _ _)
    have s1 : Safe Q k w w2 := RemoveRoute_safe r _ _ _ _ _ _ h1 hk hc.1 hc.2
    exact s1.strans (ih _ _ _ h2 s1.1.1 (fun d hd => hcs d (List.mem_cons_of_mem _ hd)))

theorem addRoutes_safe {Q : Event → Prop} {k : Route} (r : Router) (faults : Nat → Option Err)
    (cs : List container) :
    ∀ (j : Nat) (w w1 : World), addRoutes (some r) faults j cs w = Res.ok () w1 →
      k ∈ w.routes → (∀ c ∈ cs, Q (addRouteEvent c)) → Safe Q k w w1 := by
  induction cs with
  | nil =>
    intro j w w1 h hk _
    simp only [addRoutes, pure_ok_iff] at h
    obtain ⟨_, rfl⟩ := h
    exact Safe.refl hk
  | cons c rest ih =>
    intro j w w1 h hk hcs
    simp only [addRoutes, bind_ok_iff] at h
    obtain ⟨err, w2, h1, h2⟩ := h
    have s1 : Safe Q k w w2 :=
      AddRoute_safe r _ _ _ _ _ _ h1 hk (hcs c (List.mem_cons_self _ _))
    exact s1.strans (ih _ _ _ h2 s1.1.1 (fun d hd => hcs d (List.mem_cons_of_mem _ hd)))

theorem world_of_ok {α : Type} {m : M α} {w w1 : World} {a : α} (h : m w = Res.ok a w1) :
    (m w).world = w1 := by
  rw [h]
  rfl

theorem removeContainer_safe {Q : Event → Prop} {k : Route} (cfg : Config) (sf : StopFaults)
    (rf : RemoveFaults) (c : container) (w w1 : World) (err : Option Err)
    (hrouter : cfg.routerErr = none)
    (h : removeContainer cfg sf rf c w = Res.ok err w1)
    (hk : k ∈ w.routes) (hne : k ≠ routeOf c) (hq : Q (removeRouteEvent c)) :
    Safe Q k w w1 := by
  have hget : getRouter cfg = (some Router.mk, none) := by simp [getRouter, hrouter]
  simp only [removeContainer, bind_ok_iff] at h
  obtain ⟨⟨c1, e1⟩, w2, hstop, ⟨e2, w3, hrem, hlast⟩⟩ := h
  obtain ⟨c1', w2', hstop', _, happ, haddr, _⟩ := stop_run sf c w
  rw [hstop', Res.ok.injEq, Prod.mk.injEq] at hstop
  obtain ⟨⟨rfl, _⟩, rfl⟩ := hstop
  have s1 : Safe Q k w w2' := by
    apply Safe.of_view _ hk
    have := keeps_stop sf c w
    rwa [world_of_ok hstop'] at this
  simp only [container.remove, hget, bind_ok_iff] at hrem
  obtain ⟨_, w4, h4, _, w5, h5, _, w6, h6, _, w7, h7, hfin⟩ := hrem
  have s2 : Safe Q k w2' w6 := by
    apply Safe.of_view _ s1.1.1
    have v4 := keeps_RemoveContainer rf.engine c1'.ID w2'
    rw [world_of_ok h4] at v4
    have v5 := keeps_agentDelete rf.agent
      ("http://" ++ c1'.HostAddr ++ ":" ++ toString cfg.sshAgentPort ++ "/container/" ++ c1'.IP) w4
    simp only [container.removeHost] at h5
    rw [world_of_ok h5] at v5
    have v6 := keeps_collRemove rf.store (Selector.byID c1'.ID) w5
    rw [world_of_ok h6] at v6
    rw [v6, v5, v4]
  have s3 : Safe Q k w6 w7 := by
    apply RemoveRoute_safe Router.mk _ _ _ _ _ _ h7 s2.1.1
    · rw [happ, haddr]
      exact hne
    · rw [happ, haddr]
      exact hq
  have e7 : w7 = w3 := by
    simp only [pure_ok_iff] at hfin
    exact hfin.2
  have e3 : w3 = w1 := by
    simp only [pure_ok_iff] at hlast
    exact hlast.2
  rw [← e3, ← e7]
  exact s1.strans (s2.strans s3)

theorem removeContainers_safe {Q : Event → Prop} {k : Route} (cfg : Config)
    (faults : Nat → UnitFaults) (hrouter : cfg.routerErr = none) (cs : List container) :
    ∀ (j : Nat) (w w1 : World), removeContainers cfg faults j cs w = Res.ok () w1 →
      k ∈ w.routes → (∀ c ∈ cs, k ≠ routeOf c ∧ Q (removeRouteEvent c)) → Safe Q k w w1 := by
  induction cs with
  | nil =>
    intro j w w1 h hk _
    simp only [removeContainers, pure_ok_iff] at h
    obtain ⟨_, rfl⟩ := h
    exact Safe.refl hk
  | cons c rest ih =>
    intro j w w1 h hk hcs
    simp only [removeContainers, bind_ok_iff] at h
    obtain ⟨err, w2, h1, h2⟩ := h
    have hc := hcs c (List.mem_cons_self _ _)
    have s1 : Safe Q k w w2 := removeContainer_safe cfg _ _ _ _ _ _ hrouter h1 hk hc.1 hc.2
    exact s1.strans (ih _ _ _ h2 s1.1.1 (fun d hd => hcs d (List.mem_cons_of_mem _ hd)))

theorem removeContainers_run (cfg : Config) (faults : Nat → UnitFaults)
    (hrouter : cfg.routerErr = none) (cs : List container) :
    ∀ (j : Nat) (w : World), ∃ w1, removeContainers cfg faults j cs w = Res.ok () w1 := by
  induction cs with
  | nil =>
    intro j w
    exact ⟨w, rfl⟩
  | cons c rest ih =>
    intro j w
    obtain ⟨w1, h1, _⟩ := removeContainer_run cfg (faults j).stop (faults j).remove c w hrouter
    obtain ⟨w2, h2⟩ := ih (j + 1) w1
    exact ⟨w2, by simp only [removeContainers, bind, M.bind, h1, h2]⟩


theorem addNewRoutesLoop_total (r : Router) (f : ChangeFaults) (rest : List container) :
    ∀ (i : Nat) (added : List container) (w : World),
      ∃ e w1, addNewRoutesLoop (some r) f i added rest w = Res.ok e w1 := by
  induction rest with
  | nil =>
    intro i added w
    exact ⟨none, w, rfl⟩
  | cons c rest ih =>
    intro i added w
    obtain ⟨err, w1, h1, _⟩ := AddRoute_run r (f.addRoute i) c.AppName c.getAddress w
    cases err with
    | some e =>
      obtain ⟨w2, h2, _⟩ := removeRoutes_run r f.addRouteUndo added 0 w1
      exact ⟨some e, w2, by simp only [addNewRoutesLoop, bind, M.bind, h1, h2, pure, M.pure]⟩
    | none =>
      obtain ⟨e, w2, h2⟩ := ih (i + 1) (added ++ [c]) w1
      exact ⟨e, w2, by simp only [addNewRoutesLoop, bind, M.bind, h1, h2]⟩

theorem addNewRoutesLoop_safe {Q : Event → Prop} {k : Route} (r : Router) (f : ChangeFaults)
    (rest : List container) :
    ∀ (i : Nat) (added : List container) (w w1 : World) (e : Option Err),
      addNewRoutesLoop (some r) f i added rest w = Res.ok e w1 → k ∈ w.routes →
      (∀ c ∈ added ++ rest, k ≠ routeOf c ∧ Q (addRouteEvent c) ∧ Q (removeRouteEvent c)) →
      Safe Q k w w1 := by
  induction rest with
  | nil =>
    intro i added w w1 e h hk _
    simp only [addNewRoutesLoop, pure_ok_iff] at h
    obtain ⟨_, rfl⟩ := h
    exact Safe.refl hk
  | cons c rest ih =>
    intro i added w w1 e h hk hcs
    simp only [addNewRoutesLoop, bind_ok_iff] at h
    obtain ⟨err, w2, h1, h2⟩ := h
    have hc := hcs c (by simp)
    have s1 : Safe Q k w w2 := AddRoute_safe r _ _ _ _ _ _ h1 hk hc.2.1
    cases err with
    | some e1 =>
      simp only [bind_ok_iff] at h2
      obtain ⟨_, w3, h3, h4⟩ := h2
      simp only [pure_ok_iff] at h4
      obtain ⟨_, rfl⟩ := h4
      refine s1.strans (removeRoutes_safe r _ added 0 _ _ h3 s1.1.1 ?_)
      intro d hd
      have := hcs d (by simp [hd])
      exact ⟨this.1, this.2.2⟩
    | none =>
      refine s1.strans (ih (i + 1) (added ++ [c]) _ _ _ h2 s1.1.1 ?_)
      intro d hd
      exact hcs d (by simpa using hd)

theorem addNewRoutesLoop_none (r : Router) (f : ChangeFaults) (rest : List container) :
    ∀ (i : Nat) (added : List container) (w w1 : World),
      addNewRoutesLoop (some r) f i added rest w = Res.ok none w1 →
      ∀ j, j < rest.length → f.addRoute (i + j) = none := by
  induction rest with
  | nil =>
    intro i added w w1 _ j hj
    simp at hj
  | cons c rest ih =>
    intro i added w w1 h j hj
    simp only [addNewRoutesLoop, bind_ok_iff] at h
    obtain ⟨err, w2, h1, h2⟩ := h
    obtain ⟨err1, w2a, h1a, _, _, _, _, _, herr, _⟩ :=
      AddRoute_run r (f.addRoute i) c.AppName c.getAddress w
    rw [h1a, Res.ok.injEq] at h1
    obtain ⟨rfl, rfl⟩ := h1
    cases herr1 : err1 with
    | some e1 =>
      rw [herr1] at h2
      simp only [bind_ok_iff, pure_ok_iff] at h2
      obtain ⟨_, _, _, h4, _⟩ := h2
      cases h4
    | none =>
      rw [herr1] at h2
      cases j with
      | zero =>
        rw [Nat.add_zero, ← herr, herr1]
      | succ j =>
        have := ih (i + 1) (added ++ [c]) _ _ h2 j (by simpa using hj)
        rwa [show i + (j + 1) = i + 1 + j by omega]

theorem removeOldRoutesLoop_total (r : Router) (f : ChangeFaults) (rest : List container) :
    ∀ (i : Nat) (removed : List container) (w : World),
      ∃ e w1, removeOldRoutesLoop (some r) f i removed rest w = Res.ok e w1 := by
  induction rest with
  | nil =>
    intro i removed w
    exact ⟨none, w, rfl⟩
  | cons c rest ih =>
    intro i removed w
    obtain ⟨err, w1, h1, _⟩ := RemoveRoute_run r (f.removeRoute i) c.AppName c.getAddress w
    by_cases hg : err ≠ some ErrRouteNotFound ∧ err ≠ none
    · obtain ⟨w2, h2, _⟩ := addRoutes_run r f.removeRouteUndo removed 0 w1
      refine ⟨err, w2, ?_⟩
      simp only [removeOldRoutesLoop, bind, M.bind, h1]
      rw [if_pos hg]
      simp only [bind, M.bind, h2, pure, M.pure]
    · obtain ⟨e, w2, h2⟩ := ih (i + 1) (removed ++ [c]) w1
      refine ⟨e, w2, ?_⟩
      simp only [removeOldRoutesLoop, bind, M.bind, h1]
      rw [if_neg hg]
      exact h2

theorem removeOldRoutesLoop_safe {Q : Event → Prop} {k : Route} (r : Router) (f : ChangeFaults)
    (rest : List container) :
    ∀ (i : Nat) (removed : List container) (w w1 : World) (e : Option Err),
      removeOldRoutesLoop (some r) f i removed rest w = Res.ok e w1 → k ∈ w.routes →
      (∀ c ∈ removed ++ rest, k ≠ routeOf c ∧ Q (addRouteEvent c) ∧ Q (removeRouteEvent c)) →
      Safe Q k w w1 := by
  induction rest with
  | nil =>
    intro i removed w w1 e h hk _
    simp only [removeOldRoutesLoop, pure_ok_iff] at h
    obtain ⟨_, rfl⟩ := h
    exact Safe.refl hk
  | cons c rest ih =>
    intro i removed w w1 e h hk hcs
    simp only [removeOldRoutesLoop, bind_ok_iff] at h
    obtain ⟨err, w2, h1, h2⟩ := h
    have hc := hcs c (by simp)
    have s1 : Safe Q k w w2 := RemoveRoute_safe r _ _ _ _ _ _ h1 hk hc.1 hc.2.2
    by_cases hg : err ≠ some ErrRouteNotFound ∧ err ≠ none
    · rw [if_pos hg] at h2
      simp only [bind_ok_iff] at h2
      obtain ⟨_, w3, h3, h4⟩ := h2
      simp only [pure_ok_iff] at h4
      obtain ⟨_, rfl⟩ := h4
      refine s1.strans (addRoutes_safe r _ removed 0 _ _ h3 s1.1.1 ?_)
      intro d hd
      exact (hcs d (by simp [hd])).2.1
    · rw [if_neg hg] at h2
      refine s1.strans (ih (i + 1) (removed ++ [c]) _ _ _ h2 s1.1.1 ?_)
      intro d hd
      exact hcs d (by simpa using hd)

theorem removeOldRoutesLoop_restores (r : Router) (f : ChangeFaults)
    (hundo : ∀ j, f.removeRouteUndo j = none) (rest : List container) :
    ∀ (i : Nat) (removed : List container) (w w1 : World) (e : Err),
      removeOldRoutesLoop (some r) f i removed rest w = Res.ok (some e) w1 →
      ∀ x, (x ∈ w.routes ∨ x ∈ removed.map routeOf) → x ∈ w1.routes := by
  induction rest with
  | nil =>
    intro i removed w w1 e h
    simp only [removeOldRoutesLoop, pure_ok_iff] at h
    cases h.1
  | cons c rest ih =>
    intro i removed w w1 e h x hx
    simp only [removeOldRoutesLoop, bind_ok_iff] at h
    obtain ⟨err, w2, h1, h2⟩ := h
    obtain ⟨err1, w2a, h1a, _, _, _, _, _, hsome, hnone⟩ :=
      RemoveRoute_run r (f.removeRoute i) c.AppName c.getAddress w
    rw [h1a, Res.ok.injEq] at h1
    obtain ⟨rfl, rfl⟩ := h1
    by_cases hg : err1 ≠ some ErrRouteNotFound ∧ err1 ≠ none
    · rw [if_pos hg] at h2
      simp only [bind_ok_iff] at h2
      obtain ⟨_, w3, h3, h4⟩ := h2
      simp only [pure_ok_iff] at h4
      obtain ⟨_, rfl⟩ := h4
      obtain ⟨w3a, h3a, _, _, _, _, hr⟩ := addRoutes_run r f.removeRouteUndo removed 0 w2a
      rw [h3a, Res.ok.injEq] at h3
      obtain ⟨_, rfl⟩ := h3
      rw [hr (fun j _ => hundo _) x]
      have hsame : w2a.routes = w.routes := by
        cases hf : f.removeRoute i with
        | some e1 => exact (hsome e1 hf).2
        | none =>
          rcases (hnone hf).1 with h0 | h0
          · exact absurd h0 hg.2
          · exact absurd h0 hg.1
      rw [hsame]
      exact hx
    · rw [if_neg hg] at h2
      apply ih (i + 1) (removed ++ [c]) _ _ _ h2 x
      by_cases hxc : x = routeOf c
      · right
        simp [hxc]
      · rcases hx with hx | hx
        · left
          cases hf : f.removeRoute i with
          | some e1 =>
            rw [(hsome e1 hf).2]
            exact hx
          | none => exact ((hnone hf).2 x).2 ⟨hx, hxc⟩
        · right
          simp only [List.map_append, List.mem_append]
          exact Or.inl hx

theorem start_appName (cfg : Config) (starts : Nat → StartFaults) (a : App) (imageId : String)
    (dest : List String) :
    ∀ (n i : Nat) (w w1 : World) (created : List container) (errors : List Err),
      startUnits cfg starts a imageId dest i n w = Res.ok (created, errors) w1 →
      created.length + errors.length = n ∧ ∀ c ∈ created, c.AppName = a.GetName := by
  intro n
  induction n with
  | zero =>
    intro i w w1 created errors h
    simp only [startUnits, pure_ok_iff, Prod.mk.injEq] at h
    obtain ⟨⟨rfl, rfl⟩, _⟩ := h
    simp
  | succ n ih =>
    intro i w w1 created errors h
    simp only [startUnits, bind_ok_iff] at h
    obtain ⟨r, w2, h1, ⟨cr, er⟩, w3, h3, h4⟩ := h
    obtain ⟨hlen, hall⟩ := ih _ _ _ _ _ h3
    cases r with
    | error e =>
      simp only [pure_ok_iff, Prod.mk.injEq] at h4
      obtain ⟨⟨rfl, rfl⟩, _⟩ := h4
      refine ⟨by simp only [List.length_cons]; omega, hall⟩
    | ok c =>
      simp only [pure_ok_iff, Prod.mk.injEq] at h4
      obtain ⟨⟨rfl, rfl⟩, _⟩ := h4
      refine ⟨by simp only [List.length_cons]; omega, ?_⟩
      intro d hd
      rcases List.mem_cons.1 hd with rfl | hd
      · exact (start_result cfg _ a imageId dest w w2 _ h1).1
      · exact hall d hd

theorem keeps_startUnits (cfg : Config) (starts : Nat → StartFaults) (a : App) (imageId : String)
    (dest : List String) :
    ∀ (n i : Nat), KeepsRouter (startUnits cfg starts a imageId dest i n) := by
  intro n
  induction n with
  | zero =>
    intro i
    exact keeps_pure _
  | succ n ih =>
    intro i
    simp only [startUnits]
    refine keeps_bind _ _ (keeps_startFlow cfg _ a imageId dest) ?_
    intro r
    refine keeps_bind _ _ (ih (i + 1)) ?_
    rintro ⟨created, errors⟩
    cases r with
    | error e => exact keeps_pure _
    | ok c => exact keeps_pure _

/-! ## One step of the pipeline, by the outcome of its forward -/

theorem executeFrom_ok_step {π : Type} (params : List π) (a : Action π) (rest : List (Action π))
    (prev : Result) (done : List (Action π × Result)) (w w1 : World) (res : Result)
    (hmin : ¬ params.length < a.MinParams)
    (h : a.Forward { Previous := prev, Params := params } w = Res.ok (.ok res) w1) :
    executeFrom params (a :: rest) prev done w =
      executeFrom params rest res ((a, res) :: done) w1 := by
  rw [executeFrom, if_neg hmin]
  show M.bind _ _ w = _
  unfold M.bind
  rw [h]

theorem executeFrom_error_step {π : Type} (params : List π) (a : Action π)
    (rest : List (Action π)) (prev : Result) (done : List (Action π × Result)) (w w1 : World)
    (e : Err) (hmin : ¬ params.length < a.MinParams)
    (h : a.Forward { Previous := prev, Params := params } w = Res.ok (.error e) w1) :
    (executeFrom params (a :: rest) prev done w).world = (rollback params done w1).world := by
  rw [executeFrom, if_neg hmin]
  show (M.bind _ _ w).world = _
  unfold M.bind
  rw [h]
  show (M.bind (rollback params done) _ w1).world = _
  unfold M.bind
  cases rollback params done w1 with
  | ok u w2 => rfl
  | panic msg w2 => rfl

theorem executeFrom_panic_step {π : Type} (params : List π) (a : Action π)
    (rest : List (Action π)) (prev : Result) (done : List (Action π × Result)) (w w1 : World)
    (msg : String) (hmin : ¬ params.length < a.MinParams)
    (h : a.Forward { Previous := prev, Params := params } w = Res.panic msg w1) :
    (executeFrom params (a :: rest) prev done w).world = w1 := by
  rw [executeFrom, if_neg hmin]
  show (M.bind _ _ w).world = _
  unfold M.bind
  rw [h]
  rfl

theorem rollback_step {π : Type} (params : List π) (a : Action π) (r : Result)
    (rest : List (Action π × Result)) (bw : BWContext π → M Unit) (hbw : a.Backward = some bw)
    (w w1 : World) (h : bw { FWResult := r, Params := params } w = Res.ok () w1) :
    rollback params ((a, r) :: rest) w = rollback params rest w1 := by
  rw [rollback, hbw]
  show M.bind _ _ w = _
  unfold M.bind
  rw [h]

theorem AppRouted.rtrans {name : String} {w w1 w2 : World} (h1 : AppRouted name w w1)
    (h2 : AppRouted name w1 w2) : AppRouted name w w2 := by
  obtain ⟨_, s1, hs1, hk1⟩ := h1
  obtain ⟨hk, s2, hs2, hk2⟩ := h2
  refine ⟨hk, s1 ++ s2, by rw [hs2, hs1, List.append_assoc], ?_⟩
  intro s hs
  rcases List.mem_append.1 hs with h | h
  · exact hk1 s h
  · exact hk2 s h

theorem Kept.appRouted {k : Route} {w w1 : World} (h : Kept k w w1) :
    AppRouted k.1 w w1 := by
  obtain ⟨hk, snaps, hs, hall⟩ := h
  exact ⟨⟨k.2, hk⟩, snaps, hs, fun s hs1 => ⟨k.2, hall s hs1⟩⟩

theorem prefix_of_split {α : Type} (l1 l2 pre post : List α) (x : α) (hx : x ∉ l1)
    (h : l1 ++ l2 = pre ++ x :: post) : l1 <+: pre := by
  rcases List.append_eq_append_iff.1 h with ⟨a, ha, _⟩ | ⟨c, hc, hc2⟩
  · exact ⟨a, ha.symm⟩
  · cases c with
    | nil =>
      rw [List.append_nil] at hc
      exact ⟨[], by rw [List.append_nil, hc]⟩
    | cons y c =>
      rw [List.cons_append, List.cons.injEq] at hc2
      exfalso
      apply hx
      rw [hc, hc2.1]
      simp

/-! ## The replace-units flow, step by step -/

theorem newUnits_of_run (cfg : Config) (f : ChangeFaults) (args : changeUnitsPipelineArgs)
    (w w1 : World) (created : List container) (errors : List Err)
    (h : startUnits cfg f.add.starts args.app (assembleImageName cfg args.app.GetName)
      (if args.toHost ≠ "" then [args.toHost] else []) 0 args.unitsToAdd w =
        Res.ok (created, errors) w1) :
    newUnits cfg f args w = created := by
  simp only [newUnits, h]

theorem step0_run {Q : Event → Prop} (cfg : Config) (f : ChangeFaults)
    (args : changeUnitsPipelineArgs) (prev : Result) (w : World) (r0 : Route)
    (hrouter : cfg.routerErr = none) (hr0 : r0 ∈ w.routes)
    (hnew : ∀ c ∈ newUnits cfg f args w, r0 ≠ routeOf c ∧ Q (removeRouteEvent c)) :
    (∃ msg w1, (provisionAddUnitsToHost cfg f).Forward { Previous := prev, Params := [args] } w =
        Res.panic msg w1 ∧ routerView w1 = routerView w) ∨
    (∃ e w1, (provisionAddUnitsToHost cfg f).Forward { Previous := prev, Params := [args] } w =
        Res.ok (.error e) w1 ∧ Safe Q r0 w w1) ∨
    (∃ w1, (provisionAddUnitsToHost cfg f).Forward { Previous := prev, Params := [args] } w =
        Res.ok (.ok (.conts (newUnits cfg f args w))) w1 ∧ routerView w1 = routerView w ∧
        (newUnits cfg f args w).length = args.unitsToAdd ∧ 0 < args.unitsToAdd ∧
        ∀ c ∈ newUnits cfg f args w, c.AppName = args.app.GetName) := by
  by_cases hz : args.unitsToAdd = 0
  · right
    left
    refine ⟨"Cannot add 0 units", w, ?_, Safe.refl hr0⟩
    simp only [provisionAddUnitsToHost, addContainersWithHost, hz, if_true, bind, M.bind, pure,
      M.pure]
  · cases hsu : startUnits cfg f.add.starts args.app (assembleImageName cfg args.app.GetName)
        (if args.toHost ≠ "" then [args.toHost] else []) 0 args.unitsToAdd w with
    | panic msg w1 =>
      left
      refine ⟨msg, w1, ?_, ?_⟩
      · simp only [provisionAddUnitsToHost, addContainersWithHost, if_neg hz, bind, M.bind, hsu]
      · have := keeps_startUnits cfg f.add.starts args.app (assembleImageName cfg args.app.GetName)
          (if args.toHost ≠ "" then [args.toHost] else []) args.unitsToAdd 0 w
        rw [hsu] at this
        exact this
    | ok p w1 =>
      obtain ⟨created, errors⟩ := p
      have hnu := newUnits_of_run cfg f args w w1 created errors hsu
      have hview : routerView w1 = routerView w := by
        have := keeps_startUnits cfg f.add.starts args.app (assembleImageName cfg args.app.GetName)
          (if args.toHost ≠ "" then [args.toHost] else []) args.unitsToAdd 0 w
        rw [hsu] at this
        exact this
      obtain ⟨hlen, hnames⟩ := start_appName cfg f.add.starts args.app _ _ _ _ _ _ _ _ hsu
      rw [hnu] at hnew ⊢
      cases errors with
      | nil =>
        right
        right
        refine ⟨w1, ?_, hview, by simpa using hlen, Nat.pos_of_ne_zero hz, hnames⟩
        simp only [provisionAddUnitsToHost, addContainersWithHost, if_neg hz, bind, M.bind, hsu,
          pure, M.pure]
      | cons e errors =>
        right
        left
        obtain ⟨w2, h2⟩ := removeContainers_run cfg f.add.undo hrouter created 0 w1
        have s1 : Safe Q r0 w w1 := Safe.of_view hview hr0
        have s2 : Safe Q r0 w1 w2 :=
          removeContainers_safe cfg f.add.undo hrouter created 0 w1 w2 h2 s1.1.1 hnew
        refine ⟨e, w2, ?_, s1.strans s2⟩
        simp only [provisionAddUnitsToHost, addContainersWithHost, if_neg hz, bind, M.bind, hsu,
          h2, pure, M.pure]

theorem notOutgoing_add (toRemove : List container) (c : container) :
    notOutgoing toRemove (addRouteEvent c) := by
  intro o _ h
  simp [addRouteEvent, removeRouteEvent] at h

theorem notOutgoing_remove (toRemove : List container) (c : container)
    (h : routeOf c ∉ toRemove.map routeOf) : notOutgoing toRemove (removeRouteEvent c) := by
  intro o ho heq
  apply h
  simp only [removeRouteEvent, Event.removeRoute.injEq] at heq
  exact List.mem_map.2 ⟨o, ho, by simp [routeOf, heq.1, heq.2]⟩

theorem routerCalls_append (l1 l2 : List Event) :
    routerCalls (l1 ++ l2) = routerCalls l1 ++ routerCalls l2 := by
  simp [routerCalls, List.filter_append]

theorem routerCalls_map_add (cs : List container) :
    routerCalls (cs.map addRouteEvent) = cs.map addRouteEvent := by
  induction cs with
  | nil => rfl
  | cons c cs ih =>
    simp only [List.map_cons, routerCalls, List.filter_cons, addRouteEvent, Event.isRouterCall,
      if_true, List.cons.injEq, true_and]
    exact ih

theorem Safe.routed {Q : Event → Prop} {k : Route} {name : String} {w w1 : World}
    (s : Safe Q k w w1) (hk : k.1 = name) : AppRouted name w w1 := by
  rw [← hk]
  exact s.1.appRouted

theorem replace_flow (cfg : Config) (f : ChangeFaults) (args : changeUnitsPipelineArgs)
    (w : World) (r0 : Route) (hrouter : cfg.routerErr = none) (hr0 : r0 ∈ w.routes)
    (hr0n : r0.1 = args.app.Name)
    (hnew : ∀ c ∈ newUnits cfg f args w,
      routeOf c ∉ w.routes ∧ routeOf c ∉ args.toRemove.map routeOf)
    (hundo : ∀ j, f.removeRouteUndo j = none) :
    AppRouted args.app.Name w
      (executeFrom [args] [provisionAddUnitsToHost cfg f, addNewRoutes cfg f,
        removeOldRoutes cfg f, provisionRemoveOldUnits cfg f] Result.null [] w).world ∧
    (Calls (notOutgoing args.toRemove) w
      (executeFrom [args] [provisionAddUnitsToHost cfg f, addNewRoutes cfg f,
        removeOldRoutes cfg f, provisionRemoveOldUnits cfg f] Result.null [] w).world ∨
     ((newUnits cfg f args w).length = args.unitsToAdd ∧
      (∀ i, i < args.unitsToAdd → f.addRoute i = none) ∧
      ∃ evs, routerCalls (executeFrom [args] [provisionAddUnitsToHost cfg f, addNewRoutes cfg f,
        removeOldRoutes cfg f, provisionRemoveOldUnits cfg f] Result.null [] w).world.log =
          routerCalls w.log ++ (newUnits cfg f args w).map addRouteEvent ++ evs)) := by
  have hget : getRouter cfg = (some Router.mk, none) := by simp [getRouter, hrouter]
  have hQ : ∀ c ∈ newUnits cfg f args w, r0 ≠ routeOf c ∧
      notOutgoing args.toRemove (addRouteEvent c) ∧
      notOutgoing args.toRemove (removeRouteEvent c) := by
    intro c hc
    refine ⟨?_, notOutgoing_add _ _, notOutgoing_remove _ _ (hnew c hc).2⟩
    intro h
    exact (hnew c hc).1 (h ▸ hr0)
  have hmin0 : ¬ [args].length < (provisionAddUnitsToHost cfg f).MinParams := by
    simp [provisionAddUnitsToHost]
  have hmin1 : ¬ [args].length < (addNewRoutes cfg f).MinParams := by
    simp [addNewRoutes]
  have hmin2 : ¬ [args].length < (removeOldRoutes cfg f).MinParams := by
    simp [removeOldRoutes]
  have hmin3 : ¬ [args].length < (provisionRemoveOldUnits cfg f).MinParams := by
    simp [provisionRemoveOldUnits]
  rcases step0_run cfg f args Result.null w r0 hrouter hr0
      (fun c hc => ⟨(hQ c hc).1, (hQ c hc).2.2⟩) with
    ⟨msg, w1, h0, hv⟩ | ⟨e, w1, h0, s0⟩ | ⟨w1, h0, hv, hlen, hpos, hnames⟩
  · rw [executeFrom_panic_step _ _ _ _ _ _ _ _ hmin0 h0]
    have s : Safe (notOutgoing args.toRemove) r0 w w1 := Safe.of_view hv hr0
    exact ⟨s.routed hr0n, Or.inl s.2⟩
  · rw [executeFrom_error_step _ _ _ _ _ _ _ _ hmin0 h0]
    simp only [rollback, pure, M.pure, Res.world]
    exact ⟨s0.routed hr0n, Or.inl s0.2⟩
  · rw [executeFrom_ok_step _ _ _ _ _ _ _ _ hmin0 h0]
    have s0 : Safe (notOutgoing args.toRemove) r0 w w1 := Safe.of_view hv hr0
    obtain ⟨e1, w2, hl1⟩ := addNewRoutesLoop_total Router.mk f (newUnits cfg f args w) 0 [] w1
    have s1 : Safe (notOutgoing args.toRemove) r0 w1 w2 :=
      addNewRoutesLoop_safe Router.mk f _ 0 [] w1 w2 e1 hl1 s0.1.1 (by simpa using hQ)
    cases e1 with
    | some err =>
      have hF : (addNewRoutes cfg f).Forward
          { Previous := .conts (newUnits cfg f args w), Params := [args] } w1 =
            Res.ok (.error err) w2 := by
        simp only [addNewRoutes, hget, bind, M.bind, hl1, pure, M.pure]
      rw [executeFrom_error_step _ _ _ _ _ _ _ _ hmin1 hF]
      obtain ⟨w3, h3⟩ := removeContainers_run cfg f.bwAdd hrouter (newUnits cfg f args w) 0 w2
      rw [rollback_step [args] (provisionAddUnitsToHost cfg f) _ [] _ rfl w2 w3 h3]
      simp only [rollback, pure, M.pure, Res.world]
      have s2 : Safe (notOutgoing args.toRemove) r0 w2 w3 :=
        removeContainers_safe cfg f.bwAdd hrouter _ 0 w2 w3 h3 s1.1.1
          (fun c hc => ⟨(hQ c hc).1, (hQ c hc).2.2⟩)
      have s := s0.strans (s1.strans s2)
      exact ⟨s.routed hr0n, Or.inl s.2⟩
    | none =>
      have hF : (addNewRoutes cfg f).Forward
          { Previous := .conts (newUnits cfg f args w), Params := [args] } w1 =
            Res.ok (.ok (.conts (newUnits cfg f args w))) w2 := by
        simp only [addNewRoutes, hget, bind, M.bind, hl1, pure, M.pure]
      rw [executeFrom_ok_step _ _ _ _ _ _ _ _ hmin1 hF]
      have hfa := addNewRoutesLoop_none Router.mk f _ 0 [] w1 w2 hl1
      obtain ⟨w2a, hl1a, hlog, _, _, _, hroutes⟩ :=
        addNewRoutesLoop_ok Router.mk f (newUnits cfg f args w) 0 [] w1 hfa
      rw [hl1, Res.ok.injEq] at hl1a
      obtain ⟨_, rfl⟩ := hl1a
      have hcalls : routerCalls w2.log =
          routerCalls w.log ++ (newUnits cfg f args w).map addRouteEvent := by
        rw [hlog, routerCalls_append, routerCalls_map_add]
        simp only [routerView, Prod.mk.injEq] at hv
        rw [hv.2.2]
      have hfaults : ∀ i, i < args.unitsToAdd → f.addRoute i = none := by
        intro i hi
        have := hfa i (by omega)
        rwa [Nat.zero_add] at this
      obtain ⟨c0, hc0⟩ : ∃ c0, c0 ∈ newUnits cfg f args w :=
        List.exists_mem_of_length_pos (by omega)
      have hn0 : routeOf c0 ∈ w2.routes :=
        (hroutes _).2 (Or.inr (List.mem_map.2 ⟨c0, hc0, rfl⟩))
      have hn0n : (routeOf c0).1 = args.app.Name := hnames c0 hc0
      have hn0o : ∀ o ∈ [] ++ args.toRemove, routeOf c0 ≠ routeOf o ∧
          (fun _ => True) (addRouteEvent o) ∧ (fun _ => True) (removeRouteEvent o) := by
        intro o ho
        refine ⟨fun h => (hnew c0 hc0).2 ?_, trivial, trivial⟩
        rw [h]
        exact List.mem_map.2 ⟨o, by simpa using ho, rfl⟩
      obtain ⟨e2, w3, hl2⟩ := removeOldRoutesLoop_total Router.mk f args.toRemove 0 [] w2
      have s2 : Safe (fun _ => True) (routeOf c0) w2 w3 :=
        removeOldRoutesLoop_safe Router.mk f _ 0 [] w2 w3 e2 hl2 hn0 hn0o
      have r01 : AppRouted args.app.Name w w2 := (s0.strans s1).routed hr0n
      cases e2 with
      | some err =>
        have hF2 : (removeOldRoutes cfg f).Forward
            { Previous := .conts (newUnits cfg f args w), Params := [args] } w2 =
              Res.ok (.error err) w3 := by
          simp only [removeOldRoutes, hget, bind, M.bind, hl2, pure, M.pure]
        rw [executeFrom_error_step _ _ _ _ _ _ _ _ hmin2 hF2]
        obtain ⟨w4, h4, _⟩ := removeRoutes_run Router.mk f.bwAddRoute (newUnits cfg f args w) 0 w3
        have hb1 : ∃ bw, (addNewRoutes cfg f).Backward = some bw ∧
            bw { FWResult := .conts (newUnits cfg f args w), Params := [args] } w3 =
              Res.ok () w4 :=
          ⟨_, rfl, by simp only [hget]; exact h4⟩
        obtain ⟨bw, hbw, hbw4⟩ := hb1
        rw [rollback_step [args] (addNewRoutes cfg f) _ _ bw hbw w3 w4 hbw4]
        obtain ⟨w5, h5⟩ := removeContainers_run cfg f.bwAdd hrouter (newUnits cfg f args w) 0 w4
        rw [rollback_step [args] (provisionAddUnitsToHost cfg f) _ [] _ rfl w4 w5 h5]
        simp only [rollback, pure, M.pure, Res.world]
        have hr3 : r0 ∈ w3.routes :=
          removeOldRoutesLoop_restores Router.mk f hundo _ 0 [] w2 w3 err hl2 r0
            (Or.inl (s0.strans s1).1.1)
        have s3 : Safe (fun _ => True) r0 w3 w4 :=
          removeRoutes_safe Router.mk _ _ 0 w3 w4 h4 hr3 (fun c hc => ⟨(hQ c hc).1, trivial⟩)
        have s4 : Safe (fun _ => True) r0 w4 w5 :=
          removeContainers_safe cfg f.bwAdd hrouter _ 0 w4 w5 h5 s3.1.1
            (fun c hc => ⟨(hQ c hc).1, trivial⟩)
        refine ⟨r01.rtrans ((s2.routed hn0n).rtrans ((s3.strans s4).routed hr0n)), Or.inr
          ⟨hlen, hfaults, ?_⟩⟩
        obtain ⟨evs, hevs, _⟩ := s2.2.ctrans (s3.2.ctrans s4.2)
        exact ⟨evs, by rw [hevs, hcalls]⟩
      | none =>
        have hF2 : (removeOldRoutes cfg f).Forward
            { Previous := .conts (newUnits cfg f args w), Params := [args] } w2 =
              Res.ok (.ok (.conts (newUnits cfg f args w))) w3 := by
          simp only [removeOldRoutes, hget, bind, M.bind, hl2, pure, M.pure]
        rw [executeFrom_ok_step _ _ _ _ _ _ _ _ hmin2 hF2]
        obtain ⟨w4, h4⟩ := removeContainers_run cfg f.removeOld hrouter args.toRemove 0 w3
        have hF3 : (provisionRemoveOldUnits cfg f).Forward
            { Previous := .conts (newUnits cfg f args w), Params := [args] } w3 =
              Res.ok (.ok (.conts (newUnits cfg f args w))) w4 := by
          simp only [provisionRemoveOldUnits, bind, M.bind, h4, pure, M.pure]
        rw [executeFrom_ok_step _ _ _ _ _ _ _ _ hmin3 hF3]
        simp only [executeFrom, pure, M.pure, Res.world]
        have s3 : Safe (fun _ => True) (routeOf c0) w3 w4 :=
          removeContainers_safe cfg f.removeOld hrouter _ 0 w3 w4 h4 s2.1.1
            (fun o ho => ⟨(hn0o o (by simpa using ho)).1, trivial⟩)
        refine ⟨r01.rtrans ((s2.strans s3).routed hn0n), Or.inr ⟨hlen, hfaults, ?_⟩⟩
        obtain ⟨evs, hevs, _⟩ := s2.2.ctrans s3.2
        exact ⟨evs, by rw [hevs, hcalls]⟩

theorem runReplaceUnitsPipeline_world (cfg : Config) (f : ChangeFaults)
    (args : changeUnitsPipelineArgs) (w : World) :
    (runReplaceUnitsPipeline cfg f args w).world =
      (executeFrom [args] [provisionAddUnitsToHost cfg f, addNewRoutes cfg f,
        removeOldRoutes cfg f, provisionRemoveOldUnits cfg f] Result.null [] w).world := by
  simp only [runReplaceUnitsPipeline, NewPipeline, Pipeline.Execute]
  show (M.bind _ _ w).world = _
  unfold M.bind
  cases executeFrom [args] [provisionAddUnitsToHost cfg f, addNewRoutes cfg f,
      removeOldRoutes cfg f, provisionRemoveOldUnits cfg f] Result.null [] w with
  | panic msg w1 => rfl
  | ok r w1 =>
    cases r with
    | error e => rfl
    | ok res => cases res <;> rfl

/-! ## `getImage` -/

theorem assembleImageName_ne_empty (cfg : Config) (name : String) :
    assembleImageName cfg name ≠ "" := by
  intro h
  have hlen := congrArg String.length h
  simp only [assembleImageName] at hlen
  have hslash : "/".length ≠ 0 := by decide
  by_cases hr : cfg.registry.getD "" ≠ ""
  · simp [hr, String.intercalate, String.intercalate.go] at hlen
    exact hslash hlen.1.2
  · simp [hr, String.intercalate, String.intercalate.go] at hlen
    exact hslash hlen.1.2

theorem getImage_value (cfg : Config) (fault : Option Err) (app : App) (w : World) :
    (getImage cfg fault app w).value =
      some (match (getOneContainerByAppName fault app.GetName w).value with
        | some (.ok c) =>
          if c.Image = "" ∨ usePlatformImage app = true then assembleImageName cfg app.GetPlatform
          else c.Image
        | _ => assembleImageName cfg app.GetPlatform) := by
  simp only [getImage, bind, M.bind]
  cases hget : getOneContainerByAppName fault app.GetName w with
  | panic msg w1 =>
    exfalso
    simp only [getOneContainerByAppName] at hget
    cases fault with
    | some e => cases hget
    | none =>
      cases hfind : List.find? (fun c => c.AppName == app.GetName) w.store with
      | none => simp [hfind] at hget
      | some c => simp [hfind] at hget
  | ok r w1 =>
    cases r with
    | error e => rfl
    | ok c =>
      by_cases hc : c.Image = "" ∨ usePlatformImage app = true
      · simp [hc, Res.value, pure, M.pure]
      · simp [hc, Res.value, pure, M.pure]

theorem getContainer_value (id : String) (w : World) :
    (getContainer none id w).value =
      some (match w.store.find? (fun c => c.ID == id) with
        | some c => .ok c
        | none => .error ErrNotFound) := by
  simp only [getContainer]
  cases w.store.find? (fun c => c.ID == id) with
  | none => rfl
  | some c => rfl

/-! ## Computations that return -/

theorem ret_pure {α : Type} {P : α → Prop} (a : α) (h : P a) : Ret P (pure a : M α) :=
  fun w => ⟨a, w, rfl, h⟩

theorem ret_bind {α β : Type} {P : α → Prop} {Q : β → Prop} (m : M α) (f : α → M β)
    (hm : Ret P m) (hf : ∀ a, P a → Ret Q (f a)) : Ret Q (m >>= f) := by
  intro w
  obtain ⟨a, w1, h1, hp⟩ := hm w
  obtain ⟨b, w2, h2, hq⟩ := hf a hp w1
  exact ⟨b, w2, (bind_ok_iff m f w w2 b).2 ⟨a, w1, h1, h2⟩, hq⟩

theorem ret_mono {α : Type} {P Q : α → Prop} (m : M α) (hm : Ret P m) (h : ∀ a, P a → Q a) :
    Ret Q m := by
  intro w
  obtain ⟨a, w1, h1, hp⟩ := hm w
  exact ⟨a, w1, h1, h a hp⟩

theorem ret_any {α : Type} (m : M α) (h : ∀ w, ∃ a w1, m w = Res.ok a w1) :
    Ret (fun _ => True) m := by
  intro w
  obtain ⟨a, w1, h1⟩ := h w
  exact ⟨a, w1, h1, trivial⟩

theorem ret_collInsert (fault : Option Err) (doc : container) :
    Ret (fun _ => True) (collInsert fault doc) := by
  apply ret_any
  intro w
  cases fault with
  | some e => exact ⟨_, _, rfl⟩
  | none => exact ⟨_, _, rfl⟩

theorem ret_collUpdate (fault : Option Err) (sel : Selector) (doc : container) :
    Ret (fun _ => True) (collUpdate fault sel doc) := by
  apply ret_any
  intro w
  cases fault with
  | some e => exact ⟨_, _, rfl⟩
  | none =>
    by_cases h : w.store.any sel.sat = true
    · exact ⟨none, _, by simp only [collUpdate, h, if_true]; rfl⟩
    · exact ⟨some ErrNotFound, _, by simp only [collUpdate, h]; rfl⟩

theorem ret_collRemove (fault : Option Err) (sel : Selector) :
    Ret (fun _ => True) (collRemove fault sel) := by
  apply ret_any
  intro w
  cases fault with
  | some e => exact ⟨_, _, rfl⟩
  | none =>
    by_cases h : w.store.any sel.sat = true
    · exact ⟨none, _, by simp only [collRemove, h, if_true]; rfl⟩
    · exact ⟨some ErrNotFound, _, by simp only [collRemove, h]; rfl⟩

theorem ret_RemoveContainer (fault : Option Err) (id : String) :
    Ret (fun _ => True) (RemoveContainer fault id) := by
  apply ret_any
  intro w
  cases fault with
  | some e => exact ⟨_, _, rfl⟩
  | none =>
    by_cases h : id ∈ w.containers
    · exact ⟨none, _, by simp only [RemoveContainer, h, if_true]; rfl⟩
    · exact ⟨some ErrNoSuchContainer, _, by simp only [RemoveContainer, h, if_false]; rfl⟩

theorem ret_setStatus (fault : Option Err) (c : container) (status : String) :
    Ret (fun _ => True) (c.setStatus fault status) := by
  simp only [container.setStatus]
  refine ret_bind _ _ (ret_any _ (fun w => ⟨_, _, rfl⟩)) (fun now _ => ?_)
  refine ret_bind _ _ (ret_collUpdate _ _ _) (fun err _ => ret_pure _ trivial)

theorem ret_setImage (fault : Option Err) (c : container) (imageId : String) :
    Ret (fun _ => True) (c.setImage fault imageId) := by
  simp only [container.setImage]
  refine ret_bind _ _ (ret_collUpdate _ _ _) (fun err _ => ret_pure _ trivial)

theorem ret_hostToNodeAddressLoop (host : String) (ns : List String)
    (h : ∀ a ∈ ns, urlToHost a ≠ none) :
    Ret (fun _ => True) (hostToNodeAddressLoop host ns) := by
  induction ns with
  | nil => exact ret_pure _ trivial
  | cons a rest ih =>
    simp only [hostToNodeAddressLoop]
    cases hu : urlToHost a with
    | none => exact absurd hu (h a (List.mem_cons_self _ _))
    | some hst =>
      simp only
      by_cases heq : (hst == host) = true
      · simp only [heq, if_true]
        exact ret_pure _ trivial
      · simp only [heq]
        exact ih (fun b hb => h b (List.mem_cons_of_mem _ hb))

theorem ret_hostToNodeAddress (nodes : Except Err (List String)) (host : String)
    (h : ∀ ns, nodes = .ok ns → ∀ a ∈ ns, urlToHost a ≠ none) :
    Ret (fun _ => True) (hostToNodeAddress nodes host) := by
  simp only [hostToNodeAddress]
  refine ret_bind (P := fun r => r = nodes) _ _ (fun w => ⟨_, _, rfl, rfl⟩) ?_
  rintro r rfl
  cases r with
  | error e => exact ret_pure _ trivial
  | ok ns => exact ret_hostToNodeAddressLoop host ns (h ns rfl)

theorem ret_create (cfg : Config) (f : CreateFaults) (c : container) (app : App)
    (imageId : String) (cmds dest : List String) (hp : f.parses) :
    Ret (fun _ => True) (c.create cfg f app imageId cmds dest) := by
  simp only [container.create]
  cases getPort cfg with
  | error e => exact ret_pure _ trivial
  | ok port =>
    simp only
    refine ret_bind (P := fun _ => True) _ _ ?_ ?_
    · cases dest with
      | nil => exact ret_pure _ trivial
      | cons host rest =>
        simp only
        refine ret_bind _ _ (ret_hostToNodeAddress f.nodes host hp.2) ?_
        intro r _
        cases r with
        | error e => exact ret_pure _ trivial
        | ok n => exact ret_pure _ trivial
    · intro nl _
      cases nl with
      | error e => exact ret_pure _ trivial
      | ok l =>
        simp only
        refine ret_bind (P := fun r => r = f.create) _ _ ?_ ?_
        · intro w
          simp only [CreateContainerSchedulerOpts]
          cases hc : f.create with
          | error e => exact ⟨_, _, rfl, rfl⟩
          | ok p => exact ⟨_, _, rfl, rfl⟩
        · rintro r rfl
          cases hc : f.create with
          | error e => exact ret_pure _ trivial
          | ok p =>
            obtain ⟨addr, id⟩ := p
            simp only
            cases hu : urlToHost addr with
            | none => exact absurd hu (hp.1 addr id hc)
            | some hst => exact ret_pure _ trivial

theorem ret_rollback {π : Type} (params : List π) (done : List (Action π × Result))
    (h : ∀ p ∈ done, ∀ bw, p.1.Backward = some bw →
      Ret (fun _ => True) (bw { FWResult := p.2, Params := params })) :
    Ret (fun _ => True) (rollback params done) := by
  induction done with
  | nil => exact ret_pure _ trivial
  | cons p rest ih =>
    obtain ⟨a, r⟩ := p
    have hrest := ih (fun q hq => h q (List.mem_cons_of_mem _ hq))
    rw [rollback]
    cases hb : a.Backward with
    | none =>
      exact ret_bind (P := fun _ => True) _ _ (ret_pure () trivial) (fun _ _ => hrest)
    | some bw =>
      exact ret_bind _ _ (h (a, r) (List.mem_cons_self _ _) bw hb) (fun _ _ => hrest)

theorem ret_executeFrom {π : Type} (params : List π) (G : Result → Prop)
    (acts : List (Action π))
    (hF : ∀ a ∈ acts, ∀ prev, G prev →
      Ret (fun r => ∀ res, r = .ok res → G res) (a.Forward { Previous := prev, Params := params }))
    (hB : ∀ a ∈ acts, ∀ bw, a.Backward = some bw → ∀ res, G res →
      Ret (fun _ => True) (bw { FWResult := res, Params := params })) :
    ∀ (prev : Result) (done : List (Action π × Result)), G prev →
      (∀ p ∈ done, ∀ bw, p.1.Backward = some bw →
        Ret (fun _ => True) (bw { FWResult := p.2, Params := params })) →
      Ret (fun r => ∀ res, r = .ok res → G res) (executeFrom params acts prev done) := by
  induction acts with
  | nil =>
    intro prev done hprev _
    exact ret_pure _ (fun res h => (Except.ok.inj h) ▸ hprev)
  | cons a rest ih =>
    intro prev done hprev hdone
    rw [executeFrom]
    refine ret_bind (P := fun r => ∀ res, r = .ok res → G res) _ _ ?_ ?_
    · by_cases hmin : params.length < a.MinParams
      · rw [if_pos hmin]
        exact ret_pure _ (fun res h => by cases h)
      · rw [if_neg hmin]
        exact hF a (List.mem_cons_self _ _) prev hprev
    · intro r hr
      cases r with
      | error e =>
        exact ret_bind _ _ (ret_rollback params done hdone)
          (fun _ _ => ret_pure _ (fun res h => by cases h))
      | ok res =>
        refine ih (fun b hb => hF b (List.mem_cons_of_mem _ hb))
          (fun b hb => hB b (List.mem_cons_of_mem _ hb)) res _ (hr res rfl) ?_
        intro p hp bw hbw
        rcases List.mem_cons.1 hp with rfl | hp
        · exact hB a (List.mem_cons_self _ _) bw hbw res (hr res rfl)
        · exact hdone p hp bw hbw

theorem ret_insert_forward (f : RunFaults) (prev : Result) (args : runContainerActionsArgs)
    (rest : List runContainerActionsArgs) :
    Ret okCont ((insertEmptyContainerInDB f).Forward { Previous := prev, Params := args :: rest }) := by
  simp only [insertEmptyContainerInDB]
  refine ret_bind _ _ (ret_collInsert _ _) ?_
  intro err _
  cases err with
  | some e => exact ret_pure _ (fun res h => by cases h)
  | none => exact ret_pure _ (fun res h => ⟨_, (Except.ok.inj h).symm⟩)

theorem ret_run_backward (cfg : Config) (f : RunFaults) (a : Action runContainerActionsArgs)
    (ha : a ∈ [insertEmptyContainerInDB f, createContainer cfg f, startContainer cfg f,
      updateContainerInDB f, setNetworkInfo cfg f])
    (bw : BWContext runContainerActionsArgs → M Unit) (hbw : a.Backward = some bw)
    (res : Result) (hres : ∃ c, res = Result.cont c) (params : List runContainerActionsArgs) :
    Ret (fun _ => True) (bw { FWResult := res, Params := params }) := by
  obtain ⟨c, rfl⟩ := hres
  simp only [List.mem_cons, List.mem_singleton, List.not_mem_nil, or_false] at ha
  rcases ha with rfl | rfl | rfl | rfl | rfl
  · simp only [insertEmptyContainerInDB, Option.some.injEq] at hbw
    subst hbw
    exact ret_bind _ _ (ret_collRemove _ _) (fun _ _ => ret_pure _ trivial)
  · simp only [createContainer, Option.some.injEq] at hbw
    subst hbw
    exact ret_bind _ _ (ret_RemoveContainer _ _) (fun _ _ => ret_pure _ trivial)
  · simp only [startContainer, Option.some.injEq] at hbw
    subst hbw
    exact ret_bind _ _ (ret_any _ (fun w => ⟨_, _, rfl⟩)) (fun _ _ => ret_pure _ trivial)
  · simp only [updateContainerInDB, Option.some.injEq] at hbw
    subst hbw
    exact ret_pure _ trivial
  · simp [setNetworkInfo] at hbw

theorem ret_containerStart (cfg : Config) (fault : Option Err) (c : container) :
    Ret (fun _ => True) (c.start cfg fault) := by
  simp only [container.start]
  cases getPort cfg with
  | error e => exact ret_pure _ trivial
  | ok port =>
    refine ret_bind _ _ (ret_any _ (fun w => ⟨_, _, rfl⟩)) ?_
    intro err _
    cases err with
    | some e => exact ret_pure _ trivial
    | none => exact ret_pure _ trivial

theorem ret_networkInfo (cfg : Config) (inspect : Except Err (Option NetworkSettings))
    (c : container) : Ret (fun _ => True) (c.networkInfo cfg inspect) := by
  simp only [container.networkInfo]
  cases getPort cfg with
  | error e => exact ret_pure _ trivial
  | ok port =>
    refine ret_bind _ _ (ret_any _ (fun w => ⟨_, _, rfl⟩)) ?_
    intro r _
    cases r with
    | error e => exact ret_pure _ trivial
    | ok dc =>
      simp only
      split
      · exact ret_pure _ trivial
      · exact ret_pure _ trivial

theorem ret_run_forward (cfg : Config) (f : RunFaults) (hp : f.create.parses)
    (a : Action runContainerActionsArgs)
    (ha : a ∈ [createContainer cfg f, startContainer cfg f, updateContainerInDB f,
      setNetworkInfo cfg f])
    (prev : Result) (hprev : ∃ c, prev = Result.cont c) (args : runContainerActionsArgs) :
    Ret okCont (a.Forward { Previous := prev, Params := [args] }) := by
  obtain ⟨c, rfl⟩ := hprev
  simp only [List.mem_cons, List.mem_singleton, List.not_mem_nil, or_false] at ha
  rcases ha with rfl | rfl | rfl | rfl
  · simp only [createContainer]
    refine ret_bind _ _ (ret_create cfg f.create c args.app args.imageID args.commands
      args.destinationHosts hp) ?_
    rintro ⟨c1, err⟩ _
    cases err with
    | some e => exact ret_pure _ (fun res h => by cases h)
    | none => exact ret_pure _ (fun res h => ⟨_, (Except.ok.inj h).symm⟩)
  · simp only [startContainer]
    refine ret_bind _ _ (ret_containerStart cfg f.start c) ?_
    intro err _
    cases err with
    | some e => exact ret_pure _ (fun res h => by cases h)
    | none => exact ret_pure _ (fun res h => ⟨_, (Except.ok.inj h).symm⟩)
  · simp only [updateContainerInDB]
    refine ret_bind _ _ (ret_collUpdate _ _ _) ?_
    intro err _
    cases err with
    | some e => exact ret_pure _ (fun res h => by cases h)
    | none => exact ret_pure _ (fun res h => ⟨_, (Except.ok.inj h).symm⟩)
  · simp only [setNetworkInfo]
    refine ret_bind _ _ (ret_networkInfo cfg f.inspectNet c) ?_
    rintro ⟨info, err⟩ _
    cases err with
    | some e => exact ret_pure _ (fun res h => by cases h)
    | none => exact ret_pure _ (fun res h => ⟨_, (Except.ok.inj h).symm⟩)

theorem ret_startFlow (cfg : Config) (f : StartFaults) (app : App) (imageId : String)
    (dest : List String) (hp : f.run.create.parses) :
    Ret (fun _ => True) (start cfg f app imageId dest) := by
  simp only [start]
  cases f.prepare with
  | error e => exact ret_pure _ trivial
  | ok p =>
    obtain ⟨privateKey, commands⟩ := p
    simp only [NewPipeline, Pipeline.Execute]
    refine ret_bind (P := fun r => ∀ res, r = Except.ok res → ∃ c, res = Result.cont c) _ _ ?_ ?_
    · rw [executeFrom]
      refine ret_bind (P := okCont) _ _ ?_ ?_
      · rw [if_neg (by simp [insertEmptyContainerInDB])]
        exact ret_insert_forward f.run _ _ _
      · intro r hr
        cases r with
        | error e =>
          refine ret_bind _ _ (ret_rollback _ _ (fun p hp => by cases hp)) ?_
          intro _ _
          exact ret_pure _ (fun res h => by cases h)
        | ok res =>
          refine ret_executeFrom _ (fun r => ∃ c, r = Result.cont c) _
            (fun a ha prev hprev => ret_run_forward cfg f.run hp a ha prev hprev _)
            (fun a ha bw hbw res1 hres1 =>
              ret_run_backward cfg f.run a (List.mem_cons_of_mem _ ha) bw hbw res1 hres1 _)
            res _ (hr res rfl) ?_
          intro p hp1 bw hbw
          rw [List.mem_singleton.1 hp1] at hbw ⊢
          exact ret_run_backward cfg f.run _ (List.mem_cons_self _ _) bw hbw res (hr res rfl) _
    · intro r hr
      cases r with
      | error e => exact ret_pure _ trivial
      | ok res =>
        obtain ⟨c, rfl⟩ := hr res rfl
        simp only
        refine ret_bind _ _ (ret_setImage _ _ _) ?_
        rintro ⟨c1, err⟩ _
        cases err with
        | some e => exact ret_pure _ trivial
        | none =>
          simp only
          refine ret_bind _ _ (ret_setStatus _ _ _) ?_
          rintro ⟨c2, err2⟩ _
          cases err2 with
          | some e => exact ret_pure _ trivial
          | none => exact ret_pure _ trivial

theorem ret_startUnits (cfg : Config) (starts : Nat → StartFaults) (a : App) (imageId : String)
    (dest : List String) (hp : ∀ i, (starts i).run.create.parses) :
    ∀ (n i : Nat), Ret (fun _ => True) (startUnits cfg starts a imageId dest i n) := by
  intro n
  induction n with
  | zero =>
    intro i
    exact ret_pure _ trivial
  | succ n ih =>
    intro i
    simp only [startUnits]
    refine ret_bind _ _ (ret_startFlow cfg (starts i) a imageId dest (hp i)) ?_
    intro r _
    refine ret_bind _ _ (ih (i + 1)) ?_
    rintro ⟨created, errors⟩ _
    cases r with
    | error e => exact ret_pure _ trivial
    | ok c => exact ret_pure _ trivial

theorem startUnits_created (cfg : Config) (starts : Nat → StartFaults) (a : App)
    (imageId : String) (dest : List String) :
    ∀ (n i : Nat) (w w1 : World) (created : List container) (errors : List Err),
      startUnits cfg starts a imageId dest i n w = Res.ok (created, errors) w1 →
      ∀ c ∈ created, c.Image = imageId ∧ c.Status = "started" := by
  intro n
  induction n with
  | zero =>
    intro i w w1 created errors h
    simp only [startUnits, pure_ok_iff, Prod.mk.injEq] at h
    obtain ⟨⟨rfl, rfl⟩, _⟩ := h
    simp
  | succ n ih =>
    intro i w w1 created errors h
    simp only [startUnits, bind_ok_iff] at h
    obtain ⟨r, w2, h1, ⟨cr, er⟩, w3, h3, h4⟩ := h
    have hall := ih _ _ _ _ _ h3
    cases r with
    | error e =>
      simp only [pure_ok_iff, Prod.mk.injEq] at h4
      obtain ⟨⟨rfl, rfl⟩, _⟩ := h4
      exact hall
    | ok c =>
      simp only [pure_ok_iff, Prod.mk.injEq] at h4
      obtain ⟨⟨rfl, rfl⟩, _⟩ := h4
      intro d hd
      rcases List.mem_cons.1 hd with rfl | hd
      · obtain ⟨_, _, _, _, _, _, _, _, _, _, _, _, _, _, hst, him, _⟩ :=
          start_result cfg _ a imageId dest w w2 _ h1
        exact ⟨him, hst⟩
      · exact hall d hd

theorem removeContainers_removed (cfg : Config) (faults : Nat → UnitFaults)
    (hrouter : cfg.routerErr = none) (cs : List container) :
    ∀ (j : Nat) (w : World), ∃ w1, removeContainers cfg faults j cs w = Res.ok () w1 ∧
      removedIDs w1.log = removedIDs w.log ++ cs.map (fun c => c.ID) := by
  induction cs with
  | nil =>
    intro j w
    exact ⟨w, rfl, by simp⟩
  | cons c rest ih =>
    intro j w
    obtain ⟨w1, h1, hl1, _⟩ := removeContainer_run cfg (faults j).stop (faults j).remove c w hrouter
    obtain ⟨w2, h2, hl2⟩ := ih (j + 1) w1
    refine ⟨w2, by simp only [removeContainers, bind, M.bind, h1, h2], ?_⟩
    rw [hl2, hl1]
    simp

theorem exStarts_parses : ∀ i, (exStarts i).run.create.parses := by
  intro i
  have hurl : urlToHost "http://10.10.10.11:4243" ≠ none := by decide!
  by_cases hi : i = 0
  · refine ⟨?_, ?_⟩
    · intro addr id h
      simp only [exStarts, hi, if_true, Except.ok.injEq, Prod.mk.injEq] at h
      rw [← h.1]
      exact hurl
    · intro ns h a ha
      simp only [exStarts, hi, if_true, Except.ok.injEq] at h
      rw [← h] at ha
      cases ha
  · refine ⟨?_, ?_⟩
    · intro addr id h
      simp only [exStarts, hi, if_false, Except.ok.injEq, Prod.mk.injEq] at h
      rw [← h.1]
      exact hurl
    · intro ns h a ha
      simp only [exStarts, hi, if_false, Except.ok.injEq] at h
      rw [← h] at ha
      cases ha

/-! ## `stop`, `setStatus` and `setImage` -/

theorem stop_stopped (f : StopFaults) (c : container) (w : World) (h : c.Status = "stopped") :
    c.stop f w = Res.ok (c, none) w := by
  simp only [container.stop, h, if_true, pure, M.pure]

theorem setStatus_run (fault : Option Err) (c : container) (status : String) (w : World) :
    ∃ err w1, c.setStatus fault status w =
        Res.ok ({ c with Status := status, LastStatusUpdate := w.now + 1 }, err) w1 ∧
      w1.log = w.log ++ [Event.storeUpdate (.byID c.ID)
        { c with Status := status, LastStatusUpdate := w.now + 1 }] ∧
      w1.now = w.now + 1 ∧
      (fault = none → (∃ r ∈ w.store, r.ID = c.ID) → err = none) ∧
      (err = none → w1.store = replaceFirst (Selector.byID c.ID).sat
        { c with Status := status, LastStatusUpdate := w.now + 1 } w.store ∧
        w.store.any (Selector.byID c.ID).sat = true) ∧
      (err ≠ none → w1.store = w.store) := by
  simp only [container.setStatus, bind, M.bind, timeNow, collUpdate, pure, M.pure]
  cases fault with
  | some e =>
    refine ⟨some e, _, rfl, rfl, rfl, ?_, ?_, fun _ => rfl⟩
    · intro h
      cases h
    · intro h
      cases h
  | none =>
    by_cases hany : w.store.any (Selector.byID c.ID).sat = true
    · rw [if_pos hany]
      exact ⟨none, _, rfl, rfl, rfl, fun _ _ => rfl, fun _ => ⟨rfl, hany⟩, fun h => absurd rfl h⟩
    · rw [if_neg hany]
      refine ⟨some ErrNotFound, _, rfl, rfl, rfl, ?_, ?_, fun _ => rfl⟩
      · intro _ hex
        exfalso
        apply hany
        obtain ⟨r, hr, hid⟩ := hex
        exact List.any_eq_true.2 ⟨r, hr, by simp [Selector.sat, hid]⟩
      · intro h
        cases h

theorem stop_not_stopped (f : StopFaults) (c : container) (w : World)
    (h : c.Status ≠ "stopped") :
    ∃ err w1,
      c.setStatus f.update "stopped"
        { w with log := w.log ++ [Event.stopContainer c.ID 10] } =
        Res.ok ({ c with Status := "stopped", LastStatusUpdate := w.now + 1 }, err) w1 ∧
      c.stop f w = Res.ok ({ c with Status := "stopped", LastStatusUpdate := w.now + 1 }, none) w1 := by
  obtain ⟨err, w1, h1, _⟩ := setStatus_run f.update c "stopped"
    { w with log := w.log ++ [Event.stopContainer c.ID 10] }
  refine ⟨err, w1, h1, ?_⟩
  simp only [container.stop, h, if_false, bind, M.bind, StopContainer, h1, pure, M.pure]

theorem find_replaceFirst_other (p q : container → Bool) (doc : container)
    (hq : ∀ x, p x = true → q x = false) (hdoc : q doc = false) :
    ∀ l : List container, (replaceFirst p doc l).find? q = l.find? q := by
  intro l
  induction l with
  | nil => rfl
  | cons a l ih =>
    by_cases ha : p a = true
    · simp [replaceFirst, ha, List.find?_cons, hdoc, hq a ha]
    · simp only [replaceFirst, ha, Bool.false_eq_true, if_false, List.find?_cons]
      rw [ih]

/-! ## `Start` and `Destroy` -/

theorem logs_pure {α : Type} {P : Event → Prop} (a : α) : Logs P (pure a : M α) :=
  fun w => ⟨a, w, [], rfl, by simp, by simp⟩

theorem logs_bind {α β : Type} {P : Event → Prop} (m : M α) (f : α → M β)
    (hm : Logs P m) (hf : ∀ a, Logs P (f a)) : Logs P (m >>= f) := by
  intro w
  obtain ⟨a, w1, e1, h1, hl1, hp1⟩ := hm w
  obtain ⟨b, w2, e2, h2, hl2, hp2⟩ := hf a w1
  refine ⟨b, w2, e1 ++ e2, (bind_ok_iff m f w w2 b).2 ⟨a, w1, h1, h2⟩, ?_, ?_⟩
  · rw [hl2, hl1, List.append_assoc]
  · intro e he
    rcases List.mem_append.1 he with h | h
    · exact hp1 e h
    · exact hp2 e h

theorem logs_collUpdate {P : Event → Prop} (fault : Option Err) (sel : Selector)
    (doc : container) (h : P (Event.storeUpdate sel doc)) : Logs P (collUpdate fault sel doc) := by
  intro w
  obtain ⟨err, w1, hrun, _⟩ := ret_collUpdate fault sel doc w
  refine ⟨err, w1, [Event.storeUpdate sel doc], hrun, ?_, by simpa using h⟩
  simp only [collUpdate] at hrun
  cases fault with
  | some e =>
    simp only [Res.ok.injEq] at hrun
    rw [← hrun.2]
  | none =>
    simp only at hrun
    split at hrun
    · simp only [Res.ok.injEq] at hrun
      rw [← hrun.2]
    · simp only [Res.ok.injEq] at hrun
      rw [← hrun.2]

theorem logs_networkInfo {P : Event → Prop} (cfg : Config)
    (inspect : Except Err (Option NetworkSettings)) (c : container)
    (h : P (Event.inspectContainer c.ID)) : Logs P (c.networkInfo cfg inspect) := by
  simp only [container.networkInfo]
  cases getPort cfg with
  | error e => exact logs_pure _
  | ok port =>
    refine logs_bind _ _ (fun w => ⟨_, _, [Event.inspectContainer c.ID], rfl, rfl, by simpa using h⟩)
      ?_
    intro r
    cases r with
    | error e => exact logs_pure _
    | ok dc =>
      simp only
      split
      · exact logs_pure _
      · exact logs_pure _

theorem logs_AddRoute {P : Event → Prop} (r : Router) (fault : Option Err)
    (name address : String) (h : P (Event.addRoute name address)) :
    Logs P (AddRoute (some r) fault name address) := by
  intro w
  obtain ⟨err, w1, hrun, hl, _⟩ := AddRoute_run r fault name address w
  exact ⟨err, w1, [Event.addRoute name address], hrun, hl, by simpa using h⟩

theorem logs_fixContainer (cfg : Config) (f : FixFaults) (c : container)
    (info : containerNetworkInfo) :
    Logs (fun e => ∀ sel d, e = Event.storeUpdate sel d → sel = Selector.byID c.ID)
      (fixContainer cfg f c info) := by
  simp only [fixContainer]
  split
  · refine logs_bind _ _ (logs_collUpdate _ _ _ ?_) ?_
    · intro sel d h
      simp only [Event.storeUpdate.injEq] at h
      exact h.1.symm
    · intro err
      cases err with
      | some e => exact logs_pure _
      | none =>
        simp only
        cases hr : cfg.routerErr with
        | some e =>
          simp only [getRouter, hr]
          exact logs_pure _
        | none =>
          simp only [getRouter, hr]
          refine logs_AddRoute _ _ _ _ ?_
          intro sel d h
          cases h
  · exact logs_pure _

theorem startTask_run (cfg : Config) (f : StartTaskFaults) (c : container) (w : World)
    (port : String) (hport : cfg.port = some port) :
    ∃ w1 evs, startTask cfg f c w = Res.ok f.start w1 ∧
      w1.log = w.log ++ Event.startContainer c.ID :: evs ∧
      (f.start ≠ none → evs = []) ∧
      (f.start = none →
        Event.storeUpdate (.byID c.ID)
          { c with Status := "started", LastStatusUpdate := w.now + 1 } ∈ evs) ∧
      ∀ sel d, Event.storeUpdate sel d ∈ evs → sel = Selector.byID c.ID := by
  have hstart : c.start cfg f.start w =
      Res.ok f.start { w with log := w.log ++ [Event.startContainer c.ID] } := by
    simp only [container.start, getPort, hport, bind, M.bind, StartContainer]
    cases f.start with
    | some e => rfl
    | none => rfl
  cases hf : f.start with
  | some e =>
    refine ⟨{ w with log := w.log ++ [Event.startContainer c.ID] }, [], ?_, rfl, fun _ => rfl,
      fun h => (by cases h), fun sel d h => (by cases h)⟩
    rw [hf] at hstart
    simp only [startTask, bind, M.bind, hf, hstart, pure, M.pure]
  | none =>
    obtain ⟨err, w1, hss, hl1, _⟩ := setStatus_run f.setStatus c "started"
      { w with log := w.log ++ [Event.startContainer c.ID] }
    have htail : Logs (fun e => ∀ sel d, e = Event.storeUpdate sel d → sel = Selector.byID c.ID)
        ((({ c with Status := "started", LastStatusUpdate := w.now + 1 } : container).networkInfo
          cfg f.inspectNet) >>= fun p =>
            match p.2 with
            | none => do
              let _ ← fixContainer cfg f.fix
                { c with Status := "started", LastStatusUpdate := w.now + 1 } p.1
              pure (none : Option Err)
            | some _ => pure none) := by
      refine logs_bind _ _ (logs_networkInfo _ _ _ ?_) ?_
      · intro sel d h
        cases h
      · rintro ⟨info, err2⟩
        cases err2 with
        | some e => exact logs_pure _
        | none =>
          exact logs_bind _ _ (logs_fixContainer cfg f.fix _ info) (fun _ => logs_pure _)
    obtain ⟨r, w2, evs, h2, hl2, hp2⟩ := htail w1
    have hr : r = none := by
      rw [bind_ok_iff] at h2
      obtain ⟨⟨info, err2⟩, w3, _, h4⟩ := h2
      cases err2 with
      | some e =>
        simp only [pure_ok_iff] at h4
        exact h4.1.symm
      | none =>
        simp only [bind_ok_iff, pure_ok_iff] at h4
        obtain ⟨_, _, _, h5, _⟩ := h4
        exact h5.symm
    subst hr
    refine ⟨w2, Event.storeUpdate (.byID c.ID)
      { c with Status := "started", LastStatusUpdate := w.now + 1 } :: evs, ?_, ?_,
      fun h => absurd rfl h, fun _ => List.mem_cons_self _ _, ?_⟩
    · rw [hf] at hstart
      have h2' := (bind_ok_iff _ _ _ _ _).1 h2
      obtain ⟨⟨info, err2⟩, w3, hni, h4⟩ := h2'
      simp only [startTask, bind, M.bind, hf, hstart, hss, hni]
      cases err2 with
      | some e => exact h4
      | none => exact h4
    · rw [hl2, hl1]
      simp
    · intro sel d h
      rcases List.mem_cons.1 h with h | h
      · simp only [Event.storeUpdate.injEq] at h
        exact h.1
      · exact hp2 _ h sel d rfl

theorem startTasks_run (cfg : Config) (faults : Nat → StartTaskFaults) (port : String)
    (hport : cfg.port = some port) (cs : List container) :
    ∀ (i : Nat) (w : World), ∃ errs w1 evs,
      startTasks cfg faults i cs w = Res.ok errs w1 ∧ w1.log = w.log ++ evs ∧
      (errs = [] ↔ ∀ j, j < cs.length → (faults (i + j)).start = none) ∧
      (∀ e, errs.head? = some e → ∃ j, j < cs.length ∧ (faults (i + j)).start = some e) ∧
      (∀ c ∈ cs, Event.startContainer c.ID ∈ evs) ∧
      (∀ j c, cs[j]? = some c → (faults (i + j)).start = none →
        ∃ d, d.Status = "started" ∧ Event.storeUpdate (.byID c.ID) d ∈ evs) ∧
      (∀ sel d, Event.storeUpdate sel d ∈ evs →
        ∃ j c, cs[j]? = some c ∧ (faults (i + j)).start = none ∧ sel = Selector.byID c.ID) := by
  induction cs with
  | nil =>
    intro i w
    refine ⟨[], w, [], rfl, by simp, by simp, by simp, by simp, by simp, by simp⟩
  | cons c rest ih =>
    intro i w
    obtain ⟨wa, ea, hta, hla, hfail, hok, honly⟩ := startTask_run cfg (faults i) c w port hport
    obtain ⟨errs, wb, eb, htb, hlb, hnil, hhead, hall, hset, hupd⟩ := ih (i + 1) wa
    have hidx : ∀ j, i + (j + 1) = i + 1 + j := fun j => by omega
    refine ⟨match (faults i).start with | some e => e :: errs | none => errs, wb,
      Event.startContainer c.ID :: ea ++ eb, ?_, ?_, ?_, ?_, ?_, ?_, ?_⟩
    · simp only [startTasks, bind, M.bind, hta, htb]
      cases (faults i).start with
      | some e => rfl
      | none => rfl
    · rw [hlb, hla]
      simp
    · cases hf : (faults i).start with
      | some e =>
        simp only [List.cons_ne_nil, false_iff, not_forall]
        exact ⟨0, by simp, by simp [hf]⟩
      | none =>
        simp only
        rw [hnil]
        constructor
        · intro h j hj
          cases j with
          | zero => simpa using hf
          | succ j =>
            rw [hidx]
            exact h j (by simpa using hj)
        · intro h j hj
          rw [← hidx]
          exact h (j + 1) (by simpa using hj)
    · intro e he
      cases hf : (faults i).start with
      | some e1 =>
        simp only [hf, List.head?_cons, Option.some.injEq] at he
        exact ⟨0, by simp, by simp [hf, he]⟩
      | none =>
        simp only [hf] at he
        obtain ⟨j, hj, hje⟩ := hhead e he
        exact ⟨j + 1, by simpa using hj, by rw [hidx]; exact hje⟩
    · intro d hd
      rcases List.mem_cons.1 hd with rfl | hd
      · simp
      · have := hall d hd
        simp [this]
    · intro j d hj hf
      cases j with
      | zero =>
        simp only [List.getElem?_cons_zero, Option.some.injEq] at hj
        subst hj
        refine ⟨{ c with Status := "started", LastStatusUpdate := w.now + 1 }, rfl, ?_⟩
        have := hok (by simpa using hf)
        simp [this]
      | succ j =>
        simp only [List.getElem?_cons_succ] at hj
        rw [hidx] at hf
        obtain ⟨d1, hd1, hmem⟩ := hset j d hj hf
        exact ⟨d1, hd1, by simp [hmem]⟩
    · intro sel d hmem
      simp only [List.cons_append, List.mem_cons, List.mem_append] at hmem
      rcases hmem with h | h | h
      · cases h
      · refine ⟨0, c, by simp, ?_, honly sel d h⟩
        by_contra hne
        rw [hfail hne] at h
        cases h
      · obtain ⟨j, c1, hj, hf, hsel⟩ := hupd sel d h
        exact ⟨j + 1, c1, by simpa using hj, by rw [hidx]; exact hf, hsel⟩

/-! ## `networkInfo` -/

theorem firstHostPort_eq_find (l : List PortBinding) :
    firstHostPort l =
      ((l.find? (fun b => decide (b.HostPort ≠ "" ∧ b.HostIp ≠ ""))).map
        (fun b => b.HostPort)).getD "" := by
  induction l with
  | nil => rfl
  | cons b rest ih =>
    by_cases hb : b.HostPort ≠ "" ∧ b.HostIp ≠ ""
    · simp [firstHostPort, List.find?_cons, hb]
    · simp only [firstHostPort, if_neg hb, List.find?_cons, decide_eq_false hb]
      exact ih

theorem firstHostPort_eq_empty_iff (l : List PortBinding) :
    firstHostPort l = "" ↔ ∀ b ∈ l, ¬ (b.HostPort ≠ "" ∧ b.HostIp ≠ "") := by
  induction l with
  | nil => simp [firstHostPort]
  | cons b rest ih =>
    by_cases hb : b.HostPort ≠ "" ∧ b.HostIp ≠ ""
    · simp only [firstHostPort, if_pos hb, List.mem_cons, forall_eq_or_imp]
      constructor
      · intro h
        exact absurd h hb.1
      · intro h
        exact absurd hb h.1
    · simp only [firstHostPort, if_neg hb, List.mem_cons, forall_eq_or_imp]
      rw [ih]
      exact ⟨fun h => ⟨hb, h⟩, fun h => h.2⟩

/-! ## `container.remove` -/

theorem remove_log (cfg : Config) (rf : RemoveFaults) (c : container) (w : World) :
    ∃ e1 w1 e2 w2 e3 w3,
      RemoveContainer rf.engine c.ID w = Res.ok e1 w1 ∧
      c.removeHost cfg rf.agent w1 = Res.ok e2 w2 ∧
      collRemove rf.store (.byID c.ID) w2 = Res.ok e3 w3 ∧
      w3.log = w.log ++ [Event.removeContainer c.ID,
        Event.agentDelete
          ("http://" ++ c.HostAddr ++ ":" ++ toString cfg.sshAgentPort ++ "/container/" ++ c.IP),
        Event.storeRemove (.byID c.ID)] := by
  obtain ⟨e1, w1, h1, hl1, _⟩ := RemoveContainer_run rf.engine c.ID w
  obtain ⟨e3, w3, h3, hl3, _⟩ :=
    collRemove_run rf.store (Selector.byID c.ID)
      { w1 with log := w1.log ++ [Event.agentDelete
        ("http://" ++ c.HostAddr ++ ":" ++ toString cfg.sshAgentPort ++ "/container/" ++ c.IP)] }
  refine ⟨e1, w1, rf.agent, _, e3, w3, h1, rfl, h3, ?_⟩
  rw [hl3]
  simp [hl1]

theorem remove_without_router (cfg : Config) (rf : RemoveFaults) (c : container) (w : World)
    (e : Err) (he : cfg.routerErr = some e) :
    ∃ w1, c.remove cfg rf w = Res.panic "invalid memory address or nil pointer dereference" w1 ∧
      w1.log = w.log ++ [Event.removeContainer c.ID,
        Event.agentDelete
          ("http://" ++ c.HostAddr ++ ":" ++ toString cfg.sshAgentPort ++ "/container/" ++ c.IP),
        Event.storeRemove (.byID c.ID)] := by
  obtain ⟨e1, w1, e2, w2, e3, w3, h1, h2, h3, hl3⟩ := remove_log cfg rf c w
  refine ⟨w3, ?_, hl3⟩
  simp only [container.remove, getRouter, he, bind, M.bind, h1, h2, h3, RemoveRoute]

theorem removeContainers_without_router (cfg : Config) (faults : Nat → UnitFaults)
    (c : container) (cs : List container) (j : Nat) (w : World) (e : Err)
    (he : cfg.routerErr = some e) :
    ∃ w1, removeContainers cfg faults j (c :: cs) w =
      Res.panic "invalid memory address or nil pointer dereference" w1 := by
  obtain ⟨c1, w1, hstop, _⟩ := stop_run (faults j).stop c w
  obtain ⟨w2, hrm, _⟩ := remove_without_router cfg (faults j).remove c1 w1 e he
  exact ⟨w2, by simp only [removeContainers, removeContainer, bind, M.bind, hstop, hrm]⟩

theorem remove_effect (cfg : Config) (rf : RemoveFaults) (c : container) (w : World)
    (hrouter : cfg.routerErr = none) :
    ∃ w1, c.remove cfg rf w = Res.ok none w1 ∧
      w1.log = w.log ++ [Event.removeContainer c.ID,
        Event.agentDelete
          ("http://" ++ c.HostAddr ++ ":" ++ toString cfg.sshAgentPort ++ "/container/" ++ c.IP),
        Event.storeRemove (.byID c.ID),
        Event.removeRoute c.AppName c.getAddress] ∧
      w1.images = w.images ∧
      (rf.engine = none → c.ID ∉ w1.containers) ∧
      (rf.store = none → w1.store = w.store.eraseP (Selector.byID c.ID).sat) := by
  have hengine : ∃ e1 w1, RemoveContainer rf.engine c.ID w = Res.ok e1 w1 ∧
      w1.log = w.log ++ [Event.removeContainer c.ID] ∧ w1.store = w.store ∧
      w1.images = w.images ∧ (rf.engine = none → c.ID ∉ w1.containers) := by
    cases rf.engine with
    | some e => exact ⟨_, _, rfl, rfl, rfl, rfl, fun h => (by cases h)⟩
    | none =>
      by_cases hmem : c.ID ∈ w.containers
      · have hrun : RemoveContainer none c.ID w = Res.ok none
            { store := w.store, containers := w.containers.filter (fun x => x ≠ c.ID),
              images := w.images, routes := w.routes, now := w.now,
              log := w.log ++ [Event.removeContainer c.ID], routeHistory := w.routeHistory } := by
          simp only [RemoveContainer, hmem, if_true]
        refine ⟨none, _, hrun, rfl, rfl, rfl, ?_⟩
        intro _
        simp [List.mem_filter]
      · have hrun : RemoveContainer none c.ID w = Res.ok (some ErrNoSuchContainer)
            { store := w.store, containers := w.containers,
              images := w.images, routes := w.routes, now := w.now,
              log := w.log ++ [Event.removeContainer c.ID], routeHistory := w.routeHistory } := by
          simp only [RemoveContainer, hmem, if_false]
        exact ⟨_, _, hrun, rfl, rfl, rfl, fun _ => hmem⟩
  obtain ⟨e1, w1, h1, hl1, hs1, hi1, hc1⟩ := hengine
  obtain ⟨e3, w3, h3, hl3, hc3, hi3, _, _, hs3, _⟩ :=
    collRemove_run rf.store (Selector.byID c.ID)
      { w1 with log := w1.log ++ [Event.agentDelete
        ("http://" ++ c.HostAddr ++ ":" ++ toString cfg.sshAgentPort ++ "/container/" ++ c.IP)] }
  obtain ⟨e4, w4, h4, hl4, hs4, hc4, hi4, _⟩ :=
    RemoveRoute_run Router.mk rf.route c.AppName c.getAddress w3
  refine ⟨w4, ?_, ?_, ?_, ?_, ?_⟩
  · simp only [container.remove, getRouter, hrouter, bind, M.bind, h1, container.removeHost,
      agentDelete, h3, h4, pure, M.pure]
  · rw [hl4, hl3]
    simp [hl1]
  · rw [hi4, hi3]
    exact hi1
  · intro he
    rw [hc4, hc3]
    exact hc1 he
  · intro hst
    rw [hs4, hs3 hst]
    simp only
    rw [hs1]

/-! ## `urlToHost` -/

theorem takeWhile_all {α : Type} (p : α → Bool) (l : List α) (h : ∀ x ∈ l, p x = true) :
    l.takeWhile p = l := by
  induction l with
  | nil => rfl
  | cons a l ih =>
    rw [List.takeWhile_cons, h a (List.mem_cons_self _ _)]
    simp only [if_true, List.cons.injEq, true_and]
    exact ih (fun x hx => h x (List.mem_cons_of_mem _ hx))

theorem span_all {α : Type} (p : α → Bool) (l : List α) (h : ∀ x ∈ l, p x = true) :
    l.span p = (l, []) := by
  rw [List.span_eq_take_drop, takeWhile_all p l h]
  congr 1
  induction l with
  | nil => rfl
  | cons a l ih =>
    rw [List.dropWhile_cons, h a (List.mem_cons_self _ _)]
    exact ih (fun x hx => h x (List.mem_cons_of_mem _ hx))

theorem span_stop {α : Type} (p : α → Bool) (l1 l2 : List α) (x : α)
    (h : ∀ y ∈ l1, p y = true) (hx : p x = false) :
    (l1 ++ x :: l2).span p = (l1, x :: l2) := by
  induction l1 with
  | nil => simp [List.span_eq_take_drop, List.takeWhile_cons, List.dropWhile_cons, hx]
  | cons a l ih =>
    have ha : p a = true := h a (List.mem_cons_self _ _)
    have := ih (fun y hy => h y (List.mem_cons_of_mem _ hy))
    rw [List.span_eq_take_drop] at this ⊢
    simp only [List.cons_append, List.takeWhile_cons, List.dropWhile_cons, ha, if_true]
    simp only [Prod.mk.injEq] at this ⊢
    exact ⟨by rw [this.1], this.2⟩

theorem hostChar_ne (c x : Char) (hc : isHostChar c = true) (hx : isHostChar x = false) :
    c ≠ x := by
  rintro rfl
  rw [hc] at hx
  cases hx

theorem digit_ne (c x : Char) (hc : c.isDigit = true) (hx : x.isDigit = false) : c ≠ x := by
  rintro rfl
  rw [hc] at hx
  cases hx

theorem splitHostPortHost_host_port (h p : List Char)
    (hh : ∀ c ∈ h, isHostChar c = true) (hp : ∀ c ∈ p, c.isDigit = true) :
    splitHostPortHost (h ++ ':' :: p) = h := by
  have hspan : (p.reverse ++ ':' :: h.reverse).span (fun c => c != ':') =
      (p.reverse, ':' :: h.reverse) := by
    apply span_stop
    · intro y hy
      simp only [bne_iff_ne, ne_eq]
      exact digit_ne y ':' (hp y (List.mem_reverse.1 hy)) (by decide)
    · rfl
  have hrev : (h ++ ':' :: p).reverse = p.reverse ++ ':' :: h.reverse := by simp
  have hhead : ¬ (h ++ ':' :: p).head? = some '[' := by
    cases h with
    | nil => simp
    | cons c h1 =>
      simp only [List.cons_append, List.head?_cons, Option.some.injEq]
      exact hostChar_ne c '[' (hh c (List.mem_cons_self _ _)) (by decide)
  have hany : h.any (fun c => c == ':') = false := by
    rw [List.any_eq_false]
    intro c hc
    have h1 := hostChar_ne c ':' (hh c hc) (by decide)
    simp [h1]
  have hbr : (h ++ ':' :: p).any (fun c => c == '[' || c == ']') = false := by
    rw [List.any_eq_false]
    intro c hc
    rcases List.mem_append.1 hc with hc | hc
    · have h2 := hostChar_ne c '[' (hh c hc) (by decide)
      have h3 := hostChar_ne c ']' (hh c hc) (by decide)
      simp [h2, h3]
    · rcases List.mem_cons.1 hc with rfl | hc
      · decide
      · have h2 := digit_ne c '[' (hp c hc) (by decide)
        have h3 := digit_ne c ']' (hp c hc) (by decide)
        simp [h2, h3]
  simp only [splitHostPortHost, hrev, hspan, List.reverse_reverse, if_neg hhead, hany, hbr]
  simp

theorem urlParseHost_http (h p : List Char)
    (hh : ∀ c ∈ h, isHostChar c = true) (hp : ∀ c ∈ p, c.isDigit = true) :
    urlParseHost (String.mk (['h', 't', 't', 'p', ':', '/', '/'] ++ (h ++ ':' :: p))) = some (h ++ ':' :: p) := by
  have hall : ∀ (x : Char), isHostChar x = false → x.isDigit = false → x ≠ ':' →
      ∀ c ∈ h ++ ':' :: p, (c != x) = true := by
    intro x hx1 hx2 hx3 c hc
    simp only [bne_iff_ne, ne_eq]
    rcases List.mem_append.1 hc with hc | hc
    · exact hostChar_ne c x (hh c hc) hx1
    · rcases List.mem_cons.1 hc with rfl | hc
      · exact fun h => hx3 h.symm
      · exact digit_ne c x (hp c hc) hx2
  have hraw : (['h', 't', 't', 'p', ':', '/', '/'] ++ (h ++ ':' :: p)).takeWhile (fun c => c != '#') =
      ['h', 't', 't', 'p', ':', '/', '/'] ++ (h ++ ':' :: p) := by
    apply takeWhile_all
    intro c hc
    rcases List.mem_append.1 hc with hc | hc
    · have hpre : ∀ c ∈ ['h', 't', 't', 'p', ':', '/', '/'], (c != '#') = true := by decide
      exact hpre c hc
    · exact hall '#' (by decide) (by decide) (by decide) c hc
  have hq : ('/' :: '/' :: (h ++ ':' :: p)).takeWhile (fun c => c != '?') =
      '/' :: '/' :: (h ++ ':' :: p) := by
    apply takeWhile_all
    intro c hc
    rcases List.mem_cons.1 hc with rfl | hc
    · rfl
    rcases List.mem_cons.1 hc with rfl | hc
    · rfl
    · exact hall '?' (by decide) (by decide) (by decide) c hc
  have hslash : (h ++ ':' :: p).takeWhile (fun c => c != '/') = h ++ ':' :: p :=
    takeWhile_all _ _ (hall '/' (by decide) (by decide) (by decide))
  have hat : afterUserinfo (h ++ ':' :: p) = h ++ ':' :: p := by
    simp only [afterUserinfo]
    rw [span_all]
    · simp
    · intro c hc
      exact hall '@' (by decide) (by decide) (by decide) c (List.mem_reverse.1 hc)
  have hscheme : getscheme (['h', 't', 't', 'p', ':', '/', '/'] ++ (h ++ ':' :: p)) 0
      (['h', 't', 't', 'p', ':', '/', '/'] ++ (h ++ ':' :: p)) =
      .ok ((['h', 't', 't', 'p', ':', '/', '/'] ++ (h ++ ':' :: p)).take 4, '/' :: '/' :: (h ++ ':' :: p)) := by
    show getscheme _ 0 ('h' :: 't' :: 't' :: 'p' :: ':' :: '/' :: '/' :: (h ++ ':' :: p)) = _
    simp [getscheme]
  simp only [urlParseHost, String.toList, hraw, hscheme, hq, hslash, hat]

theorem splitHostPortHost_no_colon (host : List Char) (h : ':' ∉ host) :
    splitHostPortHost host = [] := by
  have hspan : host.reverse.span (fun c => c != ':') = (host.reverse, []) := by
    apply span_all
    intro c hc
    simp only [bne_iff_ne, ne_eq]
    rintro rfl
    exact h (List.mem_reverse.1 hc)
  simp only [splitHostPortHost, hspan]

theorem hostToNodeAddressLoop_found (host : String) (ns : List String) :
    ∀ (w w1 : World) (a : String),
      hostToNodeAddressLoop host ns w = Res.ok (.ok a) w1 → a ∈ ns ∧ urlToHost a = some host := by
  induction ns with
  | nil =>
    intro w w1 a h
    simp only [hostToNodeAddressLoop, pure_ok_iff] at h
    cases h.1
  | cons n rest ih =>
    intro w w1 a h
    simp only [hostToNodeAddressLoop] at h
    cases hu : urlToHost n with
    | none =>
      simp only [hu] at h
      exact absurd h (goPanic_ne_ok _ _ _ _)
    | some hst =>
      simp only [hu] at h
      by_cases heq : (hst == host) = true
      · simp only [heq, if_true, pure_ok_iff, Except.ok.injEq] at h
        obtain ⟨rfl, _⟩ := h
        refine ⟨List.mem_cons_self _ _, ?_⟩
        rw [hu, beq_iff_eq.1 heq]
      · simp only [heq] at h
        obtain ⟨hmem, hurl⟩ := ih w w1 a h
        exact ⟨List.mem_cons_of_mem _ hmem, hurl⟩

theorem hostToNodeAddressLoop_not_found (host : String) (hne : host ≠ "") (ns : List String)
    (h : ∀ a ∈ ns, urlToHost a = some "") (w : World) :
    hostToNodeAddressLoop host ns w = Res.ok (.error ("Host `" ++ host ++ "` not found")) w := by
  induction ns with
  | nil => rfl
  | cons n rest ih =>
    have hn := h n (List.mem_cons_self _ _)
    have hneq : ("" == host) = false := by
      simp only [beq_eq_false_iff_ne, ne_eq]
      exact fun h => hne h.symm
    simp only [hostToNodeAddressLoop, hn, hneq]
    exact ih (fun a ha => h a (List.mem_cons_of_mem _ ha))

/-! ## `Stop`; the flushing writer -/

theorem stopTasks_run (faults : Nat → StopFaults) (cs : List container) :
    ∀ (i : Nat) (w : World), ∃ w1, stopTasks faults i cs w = Res.ok [] w1 := by
  induction cs with
  | nil =>
    intro i w
    exact ⟨w, rfl⟩
  | cons c rest ih =>
    intro i w
    obtain ⟨c1, w1, hstop, _⟩ := stop_run (faults i) c w
    obtain ⟨w2, h2⟩ := ih (i + 1) w1
    exact ⟨w2, by simp only [stopTasks, bind, M.bind, hstop, h2, pure, M.pure]⟩

theorem wrote_after (w : FlushingWriter) (calls : List WriterCall) :
    (w.after calls).wrote = (w.wrote || !calls.isEmpty) := by
  induction calls generalizing w with
  | nil => simp [FlushingWriter.after]
  | cons call rest ih =>
    cases call with
    | WriteHeader code =>
      simp only [FlushingWriter.after, ih, FlushingWriter.WriteHeader]
      simp
    | Write o data =>
      have hw : (w.Write o data).1.wrote = true := by
        simp only [FlushingWriter.Write]
        cases o.err with
        | some e => rfl
        | none =>
          cases o.flusher with
          | false => rfl
          | true =>
            cases o.flushPanic with
            | some r => rfl
            | none => rfl
      simp only [FlushingWriter.after, ih, hw]
      simp

/-! ## Removals without a router -/

theorem stop_log (sf : StopFaults) (c : container) (w : World) :
    ∃ c1 w1 evs, c.stop sf w = Res.ok (c1, none) w1 ∧ c1.ID = c.ID ∧
      w1.log = w.log ++ evs ∧
      ∀ ev ∈ evs, ev = Event.stopContainer c.ID 10 ∨
        ∃ d, ev = Event.storeUpdate (.byID c.ID) d := by
  by_cases hst : c.Status = "stopped"
  · exact ⟨c, w, [], stop_stopped sf c w hst, rfl, by simp, by simp⟩
  · obtain ⟨err, w1, h1, h2⟩ := stop_not_stopped sf c w hst
    obtain ⟨err1, w2, h3, hl, _⟩ := setStatus_run sf.update c "stopped"
      { w with log := w.log ++ [Event.stopContainer c.ID 10] }
    rw [h1] at h3
    injection h3 with _ hw
    refine ⟨_, w1, [Event.stopContainer c.ID 10, Event.storeUpdate (.byID c.ID)
      { c with Status := "stopped", LastStatusUpdate := w.now + 1 }], h2, rfl, ?_, ?_⟩
    · rw [hw, hl]
      simp
    · intro ev hev
      simp only [List.mem_cons, List.mem_singleton, List.not_mem_nil, or_false] at hev
      rcases hev with hev | hev
      · exact Or.inl hev
      · exact Or.inr ⟨_, hev⟩

theorem removeContainer_without_router (cfg : Config) (sf : StopFaults) (rf : RemoveFaults)
    (c : container) (w : World) (e : Err) (he : cfg.routerErr = some e) :
    ∃ w1 evs, removeContainer cfg sf rf c w =
        Res.panic "invalid memory address or nil pointer dereference" w1 ∧
      w1.log = w.log ++ evs ∧
      (∀ name, Event.removeImage name ∉ evs) ∧ (∀ app, Event.removeBackend app ∉ evs) := by
  obtain ⟨c1, w1, evs, hstop, hid, hl1, hevs⟩ := stop_log sf c w
  obtain ⟨w2, hrm, hl2⟩ := remove_without_router cfg rf c1 w1 e he
  refine ⟨w2, evs ++ [Event.removeContainer c1.ID,
    Event.agentDelete
      ("http://" ++ c1.HostAddr ++ ":" ++ toString cfg.sshAgentPort ++ "/container/" ++ c1.IP),
    Event.storeRemove (.byID c1.ID)], ?_, ?_, ?_, ?_⟩
  · simp only [removeContainer, bind, M.bind, hstop, hrm]
  · rw [hl2, hl1, List.append_assoc]
  · intro name hmem
    rcases List.mem_append.1 hmem with h | h
    · rcases hevs _ h with h1 | ⟨d, h1⟩
      · cases h1
      · cases h1
    · simp at h
  · intro app hmem
    rcases List.mem_append.1 hmem with h | h
    · rcases hevs _ h with h1 | ⟨d, h1⟩
      · cases h1
      · cases h1
    · simp at h

theorem removeContainers_panic_log (cfg : Config) (faults : Nat → UnitFaults)
    (c : container) (cs : List container) (j : Nat) (w : World) (e : Err)
    (he : cfg.routerErr = some e) :
    ∃ w1 evs, removeContainers cfg faults j (c :: cs) w =
        Res.panic "invalid memory address or nil pointer dereference" w1 ∧
      w1.log = w.log ++ evs ∧
      (∀ name, Event.removeImage name ∉ evs) ∧ (∀ app, Event.removeBackend app ∉ evs) := by
  obtain ⟨w1, evs, h, hl, h1, h2⟩ :=
    removeContainer_without_router cfg (faults j).stop (faults j).remove c w e he
  exact ⟨w1, evs, by simp only [removeContainers, bind, M.bind, h], hl, h1, h2⟩

theorem removeUnitsLoop_without_router (cfg : Config) (faults : Nat → UnitFaults)
    (containers : List container) (i n : Nat) (w : World) (e : Err)
    (he : cfg.routerErr = some e) (hi : i < containers.length) :
    ∃ w1, removeUnitsLoop cfg faults containers i (n + 1) w =
      Res.panic "invalid memory address or nil pointer dereference" w1 := by
  have hget : containers[i]? = some containers[i] := List.getElem?_eq_getElem hi
  obtain ⟨w1, _, h, _⟩ :=
    removeContainer_without_router cfg (faults i).stop (faults i).remove containers[i] w e he
  exact ⟨w1, by simp only [removeUnitsLoop, hget, bind, M.bind, h]⟩

/-! ## A start flow on a node whose address does not parse -/

theorem start_unparsable (cfg : Config) (f : StartFaults) (app : App) (imageId : String)
    (w : World) (k : String) (cmds : List String) (port addr id : String)
    (hprep : f.prepare = .ok (k, cmds)) (hins : f.run.insert = none)
    (hport : cfg.port = some port) (hcreate : f.run.create.create = .ok (addr, id))
    (hurl : urlToHost addr = none) :
    ∃ w1, start cfg f app imageId [] w =
      Res.panic "invalid memory address or nil pointer dereference" w1 := by
  simp only [start, hprep, NewPipeline, Pipeline.Execute, executeFrom, insertEmptyContainerInDB,
    createContainer, bind, M.bind, collInsert, hins, container.create, getPort, hport,
    CreateContainerSchedulerOpts, hcreate, hurl, goPanic, pure, M.pure, List.length_singleton,
    Nat.not_lt_zero, if_false]
  exact ⟨_, rfl⟩

theorem addContainersWithHost_unparsable (cfg : Config) (f : AddFaults) (a : App) (n : Nat)
    (w : World) (k : String) (cmds : List String) (port addr id : String)
    (hprep : (f.starts 0).prepare = .ok (k, cmds)) (hins : (f.starts 0).run.insert = none)
    (hport : cfg.port = some port) (hcreate : (f.starts 0).run.create.create = .ok (addr, id))
    (hurl : urlToHost addr = none) :
    ∃ w1, addContainersWithHost cfg f a (n + 1) [] w =
      Res.panic "invalid memory address or nil pointer dereference" w1 := by
  obtain ⟨w1, h⟩ := start_unparsable cfg (f.starts 0) a (assembleImageName cfg a.GetName) w k cmds
    port addr id hprep hins hport hcreate hurl
  refine ⟨w1, ?_⟩
  simp only [addContainersWithHost, Nat.succ_ne_zero, if_false, startUnits, bind, M.bind, h]

end Docker

open Docker

/-! ## Theorems -/

/-- C9 as stated fails: for the app with 0 deploys and `UpdatePlatform` unset the
right-hand side `deploys = 0 ∨ deploys % 10 = 0 ∨ updatePlatform` holds, yet
`usePlatformImage` is false. -/
theorem C9_counterexample :
    ¬ (usePlatformImage app3 = true ↔
        (app3.Deploys = 0 ∨ app3.Deploys % 10 = 0 ∨ app3.UpdatePlatform = true)) := by
  decide

/-- C9 amended: `usePlatformImage app` is true iff the deploy counter is
different from 0 and a multiple of 10, or the `UpdatePlatform` flag is set. -/
theorem C9_usePlatformImage_amended (app : App) :
    usePlatformImage app = true ↔
      (app.Deploys ≠ 0 ∧ app.Deploys % 10 = 0) ∨ app.UpdatePlatform = true := by
  simp [usePlatformImage, App.GetDeploys, App.GetUpdatePlatform]

/-- C10: `usePlatformImage app` is true iff the deploy counter is a non-zero
multiple of 10 or `UpdatePlatform` is set; it is false for 0 and for 19
deploys, true for 20 and 40 deploys, and true for 19 deploys with
`UpdatePlatform` set. -/
theorem C10_usePlatformImage_iff :
    (∀ app : App, usePlatformImage app = true ↔
      (app.Deploys ≠ 0 ∧ 10 ∣ app.Deploys) ∨ app.UpdatePlatform = true) ∧
    usePlatformImage { Name := "app3", Platform := "python", Deploys := 0 } = false ∧
    usePlatformImage { Name := "app4", Platform := "python", Deploys := 19 } = false ∧
    usePlatformImage { Name := "app2", Platform := "python", Deploys := 20 } = true ∧
    usePlatformImage { Name := "app1", Platform := "python", Deploys := 40 } = true ∧
    usePlatformImage
      { Name := "app5", Platform := "python", Deploys := 19, UpdatePlatform := true } = true := by
  refine ⟨?_, by decide, by decide, by decide, by decide, by decide⟩
  intro app
  simp [usePlatformImage, App.GetDeploys, App.GetUpdatePlatform, Nat.dvd_iff_mod_eq_zero]

/-- C2 as stated fails: in the run `exRunPushFails` step 4
(`followLogsAndCommit`) fails at the push after a successful commit, every
compensating call succeeds, and the committed image `localhost:3030/tsuru/myapp`
is in the engine when `deploy` returns, while it was not there before. -/
theorem C2_counterexample :
    (deploy exCfg exRunPushFails exApp [] exWorld).value =
      some ("", some "error in push image localhost:3030/tsuru/myapp: registry unreachable") ∧
    (deploy exCfg exRunPushFails exApp [] exWorld).world.store = exWorld.store ∧
    (deploy exCfg exRunPushFails exApp [] exWorld).world.containers = exWorld.containers ∧
    (deploy exCfg exRunPushFails exApp [] exWorld).world.images =
      ["localhost:3030/tsuru/python", "localhost:3030/tsuru/myapp"] ∧
    (deploy exCfg exRunPushFails exApp [] exWorld).world.images ≠ exWorld.images := by
  decide!

/-- C2 amended: whenever `deploy` returns an error, the generated name and
the container ID given by the engine being new and the compensating
`coll.Remove` and `RemoveContainer` succeeding, the records of the store and
the containers of the engine are those before the run; the images of the
engine are those before the run too unless the failure is that of the push
after a successful commit (that is, when no registry is configured or the push
does not fail). -/
theorem C2_deploy_rollback_law (cfg : Config) (f : RunFaults) (app : App)
    (cmds : List String) (w w' : World) (img : String) (e : Err)
    (hname : ∀ c ∈ w.store, c.Name ≠ f.contName)
    (hid : ∀ addr id, f.create.create = .ok (addr, id) → id ∉ w.containers)
    (hrecord : f.bwRemoveRecord = none)
    (hengine : f.bwRemoveContainer = none)
    (h : deploy cfg f app cmds w = Res.ok (img, some e) w') :
    w'.store = w.store ∧ w'.containers = w.containers ∧
    ((cfg.registry = none ∨ f.push = none) → w'.images = w.images) := by
  obtain ⟨_, hstore, hcont, himages⟩ := deploy_error_state cfg f app cmds w img e w' h
  exact ⟨hstore hname hrecord, hcont hid hengine, himages⟩

/-- Witness of C2 amended: the build container exits with status 2; store,
containers and images are those before the run. -/
theorem C2_deploy_rollback_law_witness :
    (∀ c ∈ exWorld.store, c.Name ≠ exRunExit2.contName) ∧
    (∀ addr id, exRunExit2.create.create = .ok (addr, id) → id ∉ exWorld.containers) ∧
    exRunExit2.bwRemoveRecord = none ∧
    exRunExit2.bwRemoveContainer = none ∧
    deploy exCfg exRunExit2 exApp [] exWorld =
      Res.ok ("", some "Exit status 2") (deploy exCfg exRunExit2 exApp [] exWorld).world ∧
    ((deploy exCfg exRunExit2 exApp [] exWorld).world.store = exWorld.store ∧
      (deploy exCfg exRunExit2 exApp [] exWorld).world.containers = exWorld.containers ∧
      ((exCfg.registry = none ∨ exRunExit2.push = none) →
        (deploy exCfg exRunExit2 exApp [] exWorld).world.images = exWorld.images)) :=
  have hid : ∀ addr id, exRunExit2.create.create = .ok (addr, id) → id ∉ exWorld.containers := by
    intro addr id h
    simp only [exRunExit2, exRun, Except.ok.injEq, Prod.mk.injEq] at h
    rw [← h.2]
    decide
  ⟨by decide!, hid, by decide!, by decide!, by decide!,
    C2_deploy_rollback_law exCfg exRunExit2 exApp [] exWorld _ "" "Exit status 2"
      (by decide!) hid (by decide!) (by decide!) (by decide!)⟩

/-- C3 as stated fails: in the run `exRouterFlaps` from `exOneRoute` the app has
the route of `old0`, two units are added and their addresses differ from the
outgoing ones; the `RemoveRoute` of `old0` succeeds, that of `old1` fails, the
compensating `AddRoute` of `old0` fails too (its error is dropped) and the
backward of `addNewRoutes` removes the two new routes: the route table is
empty after a router call of the flow and when the flow returns. -/
theorem C3_counterexample :
    (∃ address, (exChangeArgs.app.Name, address) ∈ exOneRoute.routes) ∧
    0 < exChangeArgs.unitsToAdd ∧
    (∀ c ∈ newUnits exCfg exRouterFlaps exChangeArgs exOneRoute,
      ∀ o ∈ exChangeArgs.toRemove, c.getAddress ≠ o.getAddress) ∧
    (runReplaceUnitsPipeline exCfg exRouterFlaps exChangeArgs exOneRoute).value =
      some (.error "router down") ∧
    [] ∈ (runReplaceUnitsPipeline exCfg exRouterFlaps exChangeArgs exOneRoute).world.routeHistory ∧
    (runReplaceUnitsPipeline exCfg exRouterFlaps exChangeArgs exOneRoute).world.routes = [] :=
  ⟨⟨"http://10.10.10.10:49153", by decide!⟩, by decide!, by decide!, by decide!, by decide!,
    by decide!⟩

/-- C3 amended: routing continuity of the replace-units flow.  With a router at
hand, if the app has a route before the flow, no new container's route is in
the table before the flow or is the route of an outgoing container, and the
compensating `AddRoute` calls of `removeOldRoutes` succeed, then the app has a
route when the flow ends and in the route table after every router call of the
flow, and whenever the router is asked to remove the route of an outgoing
container, the calls before it start with one successful `AddRoute` for each of
the `unitsToAdd` new containers. -/
theorem C3_replace_units_routing_continuity (cfg : Config) (f : ChangeFaults)
    (args : changeUnitsPipelineArgs) (w : World)
    (hrouter : cfg.routerErr = none)
    (hroute : ∃ address, (args.app.Name, address) ∈ w.routes)
    (hnew : ∀ c ∈ newUnits cfg f args w,
      routeOf c ∉ w.routes ∧ routeOf c ∉ args.toRemove.map routeOf)
    (hundo : ∀ j, f.removeRouteUndo j = none) :
    (∃ address, (args.app.Name, address) ∈ (runReplaceUnitsPipeline cfg f args w).world.routes) ∧
    (∃ snaps, (runReplaceUnitsPipeline cfg f args w).world.routeHistory = w.routeHistory ++ snaps ∧
      ∀ s ∈ snaps, ∃ address, (args.app.Name, address) ∈ s) ∧
    (∀ pre o post, o ∈ args.toRemove →
      routerCalls (runReplaceUnitsPipeline cfg f args w).world.log =
        routerCalls w.log ++ (pre ++ removeRouteEvent o :: post) →
      (newUnits cfg f args w).length = args.unitsToAdd ∧
      (∀ i, i < args.unitsToAdd → f.addRoute i = none) ∧
      (newUnits cfg f args w).map addRouteEvent <+: pre) := by
  obtain ⟨address, hr0⟩ := hroute
  obtain ⟨⟨hfin, hsnaps⟩, hcalls⟩ :=
    replace_flow cfg f args w (args.app.Name, address) hrouter hr0 rfl hnew hundo
  rw [← runReplaceUnitsPipeline_world] at hfin hsnaps hcalls
  refine ⟨hfin, hsnaps, ?_⟩
  intro pre o post ho hsplit
  rcases hcalls with ⟨evs, hevs, hq⟩ | ⟨hlen, hfaults, evs, hevs⟩
  · exfalso
    rw [hevs] at hsplit
    have hmem : removeRouteEvent o ∈ evs := by
      rw [List.append_cancel_left hsplit]
      simp
    exact hq _ hmem o ho rfl
  · refine ⟨hlen, hfaults, ?_⟩
    rw [hevs, List.append_assoc] at hsplit
    refine prefix_of_split _ evs pre post (removeRouteEvent o) ?_ (List.append_cancel_left hsplit)
    intro hmem
    obtain ⟨c, _, hc⟩ := List.mem_map.1 hmem
    simp [addRouteEvent, removeRouteEvent] at hc

/-- Witness of C3 amended: both outgoing containers are routed, two units are
added and every call succeeds. -/
theorem C3_replace_units_routing_continuity_witness :
    exCfg.routerErr = none ∧
    (∃ address, (exChangeArgs.app.Name, address) ∈ exRouted.routes) ∧
    (∀ c ∈ newUnits exCfg exReplaceOk exChangeArgs exRouted,
      routeOf c ∉ exRouted.routes ∧ routeOf c ∉ exChangeArgs.toRemove.map routeOf) ∧
    (∀ j, exReplaceOk.removeRouteUndo j = none) ∧
    ((∃ address, (exChangeArgs.app.Name, address) ∈
        (runReplaceUnitsPipeline exCfg exReplaceOk exChangeArgs exRouted).world.routes) ∧
     (∃ snaps, (runReplaceUnitsPipeline exCfg exReplaceOk exChangeArgs exRouted).world.routeHistory =
        exRouted.routeHistory ++ snaps ∧
        ∀ s ∈ snaps, ∃ address, (exChangeArgs.app.Name, address) ∈ s) ∧
     (∀ pre o post, o ∈ exChangeArgs.toRemove →
        routerCalls (runReplaceUnitsPipeline exCfg exReplaceOk exChangeArgs exRouted).world.log =
          routerCalls exRouted.log ++ (pre ++ removeRouteEvent o :: post) →
        (newUnits exCfg exReplaceOk exChangeArgs exRouted).length = exChangeArgs.unitsToAdd ∧
        (∀ i, i < exChangeArgs.unitsToAdd → exReplaceOk.addRoute i = none) ∧
        (newUnits exCfg exReplaceOk exChangeArgs exRouted).map addRouteEvent <+: pre)) :=
  ⟨rfl, ⟨"http://10.10.10.10:49153", by decide!⟩, by decide!, fun _ => rfl,
    C3_replace_units_routing_continuity exCfg exReplaceOk exChangeArgs exRouted rfl
      ⟨"http://10.10.10.10:49153", by decide!⟩ (by decide!) (fun _ => rfl)⟩

/-- C11: `getImage app` is the platform image `assembleImageName platform` when
no record of the app can be fetched, when the fetched record has an empty
`Image` or when `usePlatformImage app` holds, and the `Image` of the fetched
record in every other case; for a record that carries the app image
`assembleImageName name` it is the platform image when the deploy counter is
a non-zero multiple of 10 or `UpdatePlatform` is set, and the app image
otherwise. -/
theorem C11_getImage (cfg : Config) (fault : Option Err) (app : App) (w : World) :
    (∀ e, (getOneContainerByAppName fault app.GetName w).value = some (.error e) →
      (getImage cfg fault app w).value = some (assembleImageName cfg app.GetPlatform)) ∧
    (∀ c, (getOneContainerByAppName fault app.GetName w).value = some (.ok c) →
      (c.Image = "" ∨ usePlatformImage app = true →
        (getImage cfg fault app w).value = some (assembleImageName cfg app.GetPlatform)) ∧
      (c.Image ≠ "" → usePlatformImage app = false →
        (getImage cfg fault app w).value = some c.Image) ∧
      (c.Image = assembleImageName cfg app.GetName →
        (getImage cfg fault app w).value =
          some (if (app.Deploys ≠ 0 ∧ app.Deploys % 10 = 0) ∨ app.UpdatePlatform = true then
            assembleImageName cfg app.GetPlatform
          else assembleImageName cfg app.GetName))) := by
  refine ⟨?_, ?_⟩
  · intro e he
    rw [getImage_value, he]
  · intro c hc
    refine ⟨?_, ?_, ?_⟩
    · intro h
      rw [getImage_value, hc]
      simp only [h, if_true]
    · intro h1 h2
      rw [getImage_value, hc]
      simp [h1, h2]
    · intro himg
      rw [getImage_value, hc]
      have hne : assembleImageName cfg app.GetName ≠ "" :=
        assembleImageName_ne_empty cfg app.GetName
      have huse : usePlatformImage app = true ↔
          ((app.Deploys ≠ 0 ∧ app.Deploys % 10 = 0) ∨ app.UpdatePlatform = true) := by
        simp [usePlatformImage, App.GetDeploys, App.GetUpdatePlatform]
      simp only [himg, hne, false_or, huse]

/-- Witness of C11: the record of `myapp` carries the app image; at the first
deploy `getImage` returns it, at the 20th deploy the platform image. -/
theorem C11_getImage_witness :
    (getOneContainerByAppName none exApp.GetName exDeployed).value =
      some (.ok exDeployedRecord) ∧
    (getImage exCfg none exApp exDeployed).value = some "localhost:3030/tsuru/myapp" ∧
    (getImage exCfg none exApp20 exDeployed).value = some "localhost:3030/tsuru/python" :=
  ⟨by decide!,
   ((C11_getImage exCfg none exApp exDeployed).2 exDeployedRecord (by decide!)).2.1
     (by decide!) (by decide!),
   ((C11_getImage exCfg none exApp20 exDeployed).2 exDeployedRecord (by decide!)).1
     (Or.inr (by decide!))⟩

/-- C12: if `start app imageId` returns a container without error, then the
record that the store holds under the ID of that container is the returned
container: its `Status` is `started`, its `Image` is `imageId`, its `HostPort`
is not empty, and its `ID` and `HostAddr` are those assigned at creation (the
ID given by the engine and the host of the node address). -/
theorem C12_start_stores_started_record (cfg : Config) (f : StartFaults) (app : App)
    (imageId : String) (dest : List String) (w w' : World) (c : container)
    (h : start cfg f app imageId dest w = Res.ok (.ok c) w') :
    (getContainer none c.ID w').value = some (.ok c) ∧
    c.Status = "started" ∧ c.Image = imageId ∧ c.HostPort ≠ "" ∧
    ∃ addr host, f.run.create.create = .ok (addr, c.ID) ∧ urlToHost addr = some host ∧
      c.HostAddr = host := by
  obtain ⟨_, addr, id, host, port, ns, hcreate, hurl, _, _, hhost, _, hid, hport, hstatus, himage,
    hfind⟩ := start_result cfg f app imageId dest w w' c h
  refine ⟨?_, hstatus, himage, hport, addr, host, ?_, hurl, hhost⟩
  · rw [getContainer_value, hfind]
  · rw [hid]
    exact hcreate

/-- Witness of C12: the first start flow of `exStarts` for `myapp` returns the
container `new0` on host port 49160. -/
theorem C12_start_stores_started_record_witness :
    start exCfg (exStarts 0) exApp "localhost:3030/tsuru/myapp" [] exWorld =
      Res.ok (.ok exStarted)
        (start exCfg (exStarts 0) exApp "localhost:3030/tsuru/myapp" [] exWorld).world ∧
    ((getContainer none exStarted.ID
        (start exCfg (exStarts 0) exApp "localhost:3030/tsuru/myapp" [] exWorld).world).value =
        some (.ok exStarted) ∧
     exStarted.Status = "started" ∧ exStarted.Image = "localhost:3030/tsuru/myapp" ∧
     exStarted.HostPort ≠ "" ∧
     ∃ addr host, (exStarts 0).run.create.create = .ok (addr, exStarted.ID) ∧
       urlToHost addr = some host ∧ exStarted.HostAddr = host) :=
  ⟨by decide!,
   C12_start_stores_started_record exCfg (exStarts 0) exApp "localhost:3030/tsuru/myapp" []
     exWorld _ exStarted (by decide!)⟩

/-- C14 as stated fails: in the run `exRun` the forward of
`insertEmptyContainerInDB` inserts and returns a record whose `Status` is
`created`, not `building`; and in the run `exRunStoreDown`, where the
`coll.Remove` of the backward fails (its error is dropped), the record is
still in the store after the backward. -/
theorem C14_counterexample :
    (insertEmptyContainerInDB exRun).Forward { Previous := Result.null, Params := [exRunArgs] }
      exWorld =
      Res.ok (.ok (.cont exInserted))
        { exWorld with store := exWorld.store ++ [exInserted],
                       log := exWorld.log ++ [Event.storeInsert exInserted] } ∧
    exInserted.Status = "created" ∧ exInserted.Status ≠ "building" ∧
    (rollback [exRunArgs] [(insertEmptyContainerInDB exRunStoreDown, Result.cont exInserted)]
      { exWorld with store := exWorld.store ++ [exInserted] }).world.store =
      exWorld.store ++ [exInserted] := by
  decide!

/-- C14 amended: the forward of `insertEmptyContainerInDB` issues one
`coll.Insert` of a record whose `Status` is `created`, whose `Name` is the
generated container name and whose `AppName`, `Type`, `Image` and `PrivateKey`
come from the pipeline arguments; when the insert succeeds that record is
appended to the store and returned, and when it fails the error is returned
and the store is as before.  The backward issues one `coll.Remove` by the
`Name` of the record, which removes the first record of that name when the
removal succeeds; after a successful forward, the generated name being new,
it leaves the store as it was before the forward. -/
theorem C14_insertEmptyContainerInDB (f : RunFaults) (prev : Result)
    (args : runContainerActionsArgs) (rest : List runContainerActionsArgs) (w : World) :
    (f.insert = none →
      (insertEmptyContainerInDB f).Forward { Previous := prev, Params := args :: rest } w =
        Res.ok (.ok (.cont
          { AppName := args.app.GetName, Type_ := args.app.GetPlatform, Name := f.contName,
            Status := "created", Image := args.imageID, PrivateKey := args.privateKey }))
          { w with
            store := w.store ++ [
              { AppName := args.app.GetName, Type_ := args.app.GetPlatform, Name := f.contName,
                Status := "created", Image := args.imageID, PrivateKey := args.privateKey }],
            log := w.log ++ [Event.storeInsert
              { AppName := args.app.GetName, Type_ := args.app.GetPlatform, Name := f.contName,
                Status := "created", Image := args.imageID, PrivateKey := args.privateKey }] }) ∧
    (∀ e, f.insert = some e →
      (insertEmptyContainerInDB f).Forward { Previous := prev, Params := args :: rest } w =
        Res.ok (.error e)
          { w with log := w.log ++ [Event.storeInsert
              { AppName := args.app.GetName, Type_ := args.app.GetPlatform, Name := f.contName,
                Status := "created", Image := args.imageID, PrivateKey := args.privateKey }] }) ∧
    (∀ c : container, ∃ w2,
      rollback (args :: rest) [(insertEmptyContainerInDB f, Result.cont c)] w = Res.ok () w2 ∧
      w2.log = w.log ++ [Event.storeRemove (.byName c.Name)] ∧
      (f.bwRemoveRecord = none → w2.store = w.store.eraseP (Selector.byName c.Name).sat)) ∧
    (∀ r w1, f.bwRemoveRecord = none → (∀ c ∈ w.store, c.Name ≠ f.contName) →
      (insertEmptyContainerInDB f).Forward { Previous := prev, Params := args :: rest } w =
        Res.ok (.ok r) w1 →
      (rollback (args :: rest) [(insertEmptyContainerInDB f, r)] w1).world.store = w.store) := by
  refine ⟨?_, ?_, ?_, ?_⟩
  · intro h
    simp only [insertEmptyContainerInDB, bind, M.bind, collInsert, h, pure, M.pure]
  · intro e h
    simp only [insertEmptyContainerInDB, bind, M.bind, collInsert, h, pure, M.pure]
  · intro c
    obtain ⟨x, w2, h2, _⟩ := ret_collRemove f.bwRemoveRecord (.byName c.Name) w
    have hrb : rollback (args :: rest) [(insertEmptyContainerInDB f, Result.cont c)] w =
        Res.ok () w2 := by
      simp only [rollback, insertEmptyContainerInDB, bind, M.bind, h2, pure, M.pure]
    refine ⟨w2, hrb, ?_, ?_⟩
    · simp only [collRemove] at h2
      cases hf : f.bwRemoveRecord with
      | some e =>
        simp only [hf, Res.ok.injEq] at h2
        rw [← h2.2]
      | none =>
        simp only [hf] at h2
        split at h2
        · simp only [Res.ok.injEq] at h2
          rw [← h2.2]
        · simp only [Res.ok.injEq] at h2
          rw [← h2.2]
    · intro hf
      simp only [collRemove, hf] at h2
      split at h2
      · simp only [Res.ok.injEq] at h2
        rw [← h2.2]
      · rename_i hany
        simp only [Res.ok.injEq] at h2
        rw [← h2.2]
        exact (eraseP_of_not_any _ _ (by simpa using hany)).symm
  · intro r w1 hbw hfresh hfw
    obtain ⟨_, _, hcase⟩ := insert_forward_effect f prev args rest w w1 _ hfw
    rcases hcase with ⟨e, he, _⟩ | ⟨c, hc, hname, hstore⟩
    · cases he
    · simp only [Except.ok.injEq] at hc
      subst hc
      obtain ⟨x, w2, h2, _⟩ := ret_collRemove f.bwRemoveRecord (.byName c.Name) w1
      have hrb : rollback (args :: rest) [(insertEmptyContainerInDB f, Result.cont c)] w1 =
          Res.ok () w2 := by
        simp only [rollback, insertEmptyContainerInDB, bind, M.bind, h2, pure, M.pure]
      rw [hrb]
      simp only [Res.world]
      have hany : w1.store.any (Selector.byName c.Name).sat = true := by
        rw [hstore]
        simp [Selector.sat]
      simp only [collRemove, hbw, hany, if_true, Res.ok.injEq] at h2
      rw [← h2.2]
      simp only
      rw [hstore]
      apply eraseP_append_fresh
      · intro x hx
        simp only [Selector.sat, beq_eq_false_iff_ne, ne_eq]
        rw [hname]
        exact hfresh x hx
      · simp [Selector.sat]

/-- Witness of C14 amended: the run `exRun` with the arguments `exRunArgs` from
`exWorld`; the forward appends the record `exInserted` and the backward removes
it. -/
theorem C14_insertEmptyContainerInDB_witness :
    exRun.insert = none ∧ exRun.bwRemoveRecord = none ∧
    (∀ c ∈ exWorld.store, c.Name ≠ exRun.contName) ∧
    (insertEmptyContainerInDB exRun).Forward { Previous := Result.null, Params := [exRunArgs] }
      exWorld =
      Res.ok (.ok (.cont exInserted))
        { exWorld with store := exWorld.store ++ [exInserted],
                       log := exWorld.log ++ [Event.storeInsert exInserted] } ∧
    (rollback [exRunArgs] [(insertEmptyContainerInDB exRun, Result.cont exInserted)]
      { exWorld with store := exWorld.store ++ [exInserted],
                     log := exWorld.log ++ [Event.storeInsert exInserted] }).world.store =
      exWorld.store :=
  ⟨rfl, rfl, by decide!,
   (C14_insertEmptyContainerInDB exRun Result.null exRunArgs [] exWorld).1 rfl,
   (C14_insertEmptyContainerInDB exRun Result.null exRunArgs [] exWorld).2.2.2 _ _ rfl
     (by decide!) ((C14_insertEmptyContainerInDB exRun Result.null exRunArgs [] exWorld).1 rfl)⟩

/-- C15: on a container whose `Status` is `stopped`, `stop` returns nil and
leaves the world as it is (no call to the engine, no update of the store, the
log unchanged) and the container as it is (`Status` and `LastStatusUpdate`
included); and on any container, `stop` followed by `stop` on the result has
the same result and leaves the same world as one `stop`. -/
theorem C15_stop_stopped_is_noop (f f2 : StopFaults) (c : container) (w : World) :
    (c.Status = "stopped" → c.stop f w = Res.ok (c, none) w) ∧
    (c.stop f >>= fun p => p.1.stop f2) w = c.stop f w := by
  refine ⟨stop_stopped f c w, ?_⟩
  show M.bind _ _ w = _
  unfold M.bind
  by_cases h : c.Status = "stopped"
  · rw [stop_stopped f c w h]
    exact stop_stopped f2 c w h
  · obtain ⟨err, w1, _, h1⟩ := stop_not_stopped f c w h
    rw [h1]
    exact stop_stopped f2 _ w1 rfl

/-- Witness of C15: the stopped container `u-stopped` in the world `exUnits`. -/
theorem C15_stop_stopped_is_noop_witness :
    exUnitStopped.Status = "stopped" ∧
    exUnitStopped.stop {} exUnits = Res.ok (exUnitStopped, none) exUnits :=
  ⟨by decide!, (C15_stop_stopped_is_noop {} {} exUnitStopped exUnits).1 (by decide!)⟩

/-- C16: on a container whose `Status` is not `stopped`, `stop` returns nil and
the container with `Status = stopped` (and the reading of the clock as
`LastStatusUpdate`); it makes exactly two calls, one `StopContainer` on the
engine for the ID of the container with a grace of 10 seconds, then the update
of the store of `setStatus`; when that update succeeds the record stored under
the ID is the stopped container. -/
theorem C16_stop_running (f : StopFaults) (c : container) (w : World)
    (h : c.Status ≠ "stopped") :
    ∃ w1, c.stop f w =
        Res.ok ({ c with Status := "stopped", LastStatusUpdate := w.now + 1 }, none) w1 ∧
      w1.log = w.log ++ [Event.stopContainer c.ID 10,
        Event.storeUpdate (.byID c.ID)
          { c with Status := "stopped", LastStatusUpdate := w.now + 1 }] ∧
      (f.update = none → (∃ r ∈ w.store, r.ID = c.ID) →
        (getContainer none c.ID w1).value =
          some (.ok { c with Status := "stopped", LastStatusUpdate := w.now + 1 })) := by
  obtain ⟨err, w1, h1, h2⟩ := stop_not_stopped f c w h
  obtain ⟨err', w1', h1', hlog, _, hok, hstore, _⟩ := setStatus_run f.update c "stopped"
    { w with log := w.log ++ [Event.stopContainer c.ID 10] }
  rw [h1, Res.ok.injEq, Prod.mk.injEq] at h1'
  obtain ⟨⟨_, rfl⟩, rfl⟩ := h1'
  refine ⟨w1, h2, ?_, ?_⟩
  · rw [hlog]
    simp
  · intro hf hex
    have herr := hok hf hex
    obtain ⟨hst, hany⟩ := hstore herr
    rw [getContainer_value, hst]
    have hfind : (replaceFirst (Selector.byID c.ID).sat
        { c with Status := "stopped", LastStatusUpdate := w.now + 1 } w.store).find?
          (fun r => r.ID == c.ID) =
        some { c with Status := "stopped", LastStatusUpdate := w.now + 1 } :=
      find_replaceFirst (Selector.byID c.ID).sat
        { c with Status := "stopped", LastStatusUpdate := w.now + 1 } (by simp [Selector.sat])
        w.store hany
    rw [hfind]

/-- Witness of C16: the started container `u-started` in the world `exUnits`. -/
theorem C16_stop_running_witness :
    exUnitStarted.Status ≠ "stopped" ∧
    ∃ w1, exUnitStarted.stop {} exUnits =
        Res.ok ({ exUnitStarted with Status := "stopped", LastStatusUpdate := exUnits.now + 1 },
          none) w1 ∧
      w1.log = exUnits.log ++ [Event.stopContainer exUnitStarted.ID 10,
        Event.storeUpdate (.byID exUnitStarted.ID)
          { exUnitStarted with Status := "stopped", LastStatusUpdate := exUnits.now + 1 }] ∧
      (({} : StopFaults).update = none → (∃ r ∈ exUnits.store, r.ID = exUnitStarted.ID) →
        (getContainer none exUnitStarted.ID w1).value =
          some (.ok { exUnitStarted with Status := "stopped",
                                         LastStatusUpdate := exUnits.now + 1 })) :=
  ⟨by decide!, C16_stop_running {} exUnitStarted exUnits (by decide!)⟩

/-- C17 as stated fails: `setStatus` replaces the whole stored document by the
receiver.  On the receiver `exStale`, which has the ID of the record
`exDeployedRecord` and an empty `Image` and `AppName`, the update succeeds and
the stored `Image` and `AppName` do not keep their values; and on the receiver
`exGhost`, which has no record in the store, the update returns `not found`
and a later `getContainer` does not return the status. -/
theorem C17_counterexample :
    (getContainer none exStale.ID exDeployed).value = some (.ok exDeployedRecord) ∧
    exDeployedRecord.Image = "localhost:3030/tsuru/myapp" ∧
    (exStale.setStatus none "started" exDeployed).value =
      some ({ ID := "bleble", Status := "started", LastStatusUpdate := 1 }, none) ∧
    (getContainer none exStale.ID (exStale.setStatus none "started" exDeployed).world).value =
      some (.ok { ID := "bleble", Status := "started", LastStatusUpdate := 1, Image := "",
                  AppName := "" }) ∧
    (exGhost.setStatus none "started" exWorld).value =
      some ({ exGhost with Status := "started", LastStatusUpdate := 1 }, some ErrNotFound) ∧
    (getContainer none exGhost.ID (exGhost.setStatus none "started" exWorld).world).value =
      some (.error ErrNotFound) := by
  decide!

/-- C17 amended: `c.setStatus s` sets `Status` to `s` and `LastStatusUpdate` to
the reading of the clock in the receiver, every other field of the receiver
keeping its value, and makes one single call on the store, the update of the
record whose ID is `c.ID` with the whole receiver.  The update succeeds when
the store does not fail and holds a record with that ID; when it succeeds, a
later `getContainer c.ID` returns the receiver, so `Status = s` and every other
field has the value held by the receiver (the stored value when the receiver
was a copy of the record), and the records with another ID are as before. -/
theorem C17_setStatus (fault : Option Err) (c : container) (s : String) (w : World) :
    ∃ err w1,
      c.setStatus fault s w =
        Res.ok ({ c with Status := s, LastStatusUpdate := w.now + 1 }, err) w1 ∧
      w1.log = w.log ++ [Event.storeUpdate (.byID c.ID)
        { c with Status := s, LastStatusUpdate := w.now + 1 }] ∧
      (fault = none → (∃ r ∈ w.store, r.ID = c.ID) → err = none) ∧
      (err = none →
        (getContainer none c.ID w1).value =
          some (.ok { c with Status := s, LastStatusUpdate := w.now + 1 }) ∧
        ∀ id, id ≠ c.ID → (getContainer none id w1).value = (getContainer none id w).value) := by
  obtain ⟨err, w1, hrun, hlog, _, hok, hstore, _⟩ := setStatus_run fault c s w
  refine ⟨err, w1, hrun, hlog, hok, ?_⟩
  intro herr
  obtain ⟨hst, hany⟩ := hstore herr
  refine ⟨?_, ?_⟩
  · rw [getContainer_value, hst]
    have hfind : (replaceFirst (Selector.byID c.ID).sat
        { c with Status := s, LastStatusUpdate := w.now + 1 } w.store).find?
          (fun r => r.ID == c.ID) =
        some { c with Status := s, LastStatusUpdate := w.now + 1 } :=
      find_replaceFirst (Selector.byID c.ID).sat
        { c with Status := s, LastStatusUpdate := w.now + 1 } (by simp [Selector.sat])
        w.store hany
    rw [hfind]
  · intro id hid
    rw [getContainer_value, getContainer_value, hst]
    rw [find_replaceFirst_other (Selector.byID c.ID).sat (fun r => r.ID == id)]
    · intro x hx
      simp only [Selector.sat, beq_iff_eq] at hx
      simp only [beq_eq_false_iff_ne, ne_eq, hx]
      exact fun h => hid h.symm
    · simp only [beq_eq_false_iff_ne, ne_eq]
      exact fun h => hid h.symm

/-- Witness of C17 amended: the status of the record `exOld0` of `exRouted` is
set to `stopped`; the update succeeds and `getContainer` returns the record
with the new status, the record `old1` being as before. -/
theorem C17_setStatus_witness :
    (∃ r ∈ exRouted.store, r.ID = exOld0.ID) ∧
    (exOld0.setStatus none "stopped" exRouted).value =
      some ({ exOld0 with Status := "stopped", LastStatusUpdate := 1 }, none) ∧
    (getContainer none "old1" (exOld0.setStatus none "stopped" exRouted).world).value =
      some (.ok exOld1) ∧
    ∃ err w1,
      exOld0.setStatus none "stopped" exRouted =
        Res.ok ({ exOld0 with Status := "stopped", LastStatusUpdate := exRouted.now + 1 }, err)
          w1 ∧
      w1.log = exRouted.log ++ [Event.storeUpdate (.byID exOld0.ID)
        { exOld0 with Status := "stopped", LastStatusUpdate := exRouted.now + 1 }] ∧
      ((none : Option Err) = none → (∃ r ∈ exRouted.store, r.ID = exOld0.ID) → err = none) ∧
      (err = none →
        (getContainer none exOld0.ID w1).value =
          some (.ok { exOld0 with Status := "stopped", LastStatusUpdate := exRouted.now + 1 }) ∧
        ∀ id, id ≠ exOld0.ID →
          (getContainer none id w1).value = (getContainer none id exRouted).value) :=
  ⟨⟨exOld0, by decide!, rfl⟩, by decide!, by decide!, C17_setStatus none exOld0 "stopped" exRouted⟩

/-- C18 as stated fails: `setStatus "started"` on the container `u-started`,
whose `Status` is `started` already, leaves `Status` at the same value and
changes `LastStatusUpdate` (from 1 to 2, the clock of `exUnits` reading 1). -/
theorem C18_counterexample :
    ((RecordOp.setStatus "started").run {} none exUnitStarted
      { exUnits with now := 1 }).value =
      some ({ exUnitStarted with LastStatusUpdate := 2 }, none) ∧
    exUnitStarted.Status = "started" ∧ exUnitStarted.LastStatusUpdate = 1 ∧
    ¬ ((2 : Nat) ≠ exUnitStarted.LastStatusUpdate ↔ "started" ≠ exUnitStarted.Status) := by
  decide!

/-- C18 amended: for the operations `setStatus`, `setImage` and `stop` on a
container whose `LastStatusUpdate` is not ahead of the clock, the operation
returns, and `LastStatusUpdate` differs before and after exactly when the
operation is a `setStatus` or a `stop` of a container that is not stopped; so
whenever `Status` differs `LastStatusUpdate` differs, `setImage` changes
neither of the two, and `stop` of a stopped container changes neither
(a `setStatus` to the status the container has does change
`LastStatusUpdate`). -/
theorem C18_lastStatusUpdate (sf : StopFaults) (fault : Option Err) (op : RecordOp)
    (c : container) (w : World) (hclock : c.LastStatusUpdate ≤ w.now) :
    ∃ c1 err w1, op.run sf fault c w = Res.ok (c1, err) w1 ∧
      (c1.LastStatusUpdate ≠ c.LastStatusUpdate ↔
        ((∃ s, op = RecordOp.setStatus s) ∨ (op = RecordOp.stop ∧ c.Status ≠ "stopped"))) ∧
      (c1.Status ≠ c.Status → c1.LastStatusUpdate ≠ c.LastStatusUpdate) ∧
      ((∃ i, op = RecordOp.setImage i) →
        c1.LastStatusUpdate = c.LastStatusUpdate ∧ c1.Status = c.Status) := by
  cases op with
  | setStatus s =>
    obtain ⟨err, w1, hrun, _⟩ := setStatus_run fault c s w
    refine ⟨_, err, w1, hrun, ?_, ?_, ?_⟩
    · simp only [ne_eq, RecordOp.setStatus.injEq, exists_eq', true_or, iff_true]
      omega
    · intro _
      simp only [ne_eq]
      omega
    · rintro ⟨i, hi⟩
      cases hi
  | setImage i =>
    obtain ⟨⟨c1, err⟩, w1, hrun, _⟩ := ret_setImage fault c i w
    have hc1 := setImage_result fault c i w w1 c1 err hrun
    subst hc1
    refine ⟨_, err, w1, hrun, ?_, ?_, ?_⟩
    · simp
    · intro h
      exact absurd rfl h
    · intro _
      exact ⟨rfl, rfl⟩
  | stop =>
    by_cases hst : c.Status = "stopped"
    · refine ⟨c, none, w, stop_stopped sf c w hst, ?_, ?_, ?_⟩
      · simp [hst]
      · intro h
        exact absurd rfl h
      · rintro ⟨i, hi⟩
        cases hi
    · obtain ⟨err, w1, _, hrun⟩ := stop_not_stopped sf c w hst
      refine ⟨_, none, w1, hrun, ?_, ?_, ?_⟩
      · simp only [ne_eq, hst, not_false_eq_true, and_self, or_true, iff_true]
        omega
      · intro _
        simp only [ne_eq]
        omega
      · rintro ⟨i, hi⟩
        cases hi

/-- Witness of C18 amended: `stop` on the started container `u-started`, whose
`LastStatusUpdate` is 1, the clock of the world reading 1. -/
theorem C18_lastStatusUpdate_witness :
    exUnitStarted.LastStatusUpdate ≤ ({ exUnits with now := 1 } : World).now ∧
    (RecordOp.stop.run {} none exUnitStarted { exUnits with now := 1 }).value =
      some ({ exUnitStarted with Status := "stopped", LastStatusUpdate := 2 }, none) ∧
    ∃ c1 err w1, RecordOp.stop.run {} none exUnitStarted { exUnits with now := 1 } =
        Res.ok (c1, err) w1 ∧
      (c1.LastStatusUpdate ≠ exUnitStarted.LastStatusUpdate ↔
        ((∃ s, RecordOp.stop = RecordOp.setStatus s) ∨
          (RecordOp.stop = RecordOp.stop ∧ exUnitStarted.Status ≠ "stopped"))) ∧
      (c1.Status ≠ exUnitStarted.Status →
        c1.LastStatusUpdate ≠ exUnitStarted.LastStatusUpdate) ∧
      ((∃ i, RecordOp.stop = RecordOp.setImage i) →
        c1.LastStatusUpdate = exUnitStarted.LastStatusUpdate ∧
        c1.Status = exUnitStarted.Status) :=
  ⟨by decide!, by decide!,
   C18_lastStatusUpdate {} none RecordOp.stop exUnitStarted { exUnits with now := 1 }
     (by decide!)⟩

/-- C19: `Start app`, the listing of the containers of the app succeeding and
the container port being configured: `StartContainer` is called for every
container of the list, whatever the outcome for the others; `Start` returns
nil exactly when the start of every container succeeded, and otherwise the
error of a failed start; the status of every container whose start succeeded
is set to `started`, and every update of the store made by `Start` is for a
container whose start succeeded. -/
theorem C19_Start_fans_out (cfg : Config) (f : StartAppFaults) (app : App) (w : World)
    (port : String) (hport : cfg.port = some port) (hlist : f.list = none) :
    ∃ r w1 evs, Start cfg f app w = Res.ok r w1 ∧
      w1.log = w.log ++ Event.storeList app.GetName :: evs ∧
      (r = none ↔
        ∀ j, j < (appRecords w.store app.GetName).length → (f.tasks j).start = none) ∧
      (∀ e, r = some e →
        ∃ j, j < (appRecords w.store app.GetName).length ∧ (f.tasks j).start = some e) ∧
      (∀ c ∈ appRecords w.store app.GetName, Event.startContainer c.ID ∈ evs) ∧
      (∀ j c, (appRecords w.store app.GetName)[j]? = some c → (f.tasks j).start = none →
        ∃ d, d.Status = "started" ∧ Event.storeUpdate (.byID c.ID) d ∈ evs) ∧
      (∀ sel d, Event.storeUpdate sel d ∈ evs →
        ∃ j c, (appRecords w.store app.GetName)[j]? = some c ∧ (f.tasks j).start = none ∧
          sel = Selector.byID c.ID) := by
  obtain ⟨errs, w1, evs, hrun, hlog, hnil, hhead, hall, hset, hupd⟩ :=
    startTasks_run cfg f.tasks port hport (appRecords w.store app.GetName) 0
      { w with log := w.log ++ [Event.storeList app.GetName] }
  simp only [Nat.zero_add] at hnil hhead hset hupd
  refine ⟨errs.head?, w1, evs, ?_, ?_, ?_, hhead, hall, hset, hupd⟩
  · simp only [Start, listContainersByApp, hlist, bind, M.bind, hrun, pure, M.pure]
  · rw [hlog]
    simp
  · rw [← hnil]
    cases errs with
    | nil => simp
    | cons e es => simp

/-- Witness of C19: the three containers of `myapp` in `exUnits`; the start of
the second one fails, `Start` returns its error and the engine is asked to
start all three. -/
theorem C19_Start_fans_out_witness :
    exCfg.port = some "8888" ∧ exStartFails.list = none ∧
    (Start exCfg exStartFails exApp exUnits).value = some (some "cannot start") ∧
    ((Start exCfg exStartFails exApp exUnits).world.log.filterMap (fun e =>
        match e with
        | Event.startContainer id => some id
        | _ => none)) = ["u-started", "u-stopped", "u-err"] ∧
    ∃ r w1 evs, Start exCfg exStartFails exApp exUnits = Res.ok r w1 ∧
      w1.log = exUnits.log ++ Event.storeList exApp.GetName :: evs ∧
      (r = none ↔
        ∀ j, j < (appRecords exUnits.store exApp.GetName).length →
          (exStartFails.tasks j).start = none) ∧
      (∀ e, r = some e →
        ∃ j, j < (appRecords exUnits.store exApp.GetName).length ∧
          (exStartFails.tasks j).start = some e) ∧
      (∀ c ∈ appRecords exUnits.store exApp.GetName, Event.startContainer c.ID ∈ evs) ∧
      (∀ j c, (appRecords exUnits.store exApp.GetName)[j]? = some c →
        (exStartFails.tasks j).start = none →
        ∃ d, d.Status = "started" ∧ Event.storeUpdate (.byID c.ID) d ∈ evs) ∧
      (∀ sel d, Event.storeUpdate sel d ∈ evs →
        ∃ j c, (appRecords exUnits.store exApp.GetName)[j]? = some c ∧
          (exStartFails.tasks j).start = none ∧ sel = Selector.byID c.ID) :=
  ⟨rfl, rfl, by decide!, by decide!,
   C19_Start_fans_out exCfg exStartFails exApp exUnits "8888" rfl rfl⟩

/-- C21 at the failing input: when the router cannot be obtained
(`getRouter` returns an error, which `remove` only logs), `remove` asks the
engine to remove the container, sends the DELETE to the agent, asks the store
to remove the record with the ID of the container, and then panics on the
call of `RemoveRoute` on the nil router: it does not return nil.  With a
router it returns nil for every outcome of the four calls, after making all of
them, the last being the removal of the route `http://HostAddr:HostPort`. -/
theorem C21_remove_panics_without_router (cfg : Config) (rf : RemoveFaults) (c : container)
    (w : World) :
    (∀ e, cfg.routerErr = some e →
      ∃ w1, c.remove cfg rf w =
          Res.panic "invalid memory address or nil pointer dereference" w1 ∧
        w1.log = w.log ++ [Event.removeContainer c.ID,
          Event.agentDelete
            ("http://" ++ c.HostAddr ++ ":" ++ toString cfg.sshAgentPort ++ "/container/" ++ c.IP),
          Event.storeRemove (.byID c.ID)]) ∧
    (cfg.routerErr = none →
      ∃ w1, c.remove cfg rf w = Res.ok none w1 ∧
        w1.log = w.log ++ [Event.removeContainer c.ID,
          Event.agentDelete
            ("http://" ++ c.HostAddr ++ ":" ++ toString cfg.sshAgentPort ++ "/container/" ++ c.IP),
          Event.storeRemove (.byID c.ID),
          Event.removeRoute c.AppName ("http://" ++ c.HostAddr ++ ":" ++ c.HostPort)]) := by
  obtain ⟨e1, w1, e2, w2, e3, w3, h1, h2, h3, hl3⟩ := remove_log cfg rf c w
  refine ⟨?_, ?_⟩
  · intro e he
    exact remove_without_router cfg rf c w e he
  · intro hr
    obtain ⟨e4, w4, h4, hl4, _⟩ := RemoveRoute_run Router.mk rf.route c.AppName c.getAddress w3
    refine ⟨w4, ?_, ?_⟩
    · simp only [container.remove, getRouter, hr, bind, M.bind, h1, h2, h3, h4, pure, M.pure]
    · rw [hl4, hl3]
      simp [container.getAddress]

/-- Witness of C21: the container `old0` in the world `exRouted`, every call
succeeding; without the key `docker:router` the run ends in a panic, with it
`remove` returns nil, also when the engine fails. -/
theorem C21_remove_panics_without_router_witness :
    exNoRouter.routerErr = some "key \"docker:router\" not found" ∧
    (exOld0.remove exNoRouter {} exRouted).value = none ∧
    exCfg.routerErr = none ∧
    (exOld0.remove exCfg { engine := some "engine down" } exRouted).value = some none ∧
    (∃ w1, exOld0.remove exNoRouter {} exRouted =
        Res.panic "invalid memory address or nil pointer dereference" w1 ∧
      w1.log = exRouted.log ++ [Event.removeContainer exOld0.ID,
        Event.agentDelete
          ("http://" ++ exOld0.HostAddr ++ ":" ++ toString exNoRouter.sshAgentPort ++
            "/container/" ++ exOld0.IP),
        Event.storeRemove (.byID exOld0.ID)]) ∧
    (∃ w1, exOld0.remove exCfg {} exRouted = Res.ok none w1 ∧
      w1.log = exRouted.log ++ [Event.removeContainer exOld0.ID,
        Event.agentDelete
          ("http://" ++ exOld0.HostAddr ++ ":" ++ toString exCfg.sshAgentPort ++
            "/container/" ++ exOld0.IP),
        Event.storeRemove (.byID exOld0.ID),
        Event.removeRoute exOld0.AppName
          ("http://" ++ exOld0.HostAddr ++ ":" ++ exOld0.HostPort)]) :=
  ⟨rfl, by decide!, rfl, by decide!,
   (C21_remove_panics_without_router exNoRouter {} exOld0 exRouted).1 _ rfl,
   (C21_remove_panics_without_router exCfg {} exOld0 exRouted).2 rfl⟩

/-- C22: `networkInfo`, the container port being configured and the inspect of
the engine succeeding with network settings: the `IP` of the result is the
inspected IP address, `HTTPHostPort` is the host port of the first binding of
`<port>/tcp` whose host port and host IP are both non-empty (empty when there
is none) and `SSHHostPort` likewise for `22/tcp`; the error is
`Container port <port> is not mapped to any host port` exactly when
`<port>/tcp` has no such binding, and nil otherwise; with no bindings at all
the info carries the inspected IP and two empty ports, with that error. -/
theorem C22_networkInfo (cfg : Config) (port : String) (hport : cfg.port = some port)
    (ns : NetworkSettings) (c : container) (w : World) :
    ∃ err w1,
      c.networkInfo cfg (.ok (some ns)) w =
        Res.ok ({ IP := ns.IPAddress,
                  HTTPHostPort :=
                    (((ns.Ports (port ++ "/tcp")).find?
                      (fun b => decide (b.HostPort ≠ "" ∧ b.HostIp ≠ ""))).map
                        (fun b => b.HostPort)).getD "",
                  SSHHostPort :=
                    (((ns.Ports "22/tcp").find?
                      (fun b => decide (b.HostPort ≠ "" ∧ b.HostIp ≠ ""))).map
                        (fun b => b.HostPort)).getD "" }, err) w1 ∧
      (err = some ("Container port " ++ port ++ " is not mapped to any host port") ↔
        ∀ b ∈ ns.Ports (port ++ "/tcp"), ¬ (b.HostPort ≠ "" ∧ b.HostIp ≠ "")) ∧
      (err = none ↔ ∃ b ∈ ns.Ports (port ++ "/tcp"), b.HostPort ≠ "" ∧ b.HostIp ≠ "") ∧
      ((∀ k, ns.Ports k = []) →
        c.networkInfo cfg (.ok (some ns)) w =
          Res.ok ({ IP := ns.IPAddress, HTTPHostPort := "", SSHHostPort := "" },
            some ("Container port " ++ port ++ " is not mapped to any host port")) w1) ∧
      c.networkInfo cfg (.ok none) w =
        Res.ok ({ IP := "", HTTPHostPort := "", SSHHostPort := "" },
          some ("Container port " ++ port ++ " is not mapped to any host port")) w1 := by
  have hrun : ∀ e, e = (if firstHostPort (ns.Ports (port ++ "/tcp")) = "" then
        some ("Container port " ++ port ++ " is not mapped to any host port") else none) →
      c.networkInfo cfg (.ok (some ns)) w =
        Res.ok ({ IP := ns.IPAddress,
                  HTTPHostPort := firstHostPort (ns.Ports (port ++ "/tcp")),
                  SSHHostPort := firstHostPort (ns.Ports "22/tcp") }, e)
          { w with log := w.log ++ [Event.inspectContainer c.ID] } := by
    intro e he
    subst he
    simp only [container.networkInfo, getPort, hport, bind, M.bind, InspectContainerNet]
    by_cases h : firstHostPort (ns.Ports (port ++ "/tcp")) = ""
    · simp only [h, if_true]
      rfl
    · simp only [h, if_false]
      rfl
  have hrun1 := hrun _ rfl
  rw [firstHostPort_eq_find, firstHostPort_eq_find] at hrun1
  refine ⟨_, _, hrun1, ?_, ?_, ?_, ?_⟩
  rotate_right
  · simp only [container.networkInfo, getPort, hport, bind, M.bind, InspectContainerNet]
    rfl
  · rw [← firstHostPort_eq_find, ← firstHostPort_eq_empty_iff]
    by_cases h : firstHostPort (ns.Ports (port ++ "/tcp")) = ""
    · simp [h]
    · simp [h]
  · rw [← firstHostPort_eq_find]
    by_cases h : firstHostPort (ns.Ports (port ++ "/tcp")) = ""
    · rw [if_pos h]
      constructor
      · intro he
        cases he
      · rintro ⟨b, hb, hbound⟩
        exact absurd hbound ((firstHostPort_eq_empty_iff _).1 h b hb)
    · rw [if_neg h]
      refine ⟨fun _ => ?_, fun _ => rfl⟩
      by_contra hne
      apply h
      rw [firstHostPort_eq_empty_iff]
      intro b hb hbound
      exact hne ⟨b, hb, hbound⟩
  · intro hempty
    rw [hrun1]
    simp [hempty]

/-- Witness of C22: the port 8888 is configured; the settings of
`TestContainerNetworkInfoNotFound` (IP `10.10.10.10`, no port bindings) give
the IP, two empty ports and the error, and settings that bind `8888/tcp` to the
host port 49160 give that port and no error. -/
theorem C22_networkInfo_witness :
    exCfg.port = some "8888" ∧
    (exOld0.networkInfo exCfg (.ok (some { IPAddress := "10.10.10.10" })) exRouted).value =
      some ({ IP := "10.10.10.10", HTTPHostPort := "", SSHHostPort := "" },
        some "Container port 8888 is not mapped to any host port") ∧
    (exOld0.networkInfo exCfg (.ok (some (exNet "49160"))) exRouted).value =
      some ({ IP := "172.17.0.2", HTTPHostPort := "49160", SSHHostPort := "" }, none) ∧
    ∃ err w1,
      exOld0.networkInfo exCfg (.ok (some (exNet "49160"))) exRouted =
        Res.ok ({ IP := (exNet "49160").IPAddress,
                  HTTPHostPort :=
                    ((((exNet "49160").Ports ("8888" ++ "/tcp")).find?
                      (fun b => decide (b.HostPort ≠ "" ∧ b.HostIp ≠ ""))).map
                        (fun b => b.HostPort)).getD "",
                  SSHHostPort :=
                    ((((exNet "49160").Ports "22/tcp").find?
                      (fun b => decide (b.HostPort ≠ "" ∧ b.HostIp ≠ ""))).map
                        (fun b => b.HostPort)).getD "" }, err) w1 ∧
      (err = some ("Container port " ++ "8888" ++ " is not mapped to any host port") ↔
        ∀ b ∈ (exNet "49160").Ports ("8888" ++ "/tcp"), ¬ (b.HostPort ≠ "" ∧ b.HostIp ≠ "")) ∧
      (err = none ↔
        ∃ b ∈ (exNet "49160").Ports ("8888" ++ "/tcp"), b.HostPort ≠ "" ∧ b.HostIp ≠ "") ∧
      ((∀ k, (exNet "49160").Ports k = []) →
        exOld0.networkInfo exCfg (.ok (some (exNet "49160"))) exRouted =
          Res.ok ({ IP := (exNet "49160").IPAddress, HTTPHostPort := "", SSHHostPort := "" },
            some ("Container port " ++ "8888" ++ " is not mapped to any host port")) w1) ∧
      exOld0.networkInfo exCfg (.ok none) exRouted =
        Res.ok ({ IP := "", HTTPHostPort := "", SSHHostPort := "" },
          some ("Container port " ++ "8888" ++ " is not mapped to any host port")) w1 :=
  ⟨rfl, by decide!, by decide!, C22_networkInfo exCfg "8888" rfl (exNet "49160") exOld0 exRouted⟩

/-- C23 as stated fails: in the run `exRunKeepsContainer` the attach, the wait
(exit status 0), the commit and the push succeed and the engine fails to
remove the build container (an error that `remove` only logs): the step
returns the image name and the build container is still in the engine. -/
theorem C23_counterexample :
    ((followLogsAndCommit exCfg exRunKeepsContainer).Forward
      { Previous := Result.cont exBuild, Params := [exRunArgs] } exBuilding).value =
      some (.ok (.str "localhost:3030/tsuru/myapp")) ∧
    "b01dface" ∈ ((followLogsAndCommit exCfg exRunKeepsContainer).Forward
      { Previous := Result.cont exBuild, Params := [exRunArgs] } exBuilding).world.containers := by
  decide!

/-- C23 amended: `followLogsAndCommit.Forward` on a build container.  When the
attach of the logs succeeds and the wait gives an exit status `n ≠ 0`, the step
fails with the error `Exit status n` after the inspect, the attach and the
wait only: no commit, no removal, and store, containers and images are as
before.  When the attach, the wait with exit status 0 and the commit (with its
push) succeed, a router being configured, the step returns the image name
`assembleImageName AppName`, which is an image of the engine, and calls
`remove` on the build container, whose errors are dropped: the container is
gone from the engine when the engine removes it and the record is gone from
the store when the store removes it. -/
theorem C23_followLogsAndCommit (cfg : Config) (f : RunFaults) (c : container)
    (args : runContainerActionsArgs) (rest : List runContainerActionsArgs) (w : World)
    (hinspect : f.inspectLogs = none) (hattach : f.attach = none) :
    (∀ n : Int, n ≠ 0 → f.wait = .ok n →
      ∃ w1, (followLogsAndCommit cfg f).Forward
          { Previous := Result.cont c, Params := args :: rest } w =
          Res.ok (.error ("Exit status " ++ toString n)) w1 ∧
        w1.log = w.log ++ [Event.inspectContainer c.ID, Event.attachToContainer c.ID,
          Event.waitContainer c.ID] ∧
        w1.store = w.store ∧ w1.containers = w.containers ∧ w1.images = w.images) ∧
    (f.wait = .ok 0 → f.commit = none → (cfg.registry = none ∨ f.push = none) →
      cfg.routerErr = none →
      ∃ w1, (followLogsAndCommit cfg f).Forward
          { Previous := Result.cont c, Params := args :: rest } w =
          Res.ok (.ok (.str (assembleImageName cfg c.AppName))) w1 ∧
        assembleImageName cfg c.AppName ∈ w1.images ∧
        Event.commitContainer c.ID (assembleImageName cfg c.AppName) ∈ w1.log ∧
        Event.removeContainer c.ID ∈ w1.log ∧
        Event.storeRemove (.byID c.ID) ∈ w1.log ∧
        (f.remove.engine = none → c.ID ∉ w1.containers) ∧
        (f.remove.store = none → w1.store = w.store.eraseP (Selector.byID c.ID).sat)) := by
  have hlogs : c.logs f.inspectLogs f.attach w = Res.ok none
      { store := w.store, containers := w.containers, images := w.images, routes := w.routes,
        now := w.now,
        log := w.log ++ [Event.inspectContainer c.ID] ++ [Event.attachToContainer c.ID],
        routeHistory := w.routeHistory } := by
    simp only [container.logs, hinspect, hattach, bind, M.bind, InspectContainer,
      AttachToContainer]
  refine ⟨?_, ?_⟩
  · intro n hn hwait
    have hrun : (followLogsAndCommit cfg f).Forward
        { Previous := Result.cont c, Params := args :: rest } w =
        Res.ok (.error ("Exit status " ++ toString n))
          { store := w.store, containers := w.containers, images := w.images,
            routes := w.routes, now := w.now,
            log := w.log ++ [Event.inspectContainer c.ID] ++ [Event.attachToContainer c.ID] ++
              [Event.waitContainer c.ID],
            routeHistory := w.routeHistory } := by
      simp only [followLogsAndCommit, bind, M.bind, hlogs, WaitContainer, hwait]
      rw [if_pos hn]
      rfl
    exact ⟨_, hrun, by simp, rfl, rfl, rfl⟩
  · intro hwait hcommit hpush hrouter
    have hcm : ∃ wc, c.commit cfg f.commit f.push
        { store := w.store, containers := w.containers, images := w.images, routes := w.routes,
          now := w.now,
          log := w.log ++ [Event.inspectContainer c.ID] ++ [Event.attachToContainer c.ID] ++
            [Event.waitContainer c.ID],
          routeHistory := w.routeHistory } =
          Res.ok (assembleImageName cfg c.AppName, none) wc ∧
        wc.store = w.store ∧ assembleImageName cfg c.AppName ∈ wc.images ∧
        Event.commitContainer c.ID (assembleImageName cfg c.AppName) ∈ wc.log := by
      simp only [container.commit, hcommit, bind, M.bind, CommitContainer, pushImage]
      cases hreg : cfg.registry with
      | none =>
        refine ⟨_, rfl, rfl, ?_, by simp⟩
        by_cases hm : assembleImageName cfg c.AppName ∈ w.images
        · simp [hm]
        · simp [hm]
      | some reg =>
        have hp : f.push = none := by
          rcases hpush with h | h
          · rw [hreg] at h
            cases h
          · exact h
        simp only [hp, PushImage]
        refine ⟨_, rfl, rfl, ?_, by simp⟩
        by_cases hm : assembleImageName cfg c.AppName ∈ w.images
        · simp [hm]
        · simp [hm]
    obtain ⟨wc, hcm, hsc, himg, hlogc⟩ := hcm
    obtain ⟨w1, hrm, hl1, hi1, hc1, hs1⟩ := remove_effect cfg f.remove c wc hrouter
    refine ⟨w1, ?_, ?_, ?_, ?_, ?_, hc1, ?_⟩
    · simp only [followLogsAndCommit, bind, M.bind, hlogs, WaitContainer, hwait]
      rw [if_neg (by simp)]
      simp only [bind, M.bind, hcm, hrm, pure, M.pure]
    · rw [hi1]
      exact himg
    · rw [hl1]
      exact List.mem_append_left _ hlogc
    · rw [hl1]
      simp
    · rw [hl1]
      simp
    · intro hst
      rw [hs1 hst, hsc]

/-- Witness of C23 amended: the build container `b01dface` in `exBuilding`;
with exit status 2 the step fails with `Exit status 2`, and when every call
succeeds it returns `localhost:3030/tsuru/myapp` and the container and its
record are gone. -/
theorem C23_followLogsAndCommit_witness :
    exRunBuildFails.inspectLogs = none ∧ exRunBuildFails.attach = none ∧
    exRunBuildFails.wait = .ok 2 ∧
    exRun.inspectLogs = none ∧ exRun.attach = none ∧ exRun.wait = .ok 0 ∧
    exRun.commit = none ∧ exRun.push = none ∧ exCfg.routerErr = none ∧
    (∃ w1, (followLogsAndCommit exCfg exRunBuildFails).Forward
        { Previous := Result.cont exBuild, Params := [exRunArgs] } exBuilding =
        Res.ok (.error ("Exit status " ++ toString (2 : Int))) w1 ∧
      w1.log = exBuilding.log ++ [Event.inspectContainer exBuild.ID,
        Event.attachToContainer exBuild.ID, Event.waitContainer exBuild.ID] ∧
      w1.store = exBuilding.store ∧ w1.containers = exBuilding.containers ∧
      w1.images = exBuilding.images) ∧
    (∃ w1, (followLogsAndCommit exCfg exRun).Forward
        { Previous := Result.cont exBuild, Params := [exRunArgs] } exBuilding =
        Res.ok (.ok (.str (assembleImageName exCfg exBuild.AppName))) w1 ∧
      assembleImageName exCfg exBuild.AppName ∈ w1.images ∧
      Event.commitContainer exBuild.ID (assembleImageName exCfg exBuild.AppName) ∈ w1.log ∧
      Event.removeContainer exBuild.ID ∈ w1.log ∧
      Event.storeRemove (.byID exBuild.ID) ∈ w1.log ∧
      (exRun.remove.engine = none → exBuild.ID ∉ w1.containers) ∧
      (exRun.remove.store = none →
        w1.store = exBuilding.store.eraseP (Selector.byID exBuild.ID).sat)) :=
  ⟨rfl, rfl, rfl, rfl, rfl, rfl, rfl, rfl, rfl,
   (C23_followLogsAndCommit exCfg exRunBuildFails exBuild exRunArgs [] exBuilding rfl rfl).1 2
     (by decide) rfl,
   (C23_followLogsAndCommit exCfg exRun exBuild exRunArgs [] exBuilding rfl rfl).2 rfl rfl
     (Or.inr rfl) rfl⟩

/-- C24: `available` is true exactly when the `Status` is `started` or
`unreachable`; it is false for `building`, `created`, `stopped`, `down`,
`error` and for every other status. -/
theorem C24_available (c : container) :
    (c.available = true ↔ (c.Status = "started" ∨ c.Status = "unreachable")) ∧
    (c.Status ≠ "started" ∧ c.Status ≠ "unreachable" ↔ c.available = false) ∧
    (({ c with Status := "building" } : container).available = false) ∧
    (({ c with Status := "created" } : container).available = false) ∧
    (({ c with Status := "stopped" } : container).available = false) ∧
    (({ c with Status := "down" } : container).available = false) ∧
    (({ c with Status := "error" } : container).available = false) := by
  refine ⟨?_, ?_, ?_, ?_, ?_, ?_, ?_⟩
  · simp [container.available]
  · simp [container.available]
  all_goals simp [container.available]

/-- C25: `assembleImageName name` is the `/`-join of the registry (only when a
non-empty registry is configured), the repository namespace and the name: it
is `namespace/name` without a registry and `registry/namespace/name` with one;
the namespace `tsuru` gives `tsuru/raising` without a registry and
`localhost:3030/tsuru/raising` with the registry `localhost:3030`. -/
theorem C25_assembleImageName (cfg : Config) (name : String) :
    assembleImageName cfg name =
      "/".intercalate
        ((if cfg.registry.getD "" ≠ "" then [cfg.registry.getD ""] else []) ++
          [cfg.repositoryNamespace, name]) ∧
    assembleImageName cfg name =
      (if cfg.registry.getD "" ≠ "" then
        cfg.registry.getD "" ++ "/" ++ cfg.repositoryNamespace ++ "/" ++ name
      else cfg.repositoryNamespace ++ "/" ++ name) ∧
    assembleImageName { repositoryNamespace := "tsuru" } "raising" = "tsuru/raising" ∧
    assembleImageName { registry := some "localhost:3030", repositoryNamespace := "tsuru" }
      "raising" = "localhost:3030/tsuru/raising" := by
  refine ⟨?_, ?_, by decide, by decide⟩
  · simp only [assembleImageName]
    by_cases h : cfg.registry.getD "" ≠ ""
    · simp [h]
    · simp [h]
  · simp only [assembleImageName]
    by_cases h : cfg.registry.getD "" ≠ ""
    · simp [h, String.intercalate, String.intercalate.go]
    · simp [h, String.intercalate, String.intercalate.go]

/-- C26: for every host `h` made of letters, digits, `.` and `-` (a host name
or an IPv4 address) and every port `p` made of digits, `urlToHost` of
`http://h:p` returns `h`; `http://10.10.10.10:4243` gives `10.10.10.10`,
`http://localhost:8081` gives `localhost`, and the empty string gives the
empty string. -/
theorem C26_urlToHost (h p : String)
    (hh : ∀ c ∈ h.toList, isHostChar c = true) (hp : ∀ c ∈ p.toList, c.isDigit = true) :
    urlToHost ("http://" ++ h ++ ":" ++ p) = some h ∧
    urlToHost "http://10.10.10.10:4243" = some "10.10.10.10" ∧
    urlToHost "http://localhost:8081" = some "localhost" ∧
    urlToHost "http://localhost:3234" = some "localhost" ∧
    urlToHost "" = some "" := by
  refine ⟨?_, by decide!, by decide!, by decide!, by decide!⟩
  have hs : "http://" ++ h ++ ":" ++ p =
      String.mk (['h', 't', 't', 'p', ':', '/', '/'] ++ (h.toList ++ ':' :: p.toList)) := by
    apply String.ext
    simp [String.data_append]
  rw [hs]
  simp only [urlToHost, urlParseHost_http h.toList p.toList hh hp,
    splitHostPortHost_host_port h.toList p.toList hh hp]
  rfl

/-- Witness of C26: the host `10.10.10.10` and the port `4243`. -/
theorem C26_urlToHost_witness :
    (∀ c ∈ "10.10.10.10".toList, isHostChar c = true) ∧
    (∀ c ∈ "4243".toList, c.isDigit = true) ∧
    urlToHost ("http://" ++ "10.10.10.10" ++ ":" ++ "4243") = some "10.10.10.10" :=
  ⟨by decide, by decide, (C26_urlToHost "10.10.10.10" "4243" (by decide) (by decide)).1⟩

/-- C27 at the failing input: when the router cannot be obtained (`getRouter`
returns an error, which the backward functions only log), the backward of
`addNewRoutes` on a non-empty list of new containers and the backward of
`removeOldRoutes` with a non-empty `toRemove` panic on the first call on the
nil router, before any call is made, and the backward of
`provisionAddUnitsToHost` on a non-empty list panics inside `remove`: none of
them completes. -/
theorem C27_backward_panics_without_router (cfg : Config) (f : ChangeFaults) (e : Err)
    (he : cfg.routerErr = some e) (c : container) (cs : List container) (o : container)
    (os : List container) (args : changeUnitsPipelineArgs) (rest : List changeUnitsPipelineArgs) (prev : Result)
    (w : World) :
    rollback (args :: rest) [(addNewRoutes cfg f, Result.conts (c :: cs))] w =
      Res.panic "invalid memory address or nil pointer dereference" w ∧
    (args.toRemove = o :: os →
      rollback (args :: rest) [(removeOldRoutes cfg f, prev)] w =
        Res.panic "invalid memory address or nil pointer dereference" w) ∧
    ∃ w1, rollback (args :: rest) [(provisionAddUnitsToHost cfg f, Result.conts (c :: cs))] w =
      Res.panic "invalid memory address or nil pointer dereference" w1 := by
  refine ⟨?_, ?_, ?_⟩
  · simp only [rollback, addNewRoutes, getRouter, he, removeRoutes, bind, M.bind, RemoveRoute]
  · intro hrem
    simp only [rollback, removeOldRoutes, getRouter, he, hrem, addRoutes, bind, M.bind, AddRoute]
  · obtain ⟨w1, h1⟩ := removeContainers_without_router cfg f.bwAdd c cs 0 w e he
    exact ⟨w1, by simp only [rollback, provisionAddUnitsToHost, bind, M.bind, h1]⟩

/-- Witness of C27: without the key `docker:router` the replace-units flow of
`myapp` starts its two new containers, fails at `addNewRoutes` (the router
cannot be obtained) and panics in the backward of `provisionAddUnitsToHost`;
the backward of `addNewRoutes` on the new container `new0` panics too. -/
theorem C27_backward_panics_without_router_witness :
    exNoRouter.routerErr = some "key \"docker:router\" not found" ∧
    (runReplaceUnitsPipeline exNoRouter exReplaceOk exChangeArgs exRouted).value = none ∧
    exChangeArgs.toRemove = [exOld0, exOld1] ∧
    (rollback [exChangeArgs] [(addNewRoutes exNoRouter exReplaceOk, Result.conts [exNew0])]
      exRouted = Res.panic "invalid memory address or nil pointer dereference" exRouted ∧
     (exChangeArgs.toRemove = [exOld0, exOld1] →
      rollback [exChangeArgs] [(removeOldRoutes exNoRouter exReplaceOk, Result.null)] exRouted =
        Res.panic "invalid memory address or nil pointer dereference" exRouted) ∧
     ∃ w1, rollback [exChangeArgs]
        [(provisionAddUnitsToHost exNoRouter exReplaceOk, Result.conts [exNew0])] exRouted =
        Res.panic "invalid memory address or nil pointer dereference" w1) :=
  ⟨rfl, by decide!, rfl,
   C27_backward_panics_without_router exNoRouter exReplaceOk _ rfl exNew0 [] exOld0 [exOld1]
     exChangeArgs [] Result.null exRouted⟩

/-- C28 as stated fails: after one call of `Write` on a fresh writer, and no
call of `WriteHeader`, `Wrote` returns true. -/
theorem C28_counterexample :
    (({} : FlushingWriter).after [WriterCall.Write {} [104, 105]]).Wrote = true ∧
    ¬ ∃ call ∈ [WriterCall.Write {} [104, 105]], call.isWriteHeader = true := by
  decide

/-- C28 amended: after any sequence of calls of `Write` and `WriteHeader` on a
writer, `Wrote` is true exactly when it was true before or the sequence is
not empty; on a fresh writer, `Wrote` is true exactly when `WriteHeader` or
`Write` has been called, and it is false when no call was made. -/
theorem C28_Wrote (w : FlushingWriter) (under : ResponseWriter) (calls : List WriterCall) :
    ((w.after calls).Wrote = true ↔ (w.Wrote = true ∨ calls ≠ [])) ∧
    ((({ ResponseWriter := under } : FlushingWriter).after calls).Wrote = true ↔ calls ≠ []) ∧
    ({ ResponseWriter := under } : FlushingWriter).Wrote = false := by
  refine ⟨?_, ?_, rfl⟩
  · simp only [FlushingWriter.Wrote, wrote_after]
    cases calls with
    | nil => simp
    | cons c cs => simp
  · simp only [FlushingWriter.Wrote, wrote_after]
    cases calls with
    | nil => simp
    | cons c cs => simp

/-- C29: `Stop app` returns nil for every app, whatever the outcomes of the
listing of the containers, of the stop calls on the engine and of the updates
of the status; and `Restart` then runs `Start` from the world that `Stop`
leaves. -/
theorem C29_Stop_returns_nil (cfg : Config) (fs : StopAppFaults) (fa : StartAppFaults)
    (app : App) (w : World) :
    ∃ w1, Stop fs app w = Res.ok none w1 ∧
      Restart cfg fs fa app w = Start cfg fa app w1 := by
  have hstop : ∃ w1, Stop fs app w = Res.ok none w1 := by
    cases hl : fs.list with
    | some e =>
      exact ⟨_, by simp only [Stop, listContainersByApp, hl, bind, M.bind, pure, M.pure]; rfl⟩
    | none =>
      obtain ⟨w1, h1⟩ := stopTasks_run fs.tasks (appRecords w.store app.GetName) 0
        { w with log := w.log ++ [Event.storeList app.GetName] }
      refine ⟨w1, ?_⟩
      simp only [Stop, listContainersByApp, hl, bind, M.bind, h1, pure, M.pure]
      rfl
  obtain ⟨w1, h1⟩ := hstop
  refine ⟨w1, h1, ?_⟩
  simp only [Restart, bind, M.bind, h1]

/-- C30: for every string that parses as a URL and whose authority has no
colon (no explicit port), `urlToHost` returns the empty string, as for
`http://localhost` and for `host.com:4243`, which has no scheme separator and
so an empty authority.  Hence, for a non-empty host `h`, a node address that
`hostToNodeAddress h` returns is never such an address, and when every
registered node has such an address `hostToNodeAddress h` fails with
`Host h not found` (the host between backquotes). -/
theorem C30_urlToHost_without_port (h : String) (hne : h ≠ "") :
    (∀ s host, urlParseHost s = some host → ':' ∉ host → urlToHost s = some "") ∧
    urlToHost "http://localhost" = some "" ∧
    urlToHost "host.com:4243" = some "" ∧
    (∀ ns a w w1, hostToNodeAddress (.ok ns) h w = Res.ok (.ok a) w1 →
      a ∈ ns ∧ ¬ ∃ host, urlParseHost a = some host ∧ ':' ∉ host) ∧
    (∀ ns w, (∀ a ∈ ns, ∃ host, urlParseHost a = some host ∧ ':' ∉ host) →
      hostToNodeAddress (.ok ns) h w =
        Res.ok (.error ("Host `" ++ h ++ "` not found"))
          { w with log := w.log ++ [Event.nodes] }) := by
  have hA : ∀ s host, urlParseHost s = some host → ':' ∉ host → urlToHost s = some "" := by
    intro s host hs hc
    simp only [urlToHost, hs, splitHostPortHost_no_colon host hc]
  refine ⟨hA, by decide!, by decide!, ?_, ?_⟩
  · intro ns a w w1 hrun
    simp only [hostToNodeAddress, Nodes, bind, M.bind] at hrun
    obtain ⟨hmem, hurl⟩ := hostToNodeAddressLoop_found h ns _ _ a hrun
    refine ⟨hmem, ?_⟩
    rintro ⟨host, hp, hc⟩
    rw [hA a host hp hc, Option.some.injEq] at hurl
    exact hne hurl.symm
  · intro ns w hall
    simp only [hostToNodeAddress, Nodes, bind, M.bind]
    apply hostToNodeAddressLoop_not_found h hne ns
    intro a ha
    obtain ⟨host, hp, hc⟩ := hall a ha
    exact hA a host hp hc

/-- Witness of C30: the host `localhost` and the nodes registered as
`http://localhost` and `host.com:4243`. -/
theorem C30_urlToHost_without_port_witness :
    "localhost" ≠ "" ∧
    (∀ a ∈ ["http://localhost", "host.com:4243"],
      ∃ host, urlParseHost a = some host ∧ ':' ∉ host) ∧
    hostToNodeAddress (.ok ["http://localhost", "host.com:4243"]) "localhost" exWorld =
      Res.ok (.error ("Host `" ++ "localhost" ++ "` not found"))
        { exWorld with log := exWorld.log ++ [Event.nodes] } :=
  ⟨by decide,
   by
    intro a ha
    simp only [List.mem_cons, List.mem_singleton, List.not_mem_nil, or_false] at ha
    rcases ha with rfl | rfl
    · exact ⟨"localhost".toList, by decide!, by decide⟩
    · exact ⟨[], by decide!, by decide⟩,
   (C30_urlToHost_without_port "localhost" (by decide)).2.2.2.2 _ exWorld (by
    intro a ha
    simp only [List.mem_cons, List.mem_singleton, List.not_mem_nil, or_false] at ha
    rcases ha with rfl | rfl
    · exact ⟨"localhost".toList, by decide!, by decide⟩
    · exact ⟨[], by decide!, by decide⟩)⟩

/-- C4: `RemoveUnits` validates before removing.  With a nil app, with
`units < 1`, when the listing fails and when `units` is at least the number of
the app's containers it returns an error (`remove units: cannot remove all
units from app` in the last case) and makes no call but the listing query: the
world is unchanged up to the log entry of the query.  With a non-nil app, a
successful listing and `1 ≤ units <` number of containers it returns nil when
a router is configured; when `getRouter` returns an error it does not return:
the first `removeContainer` panics on the nil router. -/
theorem C4_RemoveUnits_validation (cfg : Config) (f : RemoveUnitsFaults) (a : App) (units : Nat)
    (w : World) :
    RemoveUnits cfg f none units w =
      Res.ok (some "remove units: app should not be nil") w ∧
    (units < 1 → RemoveUnits cfg f (some a) units w =
      Res.ok (some "remove units: units must be at least 1") w) ∧
    (∀ e, 1 ≤ units → f.list = some e → RemoveUnits cfg f (some a) units w =
      Res.ok (some e) { w with log := w.log ++ [Event.storeFind a.Name] }) ∧
    (1 ≤ units → f.list = none → (appRecords w.store a.Name).length ≤ units →
      RemoveUnits cfg f (some a) units w =
        Res.ok (some "remove units: cannot remove all units from app")
          { w with log := w.log ++ [Event.storeFind a.Name] }) ∧
    (cfg.routerErr = none → f.list = none → 1 ≤ units →
      units < (appRecords w.store a.Name).length →
      ∃ w', RemoveUnits cfg f (some a) units w = Res.ok none w') ∧
    (∀ e, cfg.routerErr = some e → f.list = none → 1 ≤ units →
      units < (appRecords w.store a.Name).length →
      ∃ w', RemoveUnits cfg f (some a) units w =
        Res.panic "invalid memory address or nil pointer dereference" w') := by
  have hlen : (orderedByStatus w.store a.Name).length = (appRecords w.store a.Name).length :=
    List.length_insertionSort _ _
  refine ⟨rfl, ?_, ?_, ?_, ?_, ?_⟩
  · intro hu
    simp only [RemoveUnits, hu, if_true, pure, M.pure]
  · intro e hu hl
    have hu1 : ¬ units < 1 := by omega
    simp only [RemoveUnits, hu1, if_false, bind, M.bind, listContainersByAppOrderedByStatus, hl,
      App.GetName, pure, M.pure]
  · intro hu hl hall
    have hu1 : ¬ units < 1 := by omega
    have hge : units ≥ (orderedByStatus w.store a.Name).length := by
      rw [hlen]
      exact hall
    simp only [RemoveUnits, hu1, if_false, bind, M.bind, listContainersByAppOrderedByStatus, hl,
      App.GetName, hge, if_true, pure, M.pure]
  · intro hrouter hl hu hlt
    have hu1 : ¬ units < 1 := by omega
    have hge : ¬ units ≥ (orderedByStatus w.store a.Name).length := by
      rw [hlen]
      omega
    obtain ⟨w1, h1, _⟩ :=
      removeUnitsLoop_run cfg f.removals (orderedByStatus w.store a.Name) hrouter units 0
        { w with log := w.log ++ [Event.storeFind a.Name] } (by rw [hlen]; omega)
    refine ⟨w1, ?_⟩
    simp only [RemoveUnits, hu1, if_false, bind, M.bind, listContainersByAppOrderedByStatus, hl,
      App.GetName, hge, h1, pure, M.pure]
  · intro e he hl hu hlt
    have hu1 : ¬ units < 1 := by omega
    have hge : ¬ units ≥ (orderedByStatus w.store a.Name).length := by
      rw [hlen]
      omega
    obtain ⟨n, hn⟩ : ∃ n, units = n + 1 := ⟨units - 1, by omega⟩
    obtain ⟨w1, h1⟩ :=
      removeUnitsLoop_without_router cfg f.removals (orderedByStatus w.store a.Name) 0 n
        { w with log := w.log ++ [Event.storeFind a.Name] } e he (by rw [hlen]; omega)
    refine ⟨w1, ?_⟩
    rw [← hn] at h1
    simp only [RemoveUnits, hu1, if_false, bind, M.bind, listContainersByAppOrderedByStatus, hl,
      App.GetName, hge, h1]

/-- Witness of C4: on the world `exUnits` (three containers of `myapp`):
0 units and 3 units are refused without any removal, 2 units are accepted
when a router is configured, and without the key `docker:router` the removal
of 1 unit ends in a panic. -/
theorem C4_RemoveUnits_validation_witness :
    RemoveUnits exCfg {} (some exApp) 0 exUnits =
      Res.ok (some "remove units: units must be at least 1") exUnits ∧
    RemoveUnits exCfg {} (some exApp) 3 exUnits =
      Res.ok (some "remove units: cannot remove all units from app")
        { exUnits with log := exUnits.log ++ [Event.storeFind exApp.Name] } ∧
    (∃ w', RemoveUnits exCfg {} (some exApp) 2 exUnits = Res.ok none w') ∧
    (RemoveUnits exNoRouter {} (some exApp) 1 exUnits).value = none ∧
    ∃ w', RemoveUnits exNoRouter {} (some exApp) 1 exUnits =
      Res.panic "invalid memory address or nil pointer dereference" w' :=
  ⟨(C4_RemoveUnits_validation exCfg {} exApp 0 exUnits).2.1 (by decide!),
    (C4_RemoveUnits_validation exCfg {} exApp 3 exUnits).2.2.2.1 (by decide!) rfl (by decide!),
    (C4_RemoveUnits_validation exCfg {} exApp 2 exUnits).2.2.2.2.1 (by decide!) rfl (by decide!)
      (by decide!),
    by decide!,
    (C4_RemoveUnits_validation exNoRouter {} exApp 1 exUnits).2.2.2.2.2 _ rfl rfl (by decide!)
      (by decide!)⟩

/-- C5: for an app with `n` records and `1 ≤ units < n`, the listing
succeeding.  With a router configured, whatever the outcome of the individual
removals, `RemoveUnits` returns nil and the containers that the engine is
asked to remove (one `RemoveContainer` call per `removeContainer`) are, in
some order, exactly the first `units` entries of the ordered listing, each
once; when the store removals succeed (the IDs of the store being distinct,
an invariant of the data model), exactly `n - units ≥ 1` records of the app
are left.  When `getRouter` returns an error, `RemoveUnits` does not return
nil: the first `removeContainer` panics on the nil router. -/
theorem C5_RemoveUnits_removes_first (cfg : Config) (f : RemoveUnitsFaults) (a : App)
    (units : Nat) (w : World) (hlist : f.list = none)
    (hunits : 1 ≤ units) (hless : units < (appRecords w.store a.Name).length) :
    (cfg.routerErr = none →
      ∃ w', RemoveUnits cfg f (some a) units w = Res.ok none w' ∧
        (removedIDs w'.log).Perm
          (removedIDs w.log ++ ((orderedByStatus w.store a.Name).take units).map (fun c => c.ID)) ∧
        ((w.store.map (fun c => c.ID)).Nodup →
          (∀ i, i < units → (f.removals i).remove.store = none) →
          (appRecords w'.store a.Name).length = (appRecords w.store a.Name).length - units ∧
          1 ≤ (appRecords w'.store a.Name).length)) ∧
    (∀ e, cfg.routerErr = some e →
      ∃ w', RemoveUnits cfg f (some a) units w =
        Res.panic "invalid memory address or nil pointer dereference" w') := by
  have hlen : (orderedByStatus w.store a.Name).length = (appRecords w.store a.Name).length :=
    List.length_insertionSort _ _
  have hu1 : ¬ units < 1 := by omega
  have hge : ¬ units ≥ (orderedByStatus w.store a.Name).length := by
    rw [hlen]
    omega
  refine ⟨?_, ?_⟩
  · intro hrouter
    obtain ⟨w1, h1, hl1, hs1⟩ :=
      removeUnitsLoop_run cfg f.removals (orderedByStatus w.store a.Name) hrouter units 0
        { w with log := w.log ++ [Event.storeFind a.Name] } (by rw [hlen]; omega)
    refine ⟨w1, ?_, ?_, ?_⟩
    · simp only [RemoveUnits, hu1, if_false, bind, M.bind, listContainersByAppOrderedByStatus,
        hlist, App.GetName, hge, h1, pure, M.pure]
    · rw [hl1, removedIDs_append]
      simp [removedIDs]
    · intro hnd hstore
      have hst := hs1 (fun j _ hj => hstore j (by omega)) hnd
      simp only [List.drop_zero] at hst
      have hcount : (appRecords w1.store a.Name).length =
          (appRecords w.store a.Name).length - units := by
        rw [hst]
        exact count_after_removal w.store a.Name units hnd
      exact ⟨hcount, by omega⟩
  · intro e he
    obtain ⟨n, hn⟩ : ∃ n, units = n + 1 := ⟨units - 1, by omega⟩
    obtain ⟨w1, h1⟩ :=
      removeUnitsLoop_without_router cfg f.removals (orderedByStatus w.store a.Name) 0 n
        { w with log := w.log ++ [Event.storeFind a.Name] } e he (by rw [hlen]; omega)
    refine ⟨w1, ?_⟩
    rw [← hn] at h1
    simp only [RemoveUnits, hu1, if_false, bind, M.bind, listContainersByAppOrderedByStatus,
      hlist, App.GetName, hge, h1]

/-- Witness of C5: two units are removed from `exUnits`.  With a router, the
engine failing to remove the first one, the result is nil all the same, the
containers removed are the one in error and the stopped one, and the started
one is left.  Without the key `docker:router` the run ends in a panic after
the engine and the store were asked to remove the first container. -/
theorem C5_RemoveUnits_removes_first_witness :
    exEngineFails.list = none ∧ 1 ≤ 2 ∧
    2 < (appRecords exUnits.store exApp.Name).length ∧
    (RemoveUnits exCfg exEngineFails (some exApp) 2 exUnits).value = some none ∧
    removedIDs (RemoveUnits exCfg exEngineFails (some exApp) 2 exUnits).world.log =
      ["u-err", "u-stopped"] ∧
    (RemoveUnits exNoRouter exEngineFails (some exApp) 2 exUnits).value = none ∧
    removedIDs (RemoveUnits exNoRouter exEngineFails (some exApp) 2 exUnits).world.log =
      ["u-err"] ∧
    exCfg.routerErr = none ∧
    (∃ w', RemoveUnits exCfg exEngineFails (some exApp) 2 exUnits = Res.ok none w' ∧
      (removedIDs w'.log).Perm (removedIDs exUnits.log ++
        ((orderedByStatus exUnits.store exApp.Name).take 2).map (fun c => c.ID)) ∧
      ((exUnits.store.map (fun c => c.ID)).Nodup →
        (∀ i, i < 2 → (exEngineFails.removals i).remove.store = none) →
        (appRecords w'.store exApp.Name).length =
          (appRecords exUnits.store exApp.Name).length - 2 ∧
        1 ≤ (appRecords w'.store exApp.Name).length)) ∧
    exNoRouter.routerErr = some "key \"docker:router\" not found" ∧
    ∃ w', RemoveUnits exNoRouter exEngineFails (some exApp) 2 exUnits =
      Res.panic "invalid memory address or nil pointer dereference" w' :=
  ⟨by decide!, by decide!, by decide!, by decide!, by decide!, by decide!, by decide!, rfl,
    (C5_RemoveUnits_removes_first exCfg exEngineFails exApp 2 exUnits (by decide!) (by decide!)
      (by decide!)).1 rfl,
    rfl,
    (C5_RemoveUnits_removes_first exNoRouter exEngineFails exApp 2 exUnits (by decide!)
      (by decide!) (by decide!)).2 _ rfl⟩

/-- C20: `Destroy app`, the listing of the containers of the app succeeding.
With a router configured, `removeContainer` runs on every listed container
(the engine is asked to remove each of them once, in some order), then the
engine is asked to remove the image `assembleImageName name`, then the router
is asked to remove the backend of the app; whatever the outcomes of the
removals of the containers and of the image, `Destroy` returns the outcome of
`RemoveBackend`.  When `getRouter` returns an error and the app has a
container, `Destroy` does not return: the first `removeContainer` panics on
the nil router, and neither the removal of the image nor that of the backend
is attempted.  When `getRouter` returns an error and the app has no container,
the removal of the image is attempted and `Destroy` returns the error of
`getRouter`. -/
theorem C20_Destroy (cfg : Config) (f : DestroyFaults) (app : App) (w : World)
    (hlist : f.list = none) :
    (cfg.routerErr = none →
      ∃ w1 w2,
        removeContainers cfg f.removals 0 (appRecords w.store app.GetName)
          { w with log := w.log ++ [Event.storeList app.GetName] } = Res.ok () w1 ∧
        (removedIDs w1.log).Perm
          (removedIDs w.log ++ (appRecords w.store app.GetName).map (fun c => c.ID)) ∧
        Destroy cfg f app w = Res.ok f.backend w2 ∧
        w2.log = w1.log ++ [Event.removeImage (assembleImageName cfg app.GetName),
          Event.removeBackend app.GetName]) ∧
    (∀ e, cfg.routerErr = some e → appRecords w.store app.GetName ≠ [] →
      ∃ w1 evs, Destroy cfg f app w =
          Res.panic "invalid memory address or nil pointer dereference" w1 ∧
        w1.log = w.log ++ evs ∧
        Event.removeImage (assembleImageName cfg app.GetName) ∉ evs ∧
        Event.removeBackend app.GetName ∉ evs) ∧
    (∀ e, cfg.routerErr = some e → appRecords w.store app.GetName = [] →
      ∃ w1, Destroy cfg f app w = Res.ok (some e) w1 ∧
        w1.log = w.log ++ [Event.storeList app.GetName,
          Event.removeImage (assembleImageName cfg app.GetName)]) := by
  have himg : ∀ w1 : World, ∃ e wi,
      removeImage f.image (assembleImageName cfg app.GetName) w1 = Res.ok e wi ∧
      wi.log = w1.log ++ [Event.removeImage (assembleImageName cfg app.GetName)] := by
    intro w1
    simp only [removeImage, RemoveImage]
    cases f.image with
    | some e => exact ⟨_, _, rfl, rfl⟩
    | none => exact ⟨_, _, rfl, rfl⟩
  refine ⟨?_, ?_, ?_⟩
  · intro hrouter
    obtain ⟨w1, hrm, hids⟩ := removeContainers_removed cfg f.removals hrouter
      (appRecords w.store app.GetName) 0
      { w with log := w.log ++ [Event.storeList app.GetName] }
    have hget : getRouter cfg = (some Router.mk, none) := by simp [getRouter, hrouter]
    obtain ⟨e, wi, hi, hli⟩ := himg w1
    have hback : ∃ wb, RemoveBackend (some Router.mk) f.backend app.GetName wi =
        Res.ok f.backend wb ∧ wb.log = wi.log ++ [Event.removeBackend app.GetName] := by
      simp only [RemoveBackend]
      cases f.backend with
      | some e => exact ⟨_, rfl, rfl⟩
      | none => exact ⟨_, rfl, rfl⟩
    obtain ⟨wb, hb, hlb⟩ := hback
    refine ⟨w1, wb, hrm, ?_, ?_, ?_⟩
    · rw [hids]
      simp [removedIDs, List.filterMap_append]
    · simp only [Destroy, listContainersByApp, hlist, bind, M.bind, hrm, hi, hget, hb]
      cases f.backend with
      | some e => rfl
      | none => rfl
    · rw [hlb, hli]
      simp
  · intro e he hne
    obtain ⟨c, cs, hcs⟩ : ∃ c cs, appRecords w.store app.GetName = c :: cs := by
      cases h : appRecords w.store app.GetName with
      | nil => exact absurd h hne
      | cons c cs => exact ⟨c, cs, rfl⟩
    obtain ⟨w1, evs, hp, hl, h1, h2⟩ := removeContainers_panic_log cfg f.removals c cs 0
      { w with log := w.log ++ [Event.storeList app.GetName] } e he
    refine ⟨w1, Event.storeList app.GetName :: evs, ?_, ?_, ?_, ?_⟩
    · simp only [Destroy, listContainersByApp, hlist, bind, M.bind, hcs, hp]
    · rw [hl]
      simp
    · intro hmem
      rcases List.mem_cons.1 hmem with h | h
      · cases h
      · exact h1 _ h
    · intro hmem
      rcases List.mem_cons.1 hmem with h | h
      · cases h
      · exact h2 _ h
  · intro e he hnil
    have hget : getRouter cfg = (none, some e) := by simp [getRouter, he]
    obtain ⟨e1, wi, hi, hli⟩ := himg { w with log := w.log ++ [Event.storeList app.GetName] }
    refine ⟨wi, ?_, ?_⟩
    · simp only [Destroy, listContainersByApp, hlist, bind, M.bind, hnil, removeContainers,
        pure, M.pure, hi, hget]
    · rw [hli]
      simp

/-- Witness of C20: the three containers of `myapp` in `exUnits`.  With a
router, the engine failing to remove the first container and the image,
`Destroy` returns nil after asking the engine to remove the three containers,
then the image, and the router to remove the backend.  Without the key
`docker:router` the run ends in a panic at the first container; from the
world `exWorld`, in which `myapp` has no container, `Destroy` returns the
error of `getRouter`. -/
theorem C20_Destroy_witness :
    exDestroyFails.list = none ∧
    (Destroy exCfg exDestroyFails exApp exUnits).value = some none ∧
    removedIDs (Destroy exCfg exDestroyFails exApp exUnits).world.log =
      ["u-started", "u-stopped", "u-err"] ∧
    (Destroy exCfg exDestroyFails exApp exUnits).world.log.drop 17 =
      [Event.removeImage "localhost:3030/tsuru/myapp", Event.removeBackend "myapp"] ∧
    (Destroy exNoRouter exDestroyFails exApp exUnits).value = none ∧
    removedIDs (Destroy exNoRouter exDestroyFails exApp exUnits).world.log = ["u-started"] ∧
    exCfg.routerErr = none ∧
    (∃ w1 w2,
      removeContainers exCfg exDestroyFails.removals 0 (appRecords exUnits.store exApp.GetName)
        { exUnits with log := exUnits.log ++ [Event.storeList exApp.GetName] } = Res.ok () w1 ∧
      (removedIDs w1.log).Perm
        (removedIDs exUnits.log ++ (appRecords exUnits.store exApp.GetName).map (fun c => c.ID)) ∧
      Destroy exCfg exDestroyFails exApp exUnits = Res.ok exDestroyFails.backend w2 ∧
      w2.log = w1.log ++ [Event.removeImage (assembleImageName exCfg exApp.GetName),
        Event.removeBackend exApp.GetName]) ∧
    exNoRouter.routerErr = some "key \"docker:router\" not found" ∧
    appRecords exUnits.store exApp.GetName ≠ [] ∧
    (∃ w1 evs, Destroy exNoRouter exDestroyFails exApp exUnits =
        Res.panic "invalid memory address or nil pointer dereference" w1 ∧
      w1.log = exUnits.log ++ evs ∧
      Event.removeImage (assembleImageName exNoRouter exApp.GetName) ∉ evs ∧
      Event.removeBackend exApp.GetName ∉ evs) ∧
    appRecords exWorld.store exApp.GetName = [] ∧
    ∃ w1, Destroy exNoRouter exDestroyFails exApp exWorld =
        Res.ok (some "key \"docker:router\" not found") w1 ∧
      w1.log = exWorld.log ++ [Event.storeList exApp.GetName,
        Event.removeImage (assembleImageName exNoRouter exApp.GetName)] :=
  ⟨rfl, by decide!, by decide!, by decide!, by decide!, by decide!, rfl,
   (C20_Destroy exCfg exDestroyFails exApp exUnits rfl).1 rfl,
   rfl, by decide!,
   (C20_Destroy exNoRouter exDestroyFails exApp exUnits rfl).2.1 _ rfl (by decide!),
   by decide!,
   (C20_Destroy exNoRouter exDestroyFails exApp exWorld rfl).2.2 _ rfl (by decide!)⟩

/-- C13: `addContainersWithHost` with `units = 0` returns the error
`Cannot add 0 units` and starts no flow (the world is as before).  With
`units ≥ 1` and the addresses given by the engine being URLs, the `units`
start flows return `units` outcomes; when none is an error the created
containers are returned, as many as `units`, each with
`Image = assembleImageName name`, with no error; when one is an error and a
router is configured (or no flow succeeded), the first error is returned,
with no records, after `removeContainer` ran on every created container; when
one is an error, a flow succeeded and `getRouter` returns an error, the
function does not return: the first `removeContainer` panics on the nil
router.  When the address that the engine gives for the container of the
first flow is not a URL, the function does not return either: `urlToHost`
dereferences the nil URL. -/
theorem C13_addContainersWithHost (cfg : Config) (f : AddFaults) (a : App) (units : Nat)
    (dest : List String) (w : World) :
    (units = 0 →
      addContainersWithHost cfg f a units dest w = Res.ok (.error "Cannot add 0 units") w) ∧
    ((∀ i, (f.starts i).run.create.parses) → 1 ≤ units →
      ∃ created errors w1,
        startUnits cfg f.starts a (assembleImageName cfg a.GetName) dest 0 units w =
          Res.ok (created, errors) w1 ∧
        created.length + errors.length = units ∧
        (errors = [] →
          addContainersWithHost cfg f a units dest w = Res.ok (.ok created) w1 ∧
          created.length = units ∧
          ∀ c ∈ created, c.Image = assembleImageName cfg a.GetName) ∧
        (∀ e rest, errors = e :: rest → cfg.routerErr = none ∨ created = [] →
          ∃ w', addContainersWithHost cfg f a units dest w = Res.ok (.error e) w' ∧
            removeContainers cfg f.undo 0 created w1 = Res.ok () w' ∧
            (removedIDs w'.log).Perm (removedIDs w1.log ++ created.map (fun c => c.ID))) ∧
        (∀ e rest er, errors = e :: rest → cfg.routerErr = some er → created ≠ [] →
          ∃ w', addContainersWithHost cfg f a units dest w =
            Res.panic "invalid memory address or nil pointer dereference" w')) ∧
    (∀ k cmds port addr id, 1 ≤ units → dest = [] →
      (f.starts 0).prepare = .ok (k, cmds) → (f.starts 0).run.insert = none →
      cfg.port = some port → (f.starts 0).run.create.create = .ok (addr, id) →
      urlToHost addr = none →
      ∃ w', addContainersWithHost cfg f a units dest w =
        Res.panic "invalid memory address or nil pointer dereference" w') := by
  refine ⟨?_, ?_, ?_⟩
  · intro hz
    simp only [addContainersWithHost, hz, if_true, pure, M.pure]
  · intro hparse hpos
    have hz : ¬ units = 0 := by omega
    obtain ⟨⟨created, errors⟩, w1, hsu, _⟩ :=
      ret_startUnits cfg f.starts a (assembleImageName cfg a.GetName) dest hparse units 0 w
    obtain ⟨hlen, _⟩ := start_appName cfg f.starts a _ dest units 0 w w1 created errors hsu
    refine ⟨created, errors, w1, hsu, hlen, ?_, ?_, ?_⟩
    · intro he
      subst he
      refine ⟨?_, by simpa using hlen, ?_⟩
      · simp only [addContainersWithHost, if_neg hz, bind, M.bind, hsu, pure, M.pure]
      · intro c hc
        exact (startUnits_created cfg f.starts a _ dest units 0 w w1 created [] hsu c hc).1
    · intro e rest he hor
      subst he
      rcases hor with hrouter | hnil
      · obtain ⟨w', hrm, hids⟩ := removeContainers_removed cfg f.undo hrouter created 0 w1
        refine ⟨w', ?_, hrm, by rw [hids]⟩
        simp only [addContainersWithHost, if_neg hz, bind, M.bind, hsu, hrm, pure, M.pure]
      · subst hnil
        refine ⟨w1, ?_, rfl, by simp⟩
        simp only [addContainersWithHost, if_neg hz, bind, M.bind, hsu, removeContainers, pure,
          M.pure]
    · intro e rest er he hr hne
      subst he
      obtain ⟨c, cs, hcs⟩ : ∃ c cs, created = c :: cs := by
        cases created with
        | nil => exact absurd rfl hne
        | cons c cs => exact ⟨c, cs, rfl⟩
      subst hcs
      obtain ⟨w', hp⟩ := removeContainers_without_router cfg f.undo c cs 0 w1 er hr
      refine ⟨w', ?_⟩
      simp only [addContainersWithHost, if_neg hz, bind, M.bind, hsu, hp]
  · intro k cmds port addr id hpos hdest hprep hins hport hcreate hurl
    obtain ⟨n, hn⟩ : ∃ n, units = n + 1 := ⟨units - 1, by omega⟩
    subst hn
    subst hdest
    exact addContainersWithHost_unparsable cfg f a n w k cmds port addr id hprep hins hport
      hcreate hurl

/-- Witness of C13: two units for `myapp`.  Both start flows succeed
(`exAddOk`): the two containers are returned.  The second flow fails
(`exAddFails`, its rollback removes `new1`): with a router the error is
returned after the container `new0` of the first flow is removed from the
engine; without the key `docker:router` the run ends in a panic.  The node of
the first container has the address `:4243` (`exAddBadNode`): the run ends in
a panic. -/
theorem C13_addContainersWithHost_witness :
    (addContainersWithHost exCfg exAddFails exApp 2 [] exWorld).value =
      some (.error "cannot start") ∧
    removedIDs (addContainersWithHost exCfg exAddFails exApp 2 [] exWorld).world.log =
      ["new1", "new0"] ∧
    (addContainersWithHost exNoRouter exAddFails exApp 2 [] exWorld).value = none ∧
    (addContainersWithHost exCfg exAddBadNode exApp 2 [] exWorld).value = none ∧
    (addContainersWithHost exCfg exAddOk exApp 2 [] exWorld).value =
      some (.ok [exStarted, exStarted1]) ∧
    (∀ i, (exAddOk.starts i).run.create.parses) ∧
    (∃ created errors w1,
        startUnits exCfg exAddOk.starts exApp (assembleImageName exCfg exApp.GetName) [] 0 2
          exWorld = Res.ok (created, errors) w1 ∧
        created.length + errors.length = 2 ∧
        (errors = [] →
          addContainersWithHost exCfg exAddOk exApp 2 [] exWorld = Res.ok (.ok created) w1 ∧
          created.length = 2 ∧
          ∀ c ∈ created, c.Image = assembleImageName exCfg exApp.GetName) ∧
        (∀ e rest, errors = e :: rest → exCfg.routerErr = none ∨ created = [] →
          ∃ w', addContainersWithHost exCfg exAddOk exApp 2 [] exWorld = Res.ok (.error e) w' ∧
            removeContainers exCfg exAddOk.undo 0 created w1 = Res.ok () w' ∧
            (removedIDs w'.log).Perm (removedIDs w1.log ++ created.map (fun c => c.ID))) ∧
        (∀ e rest er, errors = e :: rest → exCfg.routerErr = some er → created ≠ [] →
          ∃ w', addContainersWithHost exCfg exAddOk exApp 2 [] exWorld =
            Res.panic "invalid memory address or nil pointer dereference" w')) ∧
    urlToHost ":4243" = none ∧
    ∃ w', addContainersWithHost exCfg exAddBadNode exApp 2 [] exWorld =
      Res.panic "invalid memory address or nil pointer dereference" w' :=
  ⟨by decide!, by decide!, by decide!, by decide!, by decide!, exStarts_parses,
   (C13_addContainersWithHost exCfg exAddOk exApp 2 [] exWorld).2.1 exStarts_parses (by decide),
   by decide!,
   (C13_addContainersWithHost exCfg exAddBadNode exApp 2 [] exWorld).2.2 "" [] "8888" ":4243"
     "new0" (by decide) rfl rfl rfl rfl rfl (by decide!)⟩
